import Mathlib

/-!
# The client RPC channel of Mir (`src/client/rpc/mir_socket_rpc_channel.cpp`)

A shallow embedding of `MirProtobufRpcChannel`: the channel's members and the state of
its collaborators are one record, every member function is a state transformer that
either returns or throws, and every call the channel makes on a collaborator
(transport, report sink, lifecycle control, display configuration, surface map,
pending-call registry, caller closures) is appended to a trace.

Bytes are natural numbers below 256; a cast to `unsigned char` is written `% 256`.

What the repository defines outside this file of the channel is modelled from the spec
and marked so: the transport (a byte stream and a queue of descriptors to receive, a
script of failing sends), the pending-call registry and the surface map. The protobuf
codecs, the layout of `MirEvent` and the behaviour of the sinks are parameters (`Env`).

A response object is owned by the caller and changed through pointers; the functions that
change it take it as an argument and return it as they leave it, also when they throw.

The layout is: the model, then the observations and the samples the theorems use, then
the lemmas and, for each claim `Cn`, its theorem.
-/

namespace Mir

/-! ## Exceptions -/

/-- The exceptions the channel distinguishes: `send_message` catches only
`std::runtime_error`, the receive paths catch every `std::exception`. -/
inductive Exn where
  | runtime_error (what : String)
  | exception (what : String)
deriving DecidableEq, Repr

/-! ## Wire messages (`mir_protobuf_wire.proto`) -/

/-- The message `mir.protobuf.wire.Invocation`. -/
structure Invocation where
  id : Nat
  method_name : String
  parameters : List Nat
deriving DecidableEq, Repr

/-- The message `mir.protobuf.wire.Result`: an optional call id, an optional response and
the repeated serialized event sequences. -/
structure Result where
  id : Option Nat
  response : Option (List Nat)
  events : List (List Nat)
deriving DecidableEq, Repr

/-- A default-constructed `Result`, as declared by `mir::protobuf::wire::Result result;`. -/
def Result.default : Result :=
  { id := none, response := none, events := [] }

/-- Accessor `Result::has_id()`. -/
def Result.has_id (r : Result) : Bool := r.id.isSome

/-! ## Response payloads (`mir_protobuf.proto`), the fields the channel touches -/

/-- The message `mir.protobuf.Buffer`: the repeated `fd`, the optional
`fds_on_side_channel`, and the remaining fields, which the channel never touches. -/
structure Buffer where
  fd : List Int
  fds_on_side_channel : Option Int
  rest : List Nat
deriving DecidableEq, Repr

/-- The message `mir.protobuf.Surface`, with its optional nested `buffer`. -/
structure Surface where
  fd : List Int
  fds_on_side_channel : Option Int
  buffer : Option Buffer
  rest : List Nat
deriving DecidableEq, Repr

/-- The message `mir.protobuf.Screencast`, with its optional nested `buffer`. -/
structure Screencast where
  buffer : Option Buffer
  rest : List Nat
deriving DecidableEq, Repr

/-- The message `mir.protobuf.Platform`. -/
structure Platform where
  fd : List Int
  fds_on_side_channel : Option Int
  rest : List Nat
deriving DecidableEq, Repr

/-- The message `mir.protobuf.Connection`, with its optional nested `platform`. -/
structure Connection where
  platform : Option Platform
  rest : List Nat
deriving DecidableEq, Repr

/-- The message `mir.protobuf.SocketFD`. -/
structure SocketFD where
  fd : List Int
  fds_on_side_channel : Option Int
  rest : List Nat
deriving DecidableEq, Repr

/-- A response object `google::protobuf::Message*` handed to `CallMethod`: one of the six
types `receive_file_descriptors` knows by name, or any other message type. -/
inductive Message where
  | buffer (m : Buffer)
  | surface (m : Surface)
  | screencast (m : Screencast)
  | platform (m : Platform)
  | connection (m : Connection)
  | socket_fd (m : SocketFD)
  | other (type_name : String) (rest : List Nat)
deriving DecidableEq, Repr

/-- Accessor `Message::GetTypeName()`. -/
def Message.GetTypeName : Message → String
  | .buffer _ => "mir.protobuf.Buffer"
  | .surface _ => "mir.protobuf.Surface"
  | .screencast _ => "mir.protobuf.Screencast"
  | .platform _ => "mir.protobuf.Platform"
  | .connection _ => "mir.protobuf.Connection"
  | .socket_fd _ => "mir.protobuf.SocketFD"
  | .other type_name _ => type_name

/-- What the template `receive_any_file_descriptors_for<MessageType>` requires of
`MessageType`: the generated accessors of the fields `fd` and `fds_on_side_channel`, and
the upcast of `*response` to a `Message` for the report. -/
class FdBearing (α : Type) where
  clear_fd : α → α
  add_fd : α → Int → α
  fd : α → List Int
  fds_on_side_channel : α → Int
  clear_fds_on_side_channel : α → α
  upcast : α → Message

instance : FdBearing Buffer where
  clear_fd m := { m with fd := [] }
  add_fd m x := { m with fd := m.fd ++ [x] }
  fd m := m.fd
  fds_on_side_channel m := m.fds_on_side_channel.getD 0
  clear_fds_on_side_channel m := { m with fds_on_side_channel := none }
  upcast := Message.buffer

instance : FdBearing Surface where
  clear_fd m := { m with fd := [] }
  add_fd m x := { m with fd := m.fd ++ [x] }
  fd m := m.fd
  fds_on_side_channel m := m.fds_on_side_channel.getD 0
  clear_fds_on_side_channel m := { m with fds_on_side_channel := none }
  upcast := Message.surface

instance : FdBearing Platform where
  clear_fd m := { m with fd := [] }
  add_fd m x := { m with fd := m.fd ++ [x] }
  fd m := m.fd
  fds_on_side_channel m := m.fds_on_side_channel.getD 0
  clear_fds_on_side_channel m := { m with fds_on_side_channel := none }
  upcast := Message.platform

instance : FdBearing SocketFD where
  clear_fd m := { m with fd := [] }
  add_fd m x := { m with fd := m.fd ++ [x] }
  fd m := m.fd
  fds_on_side_channel m := m.fds_on_side_channel.getD 0
  clear_fds_on_side_channel m := { m with fds_on_side_channel := none }
  upcast := Message.socket_fd

/-! ## Pushed events (`mir_protobuf.proto`) -/

/-- The message `mir.protobuf.LifecycleEvent`. -/
structure LifecycleEvent where
  new_state : Nat
deriving DecidableEq, Repr

/-- The message `mir.protobuf.Event`, with its optional `raw` bytes. -/
structure Event where
  raw : Option (List Nat)
deriving DecidableEq, Repr

/-- The message `mir.protobuf.EventSequence`. -/
structure EventSequence where
  display_configuration : Option (List Nat)
  lifecycle_event : Option LifecycleEvent
  event : List Event
deriving DecidableEq, Repr

/-- The enumerator `mir_lifecycle_connection_lost` of `MirLifecycleState`. -/
def mir_lifecycle_connection_lost : Nat := 2

/-! ## The collaborators -/

/-- What the channel uses and this file does not define: the protobuf codecs, the layout
of `MirEvent`, and whether a sink the channel calls into returns (`none`) or throws. -/
structure Env where
  /-- Bytes written by `Invocation::SerializeToArray`; their number is `ByteSize()`. -/
  serialize : Invocation → List Nat
  /-- Method `wire::Result::ParseFromArray`. -/
  parse_result : List Nat → Result
  /-- Method `EventSequence::ParseFromString`. -/
  parse_event_sequence : List Nat → EventSequence
  /-- Method `response->ParseFromString`, on the response object of a pending call. -/
  parse_response : Message → List Nat → Message
  /-- Constant `sizeof(MirEvent)`. -/
  sizeof_MirEvent : Nat
  /-- Field `e.surface.id` of a `MirEvent` copied from raw bytes. -/
  surface_id : List Nat → Int
  /-- The handler behind `LifecycleControl::call_lifecycle_event_handler`. -/
  lifecycle_handler : Nat → Option Exn
  /-- Method `DisplayConfiguration::update_configuration`. -/
  update_configuration : List Nat → Option Exn
  /-- Method `MirSurface::handle_event`. -/
  handle_event : Int → List Nat → Option Exn

/-- One call the channel makes on a collaborator. -/
inductive Effect where
  /-- Call `transport->send_data(buffer)`. -/
  | send_data (buffer : List Nat)
  /-- Call `transport->receive_data(_, size)` and the bytes it delivered, if it returned. -/
  | receive_data (size : Nat) (received : Option (List Nat))
  /-- Call `transport->receive_file_descriptors(fds)` with `fds.size() = room` and the
  descriptors it delivered, if it returned. -/
  | receive_file_descriptors (room : Nat) (received : Option (List Int))
  | invocation_requested (invocation : Invocation)
  | invocation_succeeded (invocation : Invocation)
  | invocation_failed (invocation : Invocation) (err : Exn)
  | result_receipt_succeeded (result : Result)
  | result_receipt_failed (x : Exn)
  | result_processing_failed (result : Result) (x : Exn)
  | file_descriptors_received (response : Message) (fds : List Int)
  | event_parsing_succeeded (e : List Nat)
  | event_parsing_failed (event : Event)
  | orphaned_result (result : Result)
  /-- Call `lifecycle_control->call_lifecycle_event_handler(state)`. -/
  | call_lifecycle_event_handler (state : Nat)
  /-- Call `display_configuration->update_configuration(config)`. -/
  | update_configuration (config : List Nat)
  /-- Call `surface_map->with_surface_do(id, _)`. -/
  | with_surface_do (id : Int)
  /-- Call `surface->handle_event(e)` on the surface with this id. -/
  | handle_event (id : Int) (e : List Nat)
  /-- Call `pending_calls.save_completion_details(invocation, response, callback)`. -/
  | save_completion_details (invocation : Invocation)
  /-- Call `pending_calls.complete_response(result)`. -/
  | complete_response (result : Result)
  /-- Call `pending_calls.force_completion()`. -/
  | force_completion
  /-- Call `complete->Run()` on a caller closure, with the response object as the
  closure finds it. -/
  | Run (complete : Nat) (response : Message)
deriving DecidableEq, Repr

/-- Modelled from the spec: the Transport (§6), "send(bytes) -> fails with
TransportError; data_available() -> bool; receive(buffer, length) -> fails with
TransportError on short read/EOF; receive_descriptors(count) -> sequence of handles".
The state is the byte stream and the descriptors the server has sent and the client has
not yet received, and for each coming `send_data` whether it fails. -/
structure Transport where
  incoming : List Nat
  incoming_fds : List Int
  send_failures : List Bool
deriving DecidableEq, Repr

/-- Modelled from the spec: a PendingCall (§3) of the Pending Call Registry, "call id,
destination response slot, completion callback". The callback `CallMethod` stores is
always `receive_file_descriptors` bound to the response and the caller closure
`complete`, so the entry keeps these two. -/
structure PendingCall where
  id : Nat
  response : Message
  complete : Nat
deriving DecidableEq, Repr

/-- The members of `MirProtobufRpcChannel` and the state of its collaborators. -/
structure MirProtobufRpcChannel where
  disconnected : Bool
  header_bytes : List Nat
  body_bytes : List Nat
  next_message_id : Nat
  pending_calls : List PendingCall
  transport : Transport
  surface_map : List Int
  trace : List Effect
deriving DecidableEq, Repr

/-- A member function: from a channel state it returns or throws, and leaves a state. -/
def M (α : Type) : Type := MirProtobufRpcChannel → Except Exn α × MirProtobufRpcChannel

instance : Monad M where
  pure a := fun c => (.ok a, c)
  bind m f := fun c =>
    match m c with
    | (.ok a, c1) => f a c1
    | (.error x, c1) => (.error x, c1)

instance : MonadExcept Exn M where
  throw x := fun c => (.error x, c)
  tryCatch m handler := fun c =>
    match m c with
    | (.ok a, c1) => (.ok a, c1)
    | (.error x, c1) => handler x c1

/-- Read the channel state. -/
def M.read : M MirProtobufRpcChannel := fun c => (.ok c, c)

/-- Change the channel state. -/
def M.update (f : MirProtobufRpcChannel → MirProtobufRpcChannel) : M Unit :=
  fun c => (.ok (), f c)

/-- Append one call to the trace. -/
def emit (e : Effect) : M Unit :=
  M.update fun c => { c with trace := c.trace ++ [e] }

/-- A call into a sink that returns or throws. -/
def sink (outcome : Option Exn) : M Unit :=
  match outcome with
  | none => pure ()
  | some x => throw x

/-! ## Calls on the collaborators -/

/-- Modelled from the spec: Transport `send(bytes) -> fails with TransportError`. The
buffer is handed over, and the call throws when the transport's next send is a
failing one. -/
def transport_send_data (buffer : List Nat) : M Unit := do
  emit (.send_data buffer)
  let c ← M.read
  M.update fun c =>
    { c with transport := { c.transport with send_failures := c.transport.send_failures.tail } }
  if c.transport.send_failures.head? = some true then
    throw (Exn.runtime_error "Failed to send message to server")

/-- Modelled from the spec: Transport `data_available() -> bool`. -/
def transport_data_available : M Bool := do
  let c ← M.read
  pure (!c.transport.incoming.isEmpty)

/-- Modelled from the spec: Transport `receive(buffer, length) -> fails with
TransportError on short read/EOF`. It delivers the next `size` bytes of the stream, or
uses up a stream that is too short and throws. -/
def transport_receive_data (size : Nat) : M (List Nat) := do
  let c ← M.read
  if size ≤ c.transport.incoming.length then
    M.update fun c =>
      { c with transport := { c.transport with incoming := c.transport.incoming.drop size } }
    emit (.receive_data size (some (c.transport.incoming.take size)))
    pure (c.transport.incoming.take size)
  else
    M.update fun c => { c with transport := { c.transport with incoming := [] } }
    emit (.receive_data size none)
    throw (Exn.runtime_error "Failed to read message from server")

/-- Modelled from the spec: Transport `receive_descriptors(count) -> sequence of
handles`. It fills a vector of `room` entries with the next descriptors, in the order
they were sent, or throws when fewer are to be had. -/
def transport_receive_file_descriptors (room : Nat) : M (List Int) := do
  let c ← M.read
  if room ≤ c.transport.incoming_fds.length then
    M.update fun c =>
      { c with transport :=
          { c.transport with incoming_fds := c.transport.incoming_fds.drop room } }
    emit (.receive_file_descriptors room (some (c.transport.incoming_fds.take room)))
    pure (c.transport.incoming_fds.take room)
  else
    M.update fun c => { c with transport := { c.transport with incoming_fds := [] } }
    emit (.receive_file_descriptors room none)
    throw (Exn.runtime_error "Failed to read file descriptors from server")

/-- Call `lifecycle_control->call_lifecycle_event_handler(state)`. -/
def call_lifecycle_event_handler (env : Env) (state : Nat) : M Unit := do
  emit (.call_lifecycle_event_handler state)
  sink (env.lifecycle_handler state)

/-- Call `display_configuration->update_configuration(config)`. -/
def update_configuration (env : Env) (config : List Nat) : M Unit := do
  emit (.update_configuration config)
  sink (env.update_configuration config)

/-- Modelled from the spec: Surface registry `with_surface(id, fn)`, "looks up a live
surface by id and applies fn, no-op if absent"; `fn` is the lambda of
`process_event_sequence`, which calls `surface->handle_event(e)`. -/
def with_surface_do (env : Env) (id : Int) (e : List Nat) : M Unit := do
  emit (.with_surface_do id)
  let c ← M.read
  if id ∈ c.surface_map then
    emit (.handle_event id e)
    sink (env.handle_event id e)

/-- Call `complete->Run()` on a caller closure; the response object is an in-out
argument of the functions below, so it is passed along. -/
def Run (complete : Nat) (response : Message) (c : MirProtobufRpcChannel) :
    Except Exn Unit × Message × MirProtobufRpcChannel :=
  (.ok (), response, { c with trace := c.trace ++ [.Run complete response] })

/-! ## `MirProtobufRpcChannel` -/

/-- The constructor: `disconnected(false)`, nothing pending, an empty body buffer. Its
initializer list does not name `header_bytes`, so what that member holds after
construction is not determined by the constructor: it is the argument `header_bytes`. -/
def MirProtobufRpcChannel.mk_channel (transport : Transport) (surface_map : List Int)
    (header_bytes : List Nat) : MirProtobufRpcChannel :=
  { disconnected := false
    header_bytes := header_bytes
    body_bytes := []
    next_message_id := 0
    pending_calls := []
    transport := transport
    surface_map := surface_map
    trace := [] }

/-- The template `receive_any_file_descriptors_for`. The pointer `response` is an in-out
argument: `none` is the null pointer, and the object is returned as the function leaves
it, also when the transport throws. -/
def receive_any_file_descriptors_for {α : Type} [FdBearing α] (response : Option α)
    (c : MirProtobufRpcChannel) : Except Exn Unit × Option α × MirProtobufRpcChannel :=
  match response with
  | none => (.ok (), none, c)
  | some response =>
    let response := FdBearing.clear_fd response
    if FdBearing.fds_on_side_channel response > 0 then
      match transport_receive_file_descriptors (FdBearing.fds_on_side_channel response).toNat c with
      | (.error x, c) => (.error x, some response, c)
      | (.ok fds, c) =>
        let response := fds.foldl FdBearing.add_fd response
        let c := { c with trace := c.trace ++
          [.file_descriptors_received (FdBearing.upcast response) fds] }
        (.ok (), some (FdBearing.clear_fds_on_side_channel response), c)
    else
      (.ok (), some (FdBearing.clear_fds_on_side_channel response), c)

/-- The object the pointer `surface` of `receive_file_descriptors` points to. -/
def Message.get_surface (response : Message) : Option Surface :=
  match response with
  | .surface m => some m
  | _ => none

/-- The object the pointer `buffer` of `receive_file_descriptors` points to: the response
itself, or the nested buffer of a surface or screencast that has one. -/
def Message.get_buffer (response : Message) : Option Buffer :=
  match response with
  | .buffer m => some m
  | .surface m => m.buffer
  | .screencast m => m.buffer
  | _ => none

/-- The object the pointer `platform` of `receive_file_descriptors` points to. -/
def Message.get_platform (response : Message) : Option Platform :=
  match response with
  | .platform m => some m
  | .connection m => m.platform
  | _ => none

/-- The object the pointer `socket_fd` of `receive_file_descriptors` points to. -/
def Message.get_socket_fd (response : Message) : Option SocketFD :=
  match response with
  | .socket_fd m => some m
  | _ => none

/-- Write through the pointer `surface`. -/
def Message.set_surface (response : Message) (surface : Option Surface) : Message :=
  match response, surface with
  | .surface _, some s => .surface s
  | m, _ => m

/-- Write through the pointer `buffer`. -/
def Message.set_buffer (response : Message) (buffer : Option Buffer) : Message :=
  match response, buffer with
  | .buffer _, some b => .buffer b
  | .surface m, some b => .surface { m with buffer := some b }
  | .screencast m, some b => .screencast { m with buffer := some b }
  | m, _ => m

/-- Write through the pointer `platform`. -/
def Message.set_platform (response : Message) (platform : Option Platform) : Message :=
  match response, platform with
  | .platform _, some p => .platform p
  | .connection m, some p => .connection { m with platform := some p }
  | m, _ => m

/-- Write through the pointer `socket_fd`. -/
def Message.set_socket_fd (response : Message) (socket_fd : Option SocketFD) : Message :=
  match response, socket_fd with
  | .socket_fd _, some s => .socket_fd s
  | m, _ => m

/-- Method `MirProtobufRpcChannel::receive_file_descriptors`. The response is an in-out
argument. The type name decides which of the four pointers are set: `surface` for a
Surface; `buffer` for a Buffer, and for a Surface or Screencast that has one;
`platform` for a Platform, and for a Connection that has one; `socket_fd` for a SocketFD.
Each call of `receive_any_file_descriptors_for` reads the object behind its pointer (`none`
when the pointer is null) and writes it back. -/
def receive_file_descriptors (response : Message) (complete : Nat)
    (c : MirProtobufRpcChannel) : Except Exn Unit × Message × MirProtobufRpcChannel :=
  if !c.disconnected then
    let message_type := response.GetTypeName
    let surface_set : Bool := message_type = "mir.protobuf.Surface"
    let buffer_set : Bool :=
      message_type = "mir.protobuf.Buffer" || message_type = "mir.protobuf.Surface"
        || message_type = "mir.protobuf.Screencast"
    let platform_set : Bool :=
      message_type = "mir.protobuf.Platform" || message_type = "mir.protobuf.Connection"
    let socket_fd_set : Bool := message_type = "mir.protobuf.SocketFD"
    let surface : Option Surface := if surface_set then response.get_surface else none
    match receive_any_file_descriptors_for surface c with
    | (.error x, surface, c) => (.error x, response.set_surface surface, c)
    | (.ok _, surface, c) =>
      let response := response.set_surface surface
      let buffer : Option Buffer := if buffer_set then response.get_buffer else none
      match receive_any_file_descriptors_for buffer c with
      | (.error x, buffer, c) => (.error x, response.set_buffer buffer, c)
      | (.ok _, buffer, c) =>
        let response := response.set_buffer buffer
        let platform : Option Platform :=
          if platform_set then response.get_platform else none
        match receive_any_file_descriptors_for platform c with
        | (.error x, platform, c) => (.error x, response.set_platform platform, c)
        | (.ok _, platform, c) =>
          let response := response.set_platform platform
          let socket_fd : Option SocketFD :=
            if socket_fd_set then response.get_socket_fd else none
          match receive_any_file_descriptors_for socket_fd c with
          | (.error x, socket_fd, c) => (.error x, response.set_socket_fd socket_fd, c)
          | (.ok _, socket_fd, c) => Run complete (response.set_socket_fd socket_fd) c
  else
    Run complete response c

/-! ## The pending-call registry (`pending_calls`) -/

/-- The callback `CallMethod` stores with a pending call, run by the registry:
`receive_file_descriptors` bound to the response object and the caller closure. -/
def PendingCall.callback (response : Message) (complete : Nat) : M Unit := fun c =>
  match receive_file_descriptors response complete c with
  | (r, _, c1) => (r, c1)

/-- Modelled from the spec: Pending Call Registry `register` (§4.2), "stores a
PendingCall keyed by call_id". -/
def pending_calls_save_completion_details (invocation : Invocation) (response : Message)
    (complete : Nat) : M Unit := do
  emit (.save_completion_details invocation)
  M.update fun c =>
    { c with pending_calls :=
        c.pending_calls.filter (fun call => call.id != invocation.id) ++
          [{ id := invocation.id, response := response, complete := complete }] }

/-- Modelled from the spec: Pending Call Registry `complete` (§4.2), "looks up and removes
the PendingCall; copies/moves the decoded payload into the response slot; invokes the
completion callback. Fails silently (logs, does not throw) with UnknownCallId if no
match". -/
def pending_calls_complete_response (env : Env) (result : Result) : M Unit := do
  emit (.complete_response result)
  let c ← M.read
  match c.pending_calls.find? (fun call => call.id == result.id.getD 0) with
  | none => emit (.orphaned_result result)
  | some call =>
    M.update fun c =>
      { c with pending_calls := c.pending_calls.filter (fun other => other.id != call.id) }
    PendingCall.callback (env.parse_response call.response (result.response.getD []))
      call.complete

/-- Modelled from the spec: the iteration of `force_completion_all` (§4.2), in which each
outstanding call is removed and its callback invoked. -/
def force_completion_each : List PendingCall → M Unit
  | [] => pure ()
  | call :: rest => do
    M.update fun c =>
      { c with pending_calls := c.pending_calls.filter (fun other => other.id != call.id) }
    PendingCall.callback call.response call.complete
    force_completion_each rest

/-- Modelled from the spec: Pending Call Registry `force_completion_all` (§4.2),
"iterates and completes every outstanding PendingCall with an error indication (no
payload)"; completion "deregisters it from the Registry atomically with delivering the
callback" (§3). The callback takes no argument, so nothing is passed to it. -/
def pending_calls_force_completion : M Unit := do
  emit .force_completion
  let c ← M.read
  force_completion_each c.pending_calls

/-! ## The channel's member functions -/

/-- Method `MirProtobufRpcChannel::notify_disconnected`. -/
def notify_disconnected (env : Env) : M Unit := do
  let c ← M.read
  M.update fun c => { c with disconnected := true }
  if !c.disconnected then
    call_lifecycle_event_handler env mir_lifecycle_connection_lost
  pending_calls_force_completion

/-- The loop of `process_event_sequence` over `seq.event(i)`. -/
def process_raw_events (env : Env) : List Event → M Unit
  | [] => pure ()
  | event :: rest => do
    match event.raw with
    | some raw_event =>
      if raw_event.length = env.sizeof_MirEvent then
        emit (.event_parsing_succeeded raw_event)
        with_surface_do env (env.surface_id raw_event) raw_event
      else
        emit (.event_parsing_failed event)
    | none => pure ()
    process_raw_events env rest

/-- Method `MirProtobufRpcChannel::process_event_sequence`. -/
def process_event_sequence (env : Env) (event : List Nat) : M Unit := do
  let seq := env.parse_event_sequence event
  match seq.display_configuration with
  | some config => update_configuration env config
  | none => pure ()
  match seq.lifecycle_event with
  | some lifecycle_event => call_lifecycle_event_handler env lifecycle_event.new_state
  | none => pure ()
  process_raw_events env seq.event

/-- The loop `for (int i = 0; i != result.events_size(); ++i)` of the receive paths. -/
def process_events (env : Env) : List (List Nat) → M Unit
  | [] => pure ()
  | event :: rest => do
    process_event_sequence env event
    process_events env rest

/-- The second `try` block of `on_message_available` and of `read_message`. -/
def process_result (env : Env) (result : Result) : M Unit := do
  try
    process_events env result.events
    if result.has_id then
      pending_calls_complete_response env result
  catch x =>
    emit (.result_processing_failed result x)

/-- The value of a `uint16_t` whose two bytes in memory are `b0`, `b1`, after
`be16toh`. -/
def be16toh (bytes : List Nat) : Nat :=
  (bytes.getD 0 0 % 256) * 256 + bytes.getD 1 0 % 256

/-- Method `std::vector::resize` on a byte vector. -/
def resize (v : List Nat) (n : Nat) : List Nat :=
  v.take n ++ List.replicate (n - v.length) 0

/-- The first `try` block of `on_message_available`: header, length, body. -/
def receive_frame (result : Result) : M Unit := do
  try
    let header ← transport_receive_data 2
    let message_size := be16toh header
    M.update fun c => { c with body_bytes := resize c.body_bytes message_size }
    let body ← transport_receive_data message_size
    M.update fun c => { c with body_bytes := body }
    emit (.result_receipt_succeeded result)
  catch x =>
    emit (.result_receipt_failed x)
    throw x

/-- The `while` loop of `on_message_available`, run for at most `fuel` iterations; it
returns `true` when it ended because the transport had no more data, `false` when the
iterations ran out. -/
def on_message_available_loop (env : Env) : Nat → M Bool
  | 0 => pure false
  | fuel + 1 => do
    if ← transport_data_available then
      let result := Result.default
      receive_frame result
      process_result env result
      on_message_available_loop env fuel
    else
      pure true

/-- Method `MirProtobufRpcChannel::on_message_available`. Every iteration that does not
throw takes at least the two header bytes from the stream, so one more iteration than
there are bytes is enough. -/
def on_message_available (env : Env) : M Bool := do
  let c ← M.read
  on_message_available_loop env (c.transport.incoming.length + 1)

/-- Method `std::copy` into a vector and `SerializeToArray`: overwrite the bytes of `v`
from `offset` on. -/
def write_at (v : List Nat) (offset : Nat) (bytes : List Nat) : List Nat :=
  v.take offset ++ bytes ++ v.drop (offset + bytes.length)

/-- Method `MirProtobufRpcChannel::send_message`. -/
def send_message (env : Env) (body : Invocation) (invocation : Invocation) : M Unit := do
  let size := (env.serialize body).length
  let header_bytes : List Nat :=
    [((size >>> 8) &&& 0xff) % 256, ((size >>> 0) &&& 0xff) % 256]
  let send_buffer := List.replicate (header_bytes.length + size) 0
  let send_buffer := write_at send_buffer 0 header_bytes
  let send_buffer := write_at send_buffer header_bytes.length (env.serialize body)
  try
    transport_send_data send_buffer
  catch err =>
    match err with
    | .runtime_error _ =>
      emit (.invocation_failed invocation err)
      notify_disconnected env
      throw err
    | _ => throw err
  emit (.invocation_succeeded invocation)

/-- Modelled from the spec: `invocation_for` of the base channel, which builds the
Invocation (§3), "target method identifier, serialized parameter bytes, a monotonically
assigned call id". -/
def invocation_for (method : String) (parameters : List Nat) : M Invocation := do
  let c ← M.read
  M.update fun c => { c with next_message_id := c.next_message_id + 1 }
  pure { id := c.next_message_id, method_name := method, parameters := parameters }

/-- Method `MirProtobufRpcChannel::CallMethod`; `parameters` are the serialized
parameters, and the callback saved is `receive_file_descriptors` bound to `response` and
`complete`. -/
def CallMethod (env : Env) (method : String) (parameters : List Nat) (response : Message)
    (complete : Nat) : M Unit := do
  let invocation ← invocation_for method parameters
  emit (.invocation_requested invocation)
  pending_calls_save_completion_details invocation response complete
  send_message env invocation invocation

/-- Method `MirProtobufRpcChannel::read_message_header`. -/
def read_message_header : M Nat := do
  let c ← M.read
  pure ((c.header_bytes.getD 0 0 <<< 8) + c.header_bytes.getD 1 0)

/-- Method `MirProtobufRpcChannel::read_message_body`: parse `body_size` bytes of
`body_bytes`. The source hands `ParseFromArray` the vector's storage and `body_size`
without comparing it with the vector's size; for a `body_size` above that size the read
goes past the vector, which C++ leaves undefined, and the model parses the bytes the
vector holds. -/
def read_message_body (env : Env) (body_size : Nat) : M Result := do
  let c ← M.read
  pure (env.parse_result (c.body_bytes.take body_size))

/-- Method `MirProtobufRpcChannel::read_message`. -/
def read_message (env : Env) : M Unit := do
  let result ←
    try
      let body_size ← read_message_header
      let result ← read_message_body env body_size
      emit (.result_receipt_succeeded result)
      pure result
    catch x =>
      emit (.result_receipt_failed x)
      throw x
  process_result env result

/-! ## Observations on a trace -/

/-- The buffers handed to `transport->send_data`, in order. -/
def sent_buffers (trace : List Effect) : List (List Nat) :=
  trace.filterMap fun e =>
    match e with
    | .send_data buffer => some buffer
    | _ => none

/-- The sizes with which `transport->receive_file_descriptors` was called, in order. -/
def fd_requests (trace : List Effect) : List Nat :=
  trace.filterMap fun e =>
    match e with
    | .receive_file_descriptors room _ => some room
    | _ => none

/-- The effects of resolving descriptors and of running a caller closure. -/
def Effect.is_completion : Effect → Bool
  | .receive_file_descriptors _ _ => true
  | .file_descriptors_received _ _ => true
  | .Run _ _ => true
  | _ => false

/-- The state `c1` comes from `c` by completing calls: descriptors were taken from the
transport, pending calls were removed, and effects of completion were appended to the
trace; nothing else changed. -/
def CompletionSteps (c c1 : MirProtobufRpcChannel) : Prop :=
  ∃ es : List Effect, (∀ e ∈ es, e.is_completion = true) ∧
    c1 = { c with
      pending_calls := c1.pending_calls
      transport := { c.transport with incoming_fds := c1.transport.incoming_fds }
      trace := c.trace ++ es }

/-! ## The fd-bearing payload shapes -/

/-- The four message types `receive_file_descriptors` instantiates the template
`receive_any_file_descriptors_for` with. -/
inductive Shape where
  | surface (m : Surface)
  | buffer (m : Buffer)
  | platform (m : Platform)
  | socket_fd (m : SocketFD)
deriving DecidableEq, Repr

/-- The field `fd` of a shape. -/
def Shape.fd : Shape → List Int
  | .surface m => m.fd
  | .buffer m => m.fd
  | .platform m => m.fd
  | .socket_fd m => m.fd

/-- The field `fds_on_side_channel` of a shape, as stored: `none` when unset. -/
def Shape.declared : Shape → Option Int
  | .surface m => m.fds_on_side_channel
  | .buffer m => m.fds_on_side_channel
  | .platform m => m.fds_on_side_channel
  | .socket_fd m => m.fds_on_side_channel

/-- Accessor `fds_on_side_channel()` of a shape: an unset field reads as 0. -/
def Shape.fds_on_side_channel (s : Shape) : Int := s.declared.getD 0

/-- The shape as a `Message`. -/
def Shape.upcast : Shape → Message
  | .surface m => Message.surface m
  | .buffer m => Message.buffer m
  | .platform m => Message.platform m
  | .socket_fd m => Message.socket_fd m

/-- The template `receive_any_file_descriptors_for` at a non-null pointer to a shape, for
each of its four instantiations. -/
def Shape.receive_any_file_descriptors_for (s : Shape) (c : MirProtobufRpcChannel) :
    Except Exn Unit × Shape × MirProtobufRpcChannel :=
  match s with
  | .surface m =>
    match Mir.receive_any_file_descriptors_for (some m) c with
    | (r, m1, c1) => (r, .surface (m1.getD m), c1)
  | .buffer m =>
    match Mir.receive_any_file_descriptors_for (some m) c with
    | (r, m1, c1) => (r, .buffer (m1.getD m), c1)
  | .platform m =>
    match Mir.receive_any_file_descriptors_for (some m) c with
    | (r, m1, c1) => (r, .platform (m1.getD m), c1)
  | .socket_fd m =>
    match Mir.receive_any_file_descriptors_for (some m) c with
    | (r, m1, c1) => (r, .socket_fd (m1.getD m), c1)

/-- The shape with `fds` as its `fd` field and everything else as it was. -/
def Shape.set_fd (s : Shape) (fds : List Int) : Shape :=
  match s with
  | .surface m => .surface { m with fd := fds }
  | .buffer m => .buffer { m with fd := fds }
  | .platform m => .platform { m with fd := fds }
  | .socket_fd m => .socket_fd { m with fd := fds }

/-- The shape with its `fds_on_side_channel` unset and everything else as it was. -/
def Shape.clear_declared (s : Shape) : Shape :=
  match s with
  | .surface m => .surface { m with fds_on_side_channel := none }
  | .buffer m => .buffer { m with fds_on_side_channel := none }
  | .platform m => .platform { m with fds_on_side_channel := none }
  | .socket_fd m => .socket_fd { m with fds_on_side_channel := none }

/-! ## Resolution of a response, in the words of the spec (§4.3)

For each shape: read the declared count; if it is nonzero request that many descriptors;
put the received descriptors into the payload field, in the order received; clear the
declared count. -/

/-- The number of descriptors a declared count asks for: a count that is unset, zero or
negative asks for none. -/
def requested (declared : Option Int) : Nat := (declared.getD 0).toNat

/-- A buffer resolved with the descriptors `fds` at hand. -/
def Buffer.resolved (m : Buffer) (fds : List Int) : Buffer :=
  { m with fd := fds.take (requested m.fds_on_side_channel), fds_on_side_channel := none }

/-- A platform resolved with the descriptors `fds` at hand. -/
def Platform.resolved (m : Platform) (fds : List Int) : Platform :=
  { m with fd := fds.take (requested m.fds_on_side_channel), fds_on_side_channel := none }

/-- A socket-fd response resolved with the descriptors `fds` at hand. -/
def SocketFD.resolved (m : SocketFD) (fds : List Int) : SocketFD :=
  { m with fd := fds.take (requested m.fds_on_side_channel), fds_on_side_channel := none }

/-- A surface resolved with the descriptors `fds` at hand: the surface's own descriptors
first, then those of its nested buffer, when it has one. -/
def Surface.resolved (m : Surface) (fds : List Int) : Surface :=
  { m with
    fd := fds.take (requested m.fds_on_side_channel)
    fds_on_side_channel := none
    buffer := m.buffer.map fun b => b.resolved (fds.drop (requested m.fds_on_side_channel)) }

/-- A response resolved with the descriptors `fds` at hand: a buffer, platform or
socket-fd response itself, a surface and its nested buffer, the nested buffer of a
screencast, the nested platform of a connection; any other response stays as it is. -/
def Message.resolved (response : Message) (fds : List Int) : Message :=
  match response with
  | .buffer m => .buffer (m.resolved fds)
  | .surface m => .surface (m.resolved fds)
  | .screencast m => .screencast { m with buffer := m.buffer.map fun b => b.resolved fds }
  | .platform m => .platform (m.resolved fds)
  | .connection m => .connection { m with platform := m.platform.map fun p => p.resolved fds }
  | .socket_fd m => .socket_fd (m.resolved fds)
  | .other type_name rest => .other type_name rest

/-- The declared counts of the shapes of a response, in the order in which
`receive_file_descriptors` resolves them. -/
def Message.declared_counts (response : Message) : List (Option Int) :=
  match response with
  | .buffer m => [m.fds_on_side_channel]
  | .surface m =>
    m.fds_on_side_channel :: (m.buffer.map fun b => [b.fds_on_side_channel]).getD []
  | .screencast m => (m.buffer.map fun b => [b.fds_on_side_channel]).getD []
  | .platform m => [m.fds_on_side_channel]
  | .connection m => (m.platform.map fun p => [p.fds_on_side_channel]).getD []
  | .socket_fd m => [m.fds_on_side_channel]
  | .other _ _ => []

/-- The number of descriptors a response asks for in all. -/
def Message.requested (response : Message) : Nat :=
  (response.declared_counts.map Mir.requested).sum

/-- The effects of resolving descriptors: a call of the transport's
`receive_file_descriptors` and the report of what was received. -/
def Effect.is_resolution : Effect → Bool
  | .receive_file_descriptors _ _ => true
  | .file_descriptors_received _ _ => true
  | _ => false

/-- What resolving one shape leaves in the trace: nothing when no descriptor is asked for,
else the call of the transport and the report of the shape with the descriptors added
(`with_fd`) and its count not yet cleared. -/
def resolution_effects (declared : Option Int) (with_fd : List Int → Message)
    (fds : List Int) : List Effect :=
  if 0 < requested declared then
    [.receive_file_descriptors (requested declared) (some (fds.take (requested declared))),
      .file_descriptors_received (with_fd (fds.take (requested declared)))
        (fds.take (requested declared))]
  else []

/-- What resolving a buffer leaves in the trace. -/
def Buffer.resolution_effects (m : Buffer) (fds : List Int) : List Effect :=
  Mir.resolution_effects m.fds_on_side_channel (fun f => .buffer { m with fd := f }) fds

/-- What resolving a platform leaves in the trace. -/
def Platform.resolution_effects (m : Platform) (fds : List Int) : List Effect :=
  Mir.resolution_effects m.fds_on_side_channel (fun f => .platform { m with fd := f }) fds

/-- What resolving a response leaves in the trace, shape after shape. -/
def Message.resolution_effects (response : Message) (fds : List Int) : List Effect :=
  match response with
  | .buffer m => m.resolution_effects fds
  | .surface m =>
    Mir.resolution_effects m.fds_on_side_channel (fun f => .surface { m with fd := f }) fds ++
      ((m.buffer.map fun b =>
        b.resolution_effects (fds.drop (Mir.requested m.fds_on_side_channel))).getD [])
  | .screencast m => (m.buffer.map fun b => b.resolution_effects fds).getD []
  | .platform m => m.resolution_effects fds
  | .connection m => (m.platform.map fun p => p.resolution_effects fds).getD []
  | .socket_fd m =>
    Mir.resolution_effects m.fds_on_side_channel (fun f => .socket_fd { m with fd := f }) fds
  | .other _ _ => []

/-! ## Callers and what they leave in the trace -/

/-- The frame of the wire format (spec §6) for a body: the length as two bytes, high byte
first, then the body. -/
def frame_of (body : List Nat) : List Nat :=
  [body.length / 256 % 256, body.length % 256] ++ body

/-- A caller that sends the invocations one after the other with `send_message`; what a
send throws goes to that caller, and the next invocation is sent all the same. -/
def send_messages (env : Env) : List Invocation → M Unit
  | [] => pure ()
  | invocation :: rest => do
    try
      send_message env invocation invocation
    catch _ =>
      pure ()
    send_messages env rest

/-- What the receive loop leaves in the trace for one frame it has read: the header, the
body, and the report of the receipt. -/
def frame_receipt (body : List Nat) : List Effect :=
  [.receive_data 2 (some [body.length / 256, body.length % 256]),
    .receive_data body.length (some body),
    .result_receipt_succeeded Result.default]

/-- A caller that calls `notify_disconnected` `n` times, one call after the other. -/
def notify_disconnected_times (env : Env) : Nat → M Unit
  | 0 => pure ()
  | n + 1 => do
    notify_disconnected env
    notify_disconnected_times env n

/-! ## Sample inputs -/

/-- A sample environment: an invocation is serialized as its parameter bytes, nothing
parses to anything, and every sink returns. -/
def sample_env : Env :=
  { serialize := fun i => i.parameters
    parse_result := fun _ => Result.default
    parse_event_sequence := fun _ =>
      { display_configuration := none, lifecycle_event := none, event := [] }
    parse_response := fun m _ => m
    sizeof_MirEvent := 4
    surface_id := fun _ => 0
    lifecycle_handler := fun _ => none
    update_configuration := fun _ => none
    handle_event := fun _ _ => none }

/-- A sample transport with nothing to receive and no failing send. -/
def sample_transport : Transport :=
  { incoming := [], incoming_fds := [], send_failures := [] }

/-- A freshly constructed channel on the sample transport, whose `header_bytes` hold two
zero bytes. -/
def sample_channel : MirProtobufRpcChannel :=
  MirProtobufRpcChannel.mk_channel sample_transport [] [0, 0]

/-- A sample invocation with three parameter bytes. -/
def sample_invocation : Invocation :=
  { id := 0, method_name := "connect", parameters := [10, 20, 30] }

/-- A serialized invocation of 65536 bytes. -/
def oversized_body : List Nat := List.replicate 65536 0

/-- An environment whose serializer writes 65536 bytes for every invocation. -/
def oversized_env : Env :=
  { sample_env with serialize := fun _ => oversized_body }

/-- The environment of the spec's scenario (§8): the body `[7]` is the envelope with call
id 0, a response and one event record; the event record `[9]` is a display-configuration
event; the response `[8]` is a surface whose nested buffer declares one descriptor. -/
def scenario_env : Env :=
  { sample_env with
    parse_result := fun body =>
      if body = [7] then { id := some 0, response := some [8], events := [[9]] }
      else Result.default
    parse_event_sequence := fun event =>
      if event = [9] then
        { display_configuration := some [5], lifecycle_event := none, event := [] }
      else { display_configuration := none, lifecycle_event := none, event := [] }
    parse_response := fun slot payload =>
      if payload = [8] then
        Message.surface
          { fd := [], fds_on_side_channel := none,
            buffer := some { fd := [], fds_on_side_channel := some 1, rest := [] },
            rest := [] }
      else slot }

/-- The channel of the scenario: a fresh channel on which `create_surface` was called
(call id 0, caller closure 1), and to which the server has then sent the frame
`0, 1, 7` and the descriptor 42. -/
def scenario_channel : MirProtobufRpcChannel :=
  let called := (CallMethod scenario_env "create_surface" []
    (Message.surface { fd := [], fds_on_side_channel := none, buffer := none, rest := [] }) 1
    sample_channel).2
  { called with
    transport := { called.transport with incoming := [0, 1, 7], incoming_fds := [42] }
    trace := [] }

/-- A sample response: a surface that declares one descriptor, with a nested buffer that
declares two. -/
def sample_surface : Message :=
  .surface
    { fd := []
      fds_on_side_channel := some 1
      buffer := some { fd := [], fds_on_side_channel := some 2, rest := [] }
      rest := [] }

/-- A sample receiving channel: connected, with four descriptors on the side channel. -/
def sample_receiver : MirProtobufRpcChannel :=
  { sample_channel with transport := { sample_transport with incoming_fds := [5, 6, 7, 8] } }

/-! ## Sequences of channel operations -/

/-- The effects the receive path and the callbacks can leave in the trace; a call of the
lifecycle handler counts when its state is `allowed`. Sending, registering and
`force_completion` are not among them. -/
def Effect.is_receive_effect (allowed : Nat → Bool) : Effect → Bool
  | .send_data _ => false
  | .invocation_requested _ => false
  | .invocation_succeeded _ => false
  | .invocation_failed _ _ => false
  | .save_completion_details _ => false
  | .force_completion => false
  | .call_lifecycle_event_handler state => allowed state
  | _ => true

/-- The state `c1` comes from `c` by steps that leave the disconnected flag as it is and
append to the trace only effects that satisfy `p`. -/
def Quiet (p : Effect → Bool) (c c1 : MirProtobufRpcChannel) : Prop :=
  c1.disconnected = c.disconnected ∧
    ∃ es : List Effect, c1.trace = c.trace ++ es ∧ ∀ e ∈ es, p e = true

/-- A member function all of whose runs are quiet. -/
def M.Quiet {α : Type} (p : Effect → Bool) (m : M α) : Prop :=
  ∀ c : MirProtobufRpcChannel, Mir.Quiet p c (m c).2

/-- The lifecycle states the server can push, as the codec decodes them, are all
`allowed`. -/
def Env.pushes_only (env : Env) (allowed : Nat → Bool) : Prop :=
  ∀ (event : List Nat) (lifecycle_event : LifecycleEvent),
    (env.parse_event_sequence event).lifecycle_event = some lifecycle_event →
      allowed lifecycle_event.new_state = true

/-- The number of calls of the lifecycle handler with the connection-lost state. -/
def connection_lost_count (trace : List Effect) : Nat :=
  trace.count (.call_lifecycle_event_handler mir_lifecycle_connection_lost)

/-- One operation on the channel: a call of one of its member functions, or a change in
what is around it (the state of the transport; the header and body buffers filled by a
read). -/
inductive Op where
  | CallMethod (method : String) (parameters : List Nat) (response : Message) (complete : Nat)
  | send_message (body invocation : Invocation)
  | receive_file_descriptors (response : Message) (complete : Nat)
  | on_message_available
  | read_message
  | process_event_sequence (event : List Nat)
  | notify_disconnected
  | transport_changes (transport : Transport)
  | buffers_filled (header_bytes body_bytes : List Nat)

/-- The state after one operation; what the operation throws goes to its caller. -/
def Op.run (env : Env) (op : Op) (c : MirProtobufRpcChannel) : MirProtobufRpcChannel :=
  match op with
  | .CallMethod method parameters response complete =>
    (Mir.CallMethod env method parameters response complete c).2
  | .send_message body invocation => (Mir.send_message env body invocation c).2
  | .receive_file_descriptors response complete =>
    (Mir.receive_file_descriptors response complete c).2.2
  | .on_message_available => (Mir.on_message_available env c).2
  | .read_message => (Mir.read_message env c).2
  | .process_event_sequence event => (Mir.process_event_sequence env event c).2
  | .notify_disconnected => (Mir.notify_disconnected env c).2
  | .transport_changes transport => { c with transport := transport }
  | .buffers_filled header_bytes body_bytes =>
    { c with header_bytes := header_bytes, body_bytes := body_bytes }

/-- The operations that can reach `notify_disconnected`: the function itself, and
`send_message` and `CallMethod`, which call it when the send fails. -/
def Op.reaches_notify_disconnected : Op → Bool
  | .CallMethod _ _ _ _ => true
  | .send_message _ _ => true
  | .notify_disconnected => true
  | _ => false

/-- The state after a sequence of operations. -/
def run_ops (env : Env) (ops : List Op) (c : MirProtobufRpcChannel) : MirProtobufRpcChannel :=
  ops.foldl (fun c op => op.run env c) c

/-- From `c` to `c1` the disconnected flag is not reset, and the lifecycle handler was
called with the connection-lost state once if the flag went from false to true and not
at all otherwise. -/
def Advance (c c1 : MirProtobufRpcChannel) : Prop :=
  (c.disconnected = true → c1.disconnected = true) ∧
    ∃ es : List Effect, c1.trace = c.trace ++ es ∧
      connection_lost_count es =
        if c.disconnected = false ∧ c1.disconnected = true then 1 else 0

/-- A lifecycle state other than connection-lost. -/
def not_connection_lost (state : Nat) : Bool := state != mir_lifecycle_connection_lost

/-- An environment in which the server pushes connection-lost: the body `[7]` is an
envelope with the one event record `[9]`, a lifecycle event with the connection-lost
state. -/
def pushing_env : Env :=
  { sample_env with
    parse_result := fun body =>
      if body = [7] then { id := none, response := none, events := [[9]] }
      else Result.default
    parse_event_sequence := fun event =>
      if event = [9] then
        { display_configuration := none
          lifecycle_event := some { new_state := mir_lifecycle_connection_lost }
          event := [] }
      else { display_configuration := none, lifecycle_event := none, event := [] } }


/-- A sample response of a type that bears no descriptors. -/
def sample_void : Message := .other "mir.protobuf.Void" []

/-- The sample channel after `notify_disconnected`: disconnected, nothing pending. -/
def disconnected_channel : MirProtobufRpcChannel :=
  (notify_disconnected sample_env sample_channel).2

/-- The sample channel after two calls of `CallMethod` whose sends succeeded: the calls 0
and 1 are pending, with the caller closures 7 and 8. -/
def two_pending_channel : MirProtobufRpcChannel :=
  (CallMethod sample_env "create_surface" [2] sample_surface 8
    (CallMethod sample_env "connect" [1] sample_void 7 sample_channel).2).2


/-- The effects of receiving a frame: a call of the transport's `receive_data` and the
report of the receipt or of its failure. -/
def Effect.is_receipt : Effect → Bool
  | .receive_data _ _ => true
  | .result_receipt_succeeded _ => true
  | .result_receipt_failed _ => true
  | _ => false

/-- A sample receiving channel whose stream ends inside a frame: the header declares five
body bytes and one follows. -/
def truncated_channel : MirProtobufRpcChannel :=
  { sample_channel with transport := { sample_transport with incoming := [0, 5, 1] } }

/-- An environment whose lifecycle handler throws: the body `[7]` is an envelope with call
id 0 and the one event record `[9]`, the body `[6]` is an envelope with the two event
records `[9]` and `[10]`; the record `[9]` is a lifecycle event with the state 1, the
record `[10]` is a display-configuration event. -/
def raising_env : Env :=
  { sample_env with
    parse_result := fun body =>
      if body = [7] then { id := some 0, response := none, events := [[9]] }
      else if body = [6] then { id := none, response := none, events := [[9], [10]] }
      else Result.default
    parse_event_sequence := fun event =>
      if event = [9] then
        { display_configuration := none
          lifecycle_event := some { new_state := 1 }
          event := [] }
      else if event = [10] then
        { display_configuration := some [5], lifecycle_event := none, event := [] }
      else { display_configuration := none, lifecycle_event := none, event := [] }
    lifecycle_handler := fun _ => some (Exn.exception "lifecycle handler failed") }

/-- The same environment with a lifecycle handler that returns. -/
def returning_env : Env :=
  { raising_env with lifecycle_handler := fun _ => none }

/-- A channel on which `connect` was called (call id 0, caller closure 7) and whose
buffers hold the frame `0, 1, 7`. -/
def envelope_channel : MirProtobufRpcChannel :=
  { (CallMethod sample_env "connect" [1] sample_void 7 sample_channel).2 with
    header_bytes := [0, 1]
    body_bytes := [7]
    trace := [] }

/-- A fresh channel whose buffers hold the frame `0, 1, 6`. -/
def two_records_channel : MirProtobufRpcChannel :=
  { sample_channel with header_bytes := [0, 1], body_bytes := [6] }

/-- The type names `receive_file_descriptors` compares the response's type name with. -/
def fd_bearing_type_names : List String :=
  ["mir.protobuf.Buffer", "mir.protobuf.Surface", "mir.protobuf.Screencast",
    "mir.protobuf.Platform", "mir.protobuf.Connection", "mir.protobuf.SocketFD"]

/-- A sample screencast response that has no buffer. -/
def sample_screencast : Message := .screencast { buffer := none, rest := [1] }

/-! ## Routing of pushed events -/

/-- The part of `process_event_sequence` that follows `seq.ParseFromString(event)`, on the
parsed sequence. -/
def process_parsed_event_sequence (env : Env) (seq : EventSequence) : M Unit := do
  match seq.display_configuration with
  | some config => update_configuration env config
  | none => pure ()
  match seq.lifecycle_event with
  | some lifecycle_event => call_lifecycle_event_handler env lifecycle_event.new_state
  | none => pure ()
  process_raw_events env seq.event

/-- The calls the spec (§4.4) asks for one event of a sequence, with the reports that go
with them: a raw event of `sizeof(MirEvent)` bytes is reported as parsed and handed to
`with_surface_do` with the surface id stored in it, which hands it to the surface when the
surface map has that id; a raw event of another size is reported as not parsed; an event
without raw bytes leaves nothing. -/
def Event.routing (env : Env) (surface_map : List Int) (event : Event) : List Effect :=
  match event.raw with
  | none => []
  | some raw_event =>
    if raw_event.length = env.sizeof_MirEvent then
      .event_parsing_succeeded raw_event :: .with_surface_do (env.surface_id raw_event) ::
        (if env.surface_id raw_event ∈ surface_map then
          [.handle_event (env.surface_id raw_event) raw_event]
        else [])
    else [.event_parsing_failed event]

/-- The calls the spec (§4.4) asks for a parsed event sequence, in its order: the display
configuration to the display-configuration sink when there is one, the new lifecycle
state to the lifecycle handler when there is a lifecycle event, then the events by
index. -/
def EventSequence.routing (env : Env) (surface_map : List Int) (seq : EventSequence) :
    List Effect :=
  (match seq.display_configuration with
    | some config => [.update_configuration config]
    | none => []) ++
  ((match seq.lifecycle_event with
    | some lifecycle_event => [.call_lifecycle_event_handler lifecycle_event.new_state]
    | none => []) ++
  seq.event.flatMap (Event.routing env surface_map))

/-- A member function that changes nothing but the trace, to which it appends a prefix of
`effects` (given the surface map), and all of `effects` when it returns. -/
def M.Routes (m : M Unit) (effects : List Int → List Effect) : Prop :=
  ∀ c : MirProtobufRpcChannel, ∃ es : List Effect,
    (m c).2 = { c with trace := c.trace ++ es } ∧ es <+: effects c.surface_map ∧
      ((m c).1 = .ok () → es = effects c.surface_map)

/-- An environment for the routing of events: the surface id of a raw event is its first
byte; the record `[9]` has a display configuration, a lifecycle event with the state 1
and four events: one for the surface 3, one of two bytes, one for the surface 8 and one
without raw bytes; the record `[11]` has the one event for the surface 8. -/
def routing_env : Env :=
  { sample_env with
    surface_id := fun raw_event => (raw_event.getD 0 0 : Nat)
    parse_event_sequence := fun event =>
      if event = [9] then
        { display_configuration := some [5]
          lifecycle_event := some { new_state := 1 }
          event := [{ raw := some [3, 0, 0, 1] }, { raw := some [1, 2] },
            { raw := some [8, 0, 0, 2] }, { raw := none }] }
      else if event = [11] then
        { display_configuration := none
          lifecycle_event := none
          event := [{ raw := some [8, 0, 0, 2] }] }
      else { display_configuration := none, lifecycle_event := none, event := [] } }

/-- A fresh channel whose surface map holds the one surface 3. -/
def one_surface_channel : MirProtobufRpcChannel :=
  MirProtobufRpcChannel.mk_channel sample_transport [3] [0, 0]

/-- A call of the transport's `receive_data`: a read from the byte stream. -/
def Effect.is_receive_data : Effect → Bool
  | .receive_data _ _ => true
  | _ => false

/-- An environment for whole envelopes: the body `[7]` is an envelope with call id 0 and
the event records `[9]` and `[10]`, the body `[6]` is an envelope with the same event
records and no call id, the body `[5]` is an envelope with call id 0 and no event record;
`[9]` is a lifecycle event with the state 1, `[10]` a display-configuration event. -/
def envelope_env : Env :=
  { sample_env with
    parse_result := fun body =>
      if body = [7] then { id := some 0, response := none, events := [[9], [10]] }
      else if body = [6] then { id := none, response := none, events := [[9], [10]] }
      else if body = [5] then { id := some 0, response := none, events := [] }
      else Result.default
    parse_event_sequence := fun event =>
      if event = [9] then
        { display_configuration := none
          lifecycle_event := some { new_state := 1 }
          event := [] }
      else if event = [10] then
        { display_configuration := some [5], lifecycle_event := none, event := [] }
      else { display_configuration := none, lifecycle_event := none, event := [] } }

/-- The calls the spec (§4.4) asks for the event records of an envelope: those of each
record, in index order. -/
def Result.routing (env : Env) (surface_map : List Int) (result : Result) : List Effect :=
  result.events.flatMap fun event => (env.parse_event_sequence event).routing env surface_map

/-! ## Envelopes that push connection-lost -/

/-- Whether an event record carries a lifecycle event with the connection-lost state. -/
def Env.pushes_connection_lost (env : Env) (event : List Nat) : Bool :=
  match (env.parse_event_sequence event).lifecycle_event with
  | some lifecycle_event => lifecycle_event.new_state == mir_lifecycle_connection_lost
  | none => false

/-- Whether the operation, run in the state `c`, has the receive path process an envelope
or an event record that carries a lifecycle event with the connection-lost state:
`read_message` the envelope it parses from the buffers, `process_event_sequence` its
record. (`on_message_available` processes the default-constructed `Result`, which has no
event record.) -/
def Op.pushes_connection_lost (env : Env) (op : Op) (c : MirProtobufRpcChannel) : Bool :=
  match op with
  | .read_message =>
    (env.parse_result (c.body_bytes.take
      ((c.header_bytes.getD 0 0 <<< 8) + c.header_bytes.getD 1 0))).events.any
        env.pushes_connection_lost
  | .process_event_sequence event => env.pushes_connection_lost event
  | _ => false

/-- Over the sequence of operations run from the state `c`, no envelope the receive path
processes carries a lifecycle event with the connection-lost state. -/
def connection_lost_not_pushed (env : Env) : List Op → MirProtobufRpcChannel → Bool
  | [], _ => true
  | op :: ops, c =>
    !op.pushes_connection_lost env c && connection_lost_not_pushed env ops (op.run env c)

/-- The environment whose codec drops the lifecycle event from every event record that
carries connection-lost, and is `env` otherwise. -/
def Env.without_connection_lost (env : Env) : Env :=
  { env with
    parse_event_sequence := fun event =>
      if env.pushes_connection_lost event then
        { env.parse_event_sequence event with lifecycle_event := none }
      else env.parse_event_sequence event }

/-- An environment whose codec decodes connection-lost and another lifecycle state: the
body `[7]` is an envelope with the event record `[9]`, a lifecycle event with the
connection-lost state; the body `[6]` is an envelope with the event record `[10]`, a
lifecycle event with the state 1. -/
def mixed_env : Env :=
  { sample_env with
    parse_result := fun body =>
      if body = [7] then { id := none, response := none, events := [[9]] }
      else if body = [6] then { id := none, response := none, events := [[10]] }
      else Result.default
    parse_event_sequence := fun event =>
      if event = [9] then
        { display_configuration := none
          lifecycle_event := some { new_state := mir_lifecycle_connection_lost }
          event := [] }
      else if event = [10] then
        { display_configuration := none
          lifecycle_event := some { new_state := 1 }
          event := [] }
      else { display_configuration := none, lifecycle_event := none, event := [] } }

/-! ## How the member functions run -/

@[simp] theorem M.pure_run {α : Type} (a : α) (c : MirProtobufRpcChannel) :
    (pure a : M α) c = (.ok a, c) := rfl

@[simp] theorem M.bind_run {α β : Type} (m : M α) (f : α → M β) (c : MirProtobufRpcChannel) :
    (m >>= f) c = match m c with
      | (.ok a, c1) => f a c1
      | (.error x, c1) => (.error x, c1) := rfl

@[simp] theorem M.throw_run {α : Type} (x : Exn) (c : MirProtobufRpcChannel) :
    (throw x : M α) c = (.error x, c) := rfl

@[simp] theorem M.tryCatch_run {α : Type} (m : M α) (h : Exn → M α) (c : MirProtobufRpcChannel) :
    (tryCatch m h) c = match m c with
      | (.ok a, c1) => (.ok a, c1)
      | (.error x, c1) => h x c1 := rfl

@[simp] theorem M.read_run (c : MirProtobufRpcChannel) : M.read c = (.ok c, c) := rfl

@[simp] theorem M.update_run (f : MirProtobufRpcChannel → MirProtobufRpcChannel)
    (c : MirProtobufRpcChannel) : M.update f c = (.ok (), f c) := rfl

@[simp] theorem emit_run (e : Effect) (c : MirProtobufRpcChannel) :
    emit e c = (.ok (), { c with trace := c.trace ++ [e] }) := rfl

@[simp] theorem sent_buffers_append (a b : List Effect) :
    sent_buffers (a ++ b) = sent_buffers a ++ sent_buffers b := by
  simp [sent_buffers]

theorem CompletionSteps.refl (c : MirProtobufRpcChannel) : CompletionSteps c c :=
  ⟨[], by simp, by simp⟩

theorem CompletionSteps.trans {a b c : MirProtobufRpcChannel} (h1 : CompletionSteps a b)
    (h2 : CompletionSteps b c) : CompletionSteps a c := by
  obtain ⟨es1, p1, e1⟩ := h1
  obtain ⟨es2, p2, e2⟩ := h2
  refine ⟨es1 ++ es2, ?_, ?_⟩
  · intro e he
    rcases List.mem_append.mp he with h | h
    · exact p1 e h
    · exact p2 e h
  · rw [e2, e1]; simp

/-- The transport delivers the descriptors asked for when it has that many. -/
theorem transport_receive_file_descriptors_ok (room : Nat) (c : MirProtobufRpcChannel)
    (h : room ≤ c.transport.incoming_fds.length) :
    transport_receive_file_descriptors room c =
      (.ok (c.transport.incoming_fds.take room),
        { c with
          transport := { c.transport with incoming_fds := c.transport.incoming_fds.drop room }
          trace := c.trace ++
            [.receive_file_descriptors room (some (c.transport.incoming_fds.take room))] }) := by
  simp [transport_receive_file_descriptors, h]

/-- The transport throws when it has fewer descriptors than asked for. -/
theorem transport_receive_file_descriptors_error (room : Nat) (c : MirProtobufRpcChannel)
    (h : c.transport.incoming_fds.length < room) :
    transport_receive_file_descriptors room c =
      (.error (Exn.runtime_error "Failed to read file descriptors from server"),
        { c with
          transport := { c.transport with incoming_fds := [] }
          trace := c.trace ++ [.receive_file_descriptors room none] }) := by
  simp [transport_receive_file_descriptors, Nat.not_le.mpr h]

theorem receive_any_steps {α : Type} [FdBearing α] {r : Option α} {c : MirProtobufRpcChannel}
    {res : Except Exn Unit} {r1 : Option α} {c1 : MirProtobufRpcChannel}
    (h : receive_any_file_descriptors_for r c = (res, r1, c1)) : CompletionSteps c c1 := by
  unfold receive_any_file_descriptors_for at h
  cases r with
  | none =>
    simp only [Prod.mk.injEq] at h
    rw [← h.2.2]; exact CompletionSteps.refl c
  | some m =>
    simp only [] at h
    split at h
    · by_cases hk : (FdBearing.fds_on_side_channel (FdBearing.clear_fd m)).toNat ≤
          c.transport.incoming_fds.length
      · rw [transport_receive_file_descriptors_ok _ _ hk] at h
        simp only [Prod.mk.injEq] at h
        rw [← h.2.2]
        exact ⟨[.receive_file_descriptors
            (FdBearing.fds_on_side_channel (FdBearing.clear_fd m)).toNat
            (some (c.transport.incoming_fds.take
              (FdBearing.fds_on_side_channel (FdBearing.clear_fd m)).toNat)),
          .file_descriptors_received
            (FdBearing.upcast ((c.transport.incoming_fds.take
              (FdBearing.fds_on_side_channel (FdBearing.clear_fd m)).toNat).foldl
                FdBearing.add_fd (FdBearing.clear_fd m)))
            (c.transport.incoming_fds.take
              (FdBearing.fds_on_side_channel (FdBearing.clear_fd m)).toNat)],
          by simp [Effect.is_completion], by simp⟩
      · rw [transport_receive_file_descriptors_error _ _ (Nat.not_le.mp hk)] at h
        simp only [Prod.mk.injEq] at h
        rw [← h.2.2]
        refine ⟨_, ?_, rfl⟩
        simp [Effect.is_completion]
    · simp only [Prod.mk.injEq] at h
      rw [← h.2.2]; exact CompletionSteps.refl c

theorem Run_steps (complete : Nat) (m : Message) (c : MirProtobufRpcChannel) :
    CompletionSteps c (Run complete m c).2.2 := by
  refine ⟨_, ?_, rfl⟩
  simp [Effect.is_completion]

theorem receive_file_descriptors_steps (response : Message) (complete : Nat)
    (c : MirProtobufRpcChannel) :
    CompletionSteps c (receive_file_descriptors response complete c).2.2 := by
  unfold receive_file_descriptors
  split
  · simp only []
    split
    · next h1 => exact receive_any_steps h1
    · next h1 =>
      have s1 := receive_any_steps h1
      split
      · next h2 => exact s1.trans (receive_any_steps h2)
      · next h2 =>
        have s2 := s1.trans (receive_any_steps h2)
        split
        · next h3 => exact s2.trans (receive_any_steps h3)
        · next h3 =>
          have s3 := s2.trans (receive_any_steps h3)
          split
          · next h4 => exact s3.trans (receive_any_steps h4)
          · next h4 => exact (s3.trans (receive_any_steps h4)).trans (Run_steps _ _ _)
  · exact Run_steps _ _ _

@[simp] theorem sent_buffers_nil : sent_buffers [] = [] := rfl

@[simp] theorem sent_buffers_cons (e : Effect) (es : List Effect) :
    sent_buffers (e :: es) =
      (match e with
        | .send_data buffer => [buffer]
        | _ => []) ++ sent_buffers es := by
  cases e <;> simp [sent_buffers, List.filterMap_cons]

theorem CompletionSteps.sent_buffers_eq {c c1 : MirProtobufRpcChannel}
    (h : CompletionSteps c c1) : sent_buffers c1.trace = sent_buffers c.trace := by
  obtain ⟨es, p, e⟩ := h
  have hes : sent_buffers es = [] := by
    unfold sent_buffers
    rw [List.filterMap_eq_nil_iff]
    intro a ha
    have := p a ha
    cases a <;> simp_all [Effect.is_completion]
  rw [e]; simp [hes]

theorem CompletionSteps.set_pending (c : MirProtobufRpcChannel) (p : List PendingCall) :
    CompletionSteps c { c with pending_calls := p } :=
  ⟨[], by simp, by simp⟩

theorem PendingCall.callback_steps {response : Message} {complete : Nat}
    {c c1 : MirProtobufRpcChannel} {res : Except Exn Unit}
    (h : PendingCall.callback response complete c = (res, c1)) : CompletionSteps c c1 := by
  unfold PendingCall.callback at h
  have s := receive_file_descriptors_steps response complete c
  simp only [Prod.mk.injEq] at h
  rw [h.2] at s
  exact s

theorem force_completion_each_steps (calls : List PendingCall) (c : MirProtobufRpcChannel) :
    CompletionSteps c (force_completion_each calls c).2 := by
  induction calls generalizing c with
  | nil => exact CompletionSteps.refl c
  | cons call rest ih =>
    simp only [force_completion_each, M.bind_run, M.update_run]
    split
    · next h =>
      exact ((CompletionSteps.set_pending c _).trans (PendingCall.callback_steps h)).trans (ih _)
    · next h => exact (CompletionSteps.set_pending c _).trans (PendingCall.callback_steps h)

theorem notify_disconnected_sent (env : Env) (c : MirProtobufRpcChannel) :
    sent_buffers (notify_disconnected env c).2.trace = sent_buffers c.trace := by
  simp only [notify_disconnected, pending_calls_force_completion, call_lifecycle_event_handler,
    M.bind_run, M.read_run, M.update_run, emit_run]
  cases c.disconnected <;> cases hl : env.lifecycle_handler mir_lifecycle_connection_lost <;>
    simp [sink, hl, (force_completion_each_steps _ _).sent_buffers_eq]

/-! ## Sending and receiving frames -/

theorem header_high (n : Nat) : ((n >>> 8) &&& 0xff) % 256 = n / 256 % 256 := by
  have h : (255 : Nat) = 2 ^ 8 - 1 := by norm_num
  rw [Nat.shiftRight_eq_div_pow, h, Nat.and_pow_two_sub_one_eq_mod]
  norm_num

theorem header_low (n : Nat) : ((n >>> 0) &&& 0xff) % 256 = n % 256 := by
  have h : (255 : Nat) = 2 ^ 8 - 1 := by norm_num
  rw [Nat.shiftRight_zero, h, Nat.and_pow_two_sub_one_eq_mod]
  norm_num

theorem write_at_header (h0 h1 : Nat) (body : List Nat) :
    write_at (write_at (List.replicate ([h0, h1].length + body.length) 0) 0 [h0, h1])
      [h0, h1].length body = [h0, h1] ++ body := by
  simp [write_at]
  omega

theorem transport_send_data_ok (buffer : List Nat) (c : MirProtobufRpcChannel)
    (h : c.transport.send_failures.head? ≠ some true) :
    transport_send_data buffer c =
      (.ok (), { c with
        transport := { c.transport with send_failures := c.transport.send_failures.tail }
        trace := c.trace ++ [.send_data buffer] }) := by
  simp [transport_send_data, h]

theorem transport_send_data_error (buffer : List Nat) (c : MirProtobufRpcChannel)
    (h : c.transport.send_failures.head? = some true) :
    transport_send_data buffer c =
      (.error (Exn.runtime_error "Failed to send message to server"), { c with
        transport := { c.transport with send_failures := c.transport.send_failures.tail }
        trace := c.trace ++ [.send_data buffer] }) := by
  simp [transport_send_data, h]

theorem notify_disconnected_sent_of {env : Env} {c c1 : MirProtobufRpcChannel}
    {res : Except Exn Unit} (h : notify_disconnected env c = (res, c1)) :
    sent_buffers c1.trace = sent_buffers c.trace := by
  have hs := notify_disconnected_sent env c
  rw [h] at hs
  exact hs

/-- The buffer `send_message` builds: the two header bytes, then the serialized body. -/
theorem send_message_ok (env : Env) (body invocation : Invocation) (c : MirProtobufRpcChannel)
    (h : c.transport.send_failures.head? ≠ some true) :
    send_message env body invocation c =
      (.ok (), { c with
        transport := { c.transport with send_failures := c.transport.send_failures.tail }
        trace := c.trace ++
          [.send_data ([(env.serialize body).length / 256 % 256,
              (env.serialize body).length % 256] ++ env.serialize body),
            .invocation_succeeded invocation] }) := by
  simp only [send_message, M.bind_run, M.tryCatch_run, write_at_header, header_high, header_low,
    transport_send_data_ok _ _ h, emit_run]
  simp

theorem send_message_sent (env : Env) (body invocation : Invocation) (c : MirProtobufRpcChannel) :
    sent_buffers (send_message env body invocation c).2.trace =
      sent_buffers c.trace ++
        [[(env.serialize body).length / 256 % 256, (env.serialize body).length % 256] ++
          env.serialize body] := by
  by_cases h : c.transport.send_failures.head? = some true
  · simp only [send_message, M.bind_run, M.tryCatch_run, write_at_header, header_high, header_low,
      transport_send_data_error _ _ h, emit_run, M.throw_run]
    split
    · next heq => split at heq <;> simp at heq
    · next heq =>
      split at heq
      · next hn =>
        have hs := notify_disconnected_sent_of hn
        simp only [Prod.mk.injEq] at heq
        rw [← heq.2]
        simpa using hs
      · next hn =>
        have hs := notify_disconnected_sent_of hn
        simp only [Prod.mk.injEq] at heq
        rw [← heq.2]
        simpa using hs
  · rw [send_message_ok env body invocation c h]
    simp

theorem send_messages_sent (env : Env) (invocations : List Invocation)
    (c : MirProtobufRpcChannel) :
    sent_buffers (send_messages env invocations c).2.trace =
      sent_buffers c.trace ++ invocations.map fun i => frame_of (env.serialize i) := by
  induction invocations generalizing c with
  | nil => simp [send_messages]
  | cons i rest ih =>
    simp only [send_messages, M.bind_run, M.tryCatch_run, M.pure_run]
    have hs := send_message_sent env i i c
    rcases hm : send_message env i i c with ⟨r, c1⟩
    rw [hm] at hs
    cases r <;> simp [ih, hs, frame_of]

theorem transport_receive_data_ok (size : Nat) (c : MirProtobufRpcChannel)
    (h : size ≤ c.transport.incoming.length) :
    transport_receive_data size c =
      (.ok (c.transport.incoming.take size),
        { c with
          transport := { c.transport with incoming := c.transport.incoming.drop size }
          trace := c.trace ++ [.receive_data size (some (c.transport.incoming.take size))] }) := by
  simp [transport_receive_data, h]

theorem process_result_default (env : Env) (c : MirProtobufRpcChannel) :
    process_result env Result.default c = (.ok (), c) := by
  simp [process_result, process_events, Result.default, Result.has_id]

theorem be16toh_header (n : Nat) (h : n < 65536) : be16toh [n / 256, n % 256] = n := by
  simp [be16toh]
  omega

theorem receive_frame_ok (result : Result) (body rest : List Nat) (c : MirProtobufRpcChannel)
    (hsize : body.length < 65536)
    (hin : c.transport.incoming = frame_of body ++ rest) :
    receive_frame result c =
      (.ok (), { c with
        body_bytes := body
        transport := { c.transport with incoming := rest }
        trace := c.trace ++
          [.receive_data 2 (some [body.length / 256, body.length % 256]),
            .receive_data body.length (some body),
            .result_receipt_succeeded result] }) := by
  have h2 : 2 ≤ c.transport.incoming.length := by rw [hin]; simp [frame_of]
  have hm : body.length / 256 % 256 = body.length / 256 := by omega
  simp only [receive_frame, M.bind_run, M.tryCatch_run, transport_receive_data_ok _ _ h2, hin,
    M.update_run, emit_run]
  simp only [frame_of, hm, List.cons_append, List.nil_append, List.take_succ_cons,
    List.take_zero, List.drop_succ_cons, List.drop_zero, be16toh_header _ hsize]
  rw [transport_receive_data_ok _ _ (by simp)]
  simp

theorem on_message_available_loop_frames (env : Env) (bodies : List (List Nat)) (fuel : Nat)
    (c : MirProtobufRpcChannel)
    (hsize : ∀ b ∈ bodies, b.length < 65536)
    (hfuel : bodies.length < fuel)
    (hin : c.transport.incoming = (bodies.map frame_of).flatten) :
    (on_message_available_loop env fuel c).1 = .ok true ∧
      (on_message_available_loop env fuel c).2.trace =
        c.trace ++ (bodies.map frame_receipt).flatten ∧
      (on_message_available_loop env fuel c).2.transport.incoming = [] := by
  induction bodies generalizing fuel c with
  | nil =>
    obtain ⟨f, rfl⟩ : ∃ f, fuel = f + 1 := ⟨fuel - 1, by omega⟩
    simp at hin
    simp [on_message_available_loop, transport_data_available, hin]
  | cons b rest ih =>
    obtain ⟨f, rfl⟩ : ∃ f, fuel = f + 1 := ⟨fuel - 1, by omega⟩
    have hb : b.length < 65536 := hsize b (by simp)
    have hin1 : c.transport.incoming = frame_of b ++ (rest.map frame_of).flatten := by
      simpa using hin
    have hne : c.transport.incoming.isEmpty = false := by
      rw [hin1]; simp [frame_of]
    simp only [on_message_available_loop, M.bind_run, transport_data_available, M.read_run,
      M.pure_run, hne, Bool.not_false, if_true, receive_frame_ok _ b _ c hb hin1,
      process_result_default]
    have := ih f
      { c with
        body_bytes := b
        transport := { c.transport with incoming := (rest.map frame_of).flatten }
        trace := c.trace ++
          [.receive_data 2 (some [b.length / 256, b.length % 256]),
            .receive_data b.length (some b),
            .result_receipt_succeeded Result.default] }
      (fun x hx => hsize x (by simp [hx])) (by simp at hfuel; omega) rfl
    simpa [frame_receipt, List.append_assoc] using this

/-- C1 (round-trip framing over a stream): for every list of invocations whose serialized
bodies are each shorter than 65536 bytes, when the buffers `send_message` hands to the
transport are concatenated into the byte stream of a receiving channel,
`on_message_available` returns with its loop ended by the transport having no more
data, the stream is used up, and for each invocation, in order, the loop has read the two
header bytes and then a body that is exactly the serialized invocation. -/
theorem C1_round_trip_framing (env env1 : Env) (invocations : List Invocation)
    (sender receiver : MirProtobufRpcChannel)
    (hsize : ∀ i ∈ invocations, (env.serialize i).length < 65536)
    (hsender : sent_buffers sender.trace = [])
    (hstream : receiver.transport.incoming =
      (sent_buffers (send_messages env invocations sender).2.trace).flatten) :
    (on_message_available env1 receiver).1 = .ok true ∧
      (on_message_available env1 receiver).2.trace =
        receiver.trace ++ (invocations.map fun i => frame_receipt (env.serialize i)).flatten ∧
      (on_message_available env1 receiver).2.transport.incoming = [] := by
  rw [send_messages_sent, hsender, List.nil_append] at hstream
  have hlen : invocations.length < receiver.transport.incoming.length + 1 := by
    rw [hstream]
    clear hstream hsize
    induction invocations with
    | nil => simp
    | cons i rest ih => simp [frame_of] at ih ⊢; omega
  have := on_message_available_loop_frames env1 (invocations.map env.serialize)
    (receiver.transport.incoming.length + 1) receiver
    (by simpa using hsize) (by simpa using hlen) (by simpa [List.map_map] using hstream)
  simpa [on_message_available, List.map_map] using this

/-- The sample: two invocations, sent and read back. -/
theorem C1_round_trip_framing_witness :
    (on_message_available sample_env
        { sample_channel with
          transport := { sample_transport with incoming := [0, 3, 10, 20, 30, 0, 0] } }).2.trace =
      [.receive_data 2 (some [0, 3]), .receive_data 3 (some [10, 20, 30]),
        .result_receipt_succeeded Result.default,
        .receive_data 2 (some [0, 0]), .receive_data 0 (some []),
        .result_receipt_succeeded Result.default] :=
  (C1_round_trip_framing sample_env sample_env
    [sample_invocation, { id := 1, method_name := "disconnect", parameters := [] }]
    sample_channel
    { sample_channel with
      transport := { sample_transport with incoming := [0, 3, 10, 20, 30, 0, 0] } }
    (by decide) (by decide) (by decide)).2.1

/-- C2 (wire format of an outgoing frame): for every invocation whose serialized size `L`
is at most 65535, `send_message` hands the transport exactly one buffer; its length is
`2 + L`, its byte 0 is `L / 256`, its byte 1 is `L % 256`, and its bytes from offset 2 on
are the serialized invocation, unchanged. -/
theorem C2_send_message_wire_format (env : Env) (body invocation : Invocation)
    (c : MirProtobufRpcChannel) (h : (env.serialize body).length ≤ 65535) :
    ∃ buffer : List Nat,
      sent_buffers (send_message env body invocation c).2.trace =
        sent_buffers c.trace ++ [buffer] ∧
      buffer.length = 2 + (env.serialize body).length ∧
      buffer[0]? = some ((env.serialize body).length / 256) ∧
      buffer[1]? = some ((env.serialize body).length % 256) ∧
      buffer.drop 2 = env.serialize body := by
  refine ⟨_, send_message_sent env body invocation c, ?_, ?_, ?_, ?_⟩
  · simp; omega
  · simp; omega
  · simp
  · simp

/-- The sample invocation of three bytes goes out as `0, 3` and the three bytes. -/
theorem C2_send_message_wire_format_witness :
    (sample_env.serialize sample_invocation).length ≤ 65535 ∧
      ∃ buffer : List Nat,
        sent_buffers (send_message sample_env sample_invocation sample_invocation
          sample_channel).2.trace = sent_buffers sample_channel.trace ++ [buffer] ∧
        buffer.length = 2 + (sample_env.serialize sample_invocation).length ∧
        buffer[0]? = some ((sample_env.serialize sample_invocation).length / 256) ∧
        buffer[1]? = some ((sample_env.serialize sample_invocation).length % 256) ∧
        buffer.drop 2 = sample_env.serialize sample_invocation :=
  ⟨by decide,
    C2_send_message_wire_format sample_env sample_invocation sample_invocation sample_channel
      (by decide)⟩

theorem oversized_env_length (i : Invocation) :
    (oversized_env.serialize i).length = 65536 := by
  show oversized_body.length = 65536
  unfold oversized_body
  exact List.length_replicate 65536 0

/-- C3, as the claim states it, fails: an invocation serialized to 65536 bytes is sent.
`send_message` returns normally and has handed the transport one buffer of 65538
bytes. -/
theorem C3_oversized_counterexample :
    65535 < (oversized_env.serialize sample_invocation).length ∧
      (send_message oversized_env sample_invocation sample_invocation sample_channel).1 =
        .ok () ∧
      (sent_buffers (send_message oversized_env sample_invocation sample_invocation
        sample_channel).2.trace).map List.length = [65538] := by
  have hok := send_message_ok oversized_env sample_invocation sample_invocation sample_channel
    (by decide)
  refine ⟨by rw [oversized_env_length]; norm_num, by rw [hok], ?_⟩
  have h : sent_buffers sample_channel.trace = [] := rfl
  rw [send_message_sent, h]
  simp only [List.nil_append, List.map_cons, List.map_nil, List.length_append,
    oversized_env_length]
  simp

/-- C3, amended: for every invocation whose serialized size `S` exceeds 65535,
`send_message` makes no check of the size: it hands the transport exactly one buffer of
`2 + S` bytes whose bytes from offset 2 on are the whole serialized invocation, and it
returns normally unless the transport's send fails. -/
theorem C3_oversized_is_sent_whole (env : Env) (body invocation : Invocation)
    (c : MirProtobufRpcChannel) (_h : 65535 < (env.serialize body).length) :
    (∃ buffer : List Nat,
      sent_buffers (send_message env body invocation c).2.trace =
        sent_buffers c.trace ++ [buffer] ∧
      buffer.length = 2 + (env.serialize body).length ∧
      buffer.drop 2 = env.serialize body) ∧
    (c.transport.send_failures.head? ≠ some true →
      (send_message env body invocation c).1 = .ok ()) := by
  refine ⟨⟨_, send_message_sent env body invocation c, ?_, ?_⟩, ?_⟩
  · simp; omega
  · simp
  · intro hs
    rw [send_message_ok env body invocation c hs]

/-- The serializer of 65536 bytes: the whole buffer goes to the transport. -/
theorem C3_oversized_is_sent_whole_witness :
    65535 < (oversized_env.serialize sample_invocation).length ∧
      (∃ buffer : List Nat,
        sent_buffers (send_message oversized_env sample_invocation sample_invocation
          sample_channel).2.trace = sent_buffers sample_channel.trace ++ [buffer] ∧
        buffer.length = 2 + (oversized_env.serialize sample_invocation).length ∧
        buffer.drop 2 = oversized_env.serialize sample_invocation) ∧
      (sample_channel.transport.send_failures.head? ≠ some true →
        (send_message oversized_env sample_invocation sample_invocation sample_channel).1 =
          .ok ()) :=
  ⟨by rw [oversized_env_length]; norm_num,
    C3_oversized_is_sent_whole oversized_env sample_invocation sample_invocation sample_channel
      (by rw [oversized_env_length]; norm_num)⟩

/-- C4, the code at the scenario of the spec: `on_message_available` reads the frame and
demultiplexes a default-constructed `Result`; the display sink is not updated, the
registry is not asked to complete call 0, which stays pending. `read_message`, given the
same header and body, parses the body, updates the display sink and completes the
call. -/
theorem C4_on_message_available_does_not_decode :
    (on_message_available scenario_env scenario_channel).2.trace =
      [.receive_data 2 (some [0, 1]), .receive_data 1 (some [7]),
        .result_receipt_succeeded Result.default] ∧
    (on_message_available scenario_env scenario_channel).2.pending_calls.map PendingCall.id =
      [0] ∧
    (read_message scenario_env
      { scenario_channel with header_bytes := [0, 1], body_bytes := [7] }).2.trace =
      [.result_receipt_succeeded { id := some 0, response := some [8], events := [[9]] },
        .update_configuration [5],
        .complete_response { id := some 0, response := some [8], events := [[9]] },
        .receive_file_descriptors 1 (some [42]),
        .file_descriptors_received
          (Message.buffer { fd := [42], fds_on_side_channel := some 1, rest := [] }) [42],
        .Run 1 (Message.surface
          { fd := [], fds_on_side_channel := none,
            buffer := some { fd := [42], fds_on_side_channel := none, rest := [] },
            rest := [] })] := by
  decide

/-! ## Resolution of descriptors -/

theorem foldl_add_fd_surface (fds : List Int) (m : Surface) :
    fds.foldl FdBearing.add_fd m = { m with fd := m.fd ++ fds } := by
  induction fds generalizing m with
  | nil => simp
  | cons x rest ih => rw [List.foldl_cons, ih]; simp [FdBearing.add_fd]

theorem foldl_add_fd_buffer (fds : List Int) (m : Buffer) :
    fds.foldl FdBearing.add_fd m = { m with fd := m.fd ++ fds } := by
  induction fds generalizing m with
  | nil => simp
  | cons x rest ih => rw [List.foldl_cons, ih]; simp [FdBearing.add_fd]

theorem foldl_add_fd_platform (fds : List Int) (m : Platform) :
    fds.foldl FdBearing.add_fd m = { m with fd := m.fd ++ fds } := by
  induction fds generalizing m with
  | nil => simp
  | cons x rest ih => rw [List.foldl_cons, ih]; simp [FdBearing.add_fd]

theorem foldl_add_fd_socket_fd (fds : List Int) (m : SocketFD) :
    fds.foldl FdBearing.add_fd m = { m with fd := m.fd ++ fds } := by
  induction fds generalizing m with
  | nil => simp
  | cons x rest ih => rw [List.foldl_cons, ih]; simp [FdBearing.add_fd]

/-- A shape that declares descriptors the transport has: they are received and added. -/
theorem Shape.receive_any_pos (s : Shape) (c : MirProtobufRpcChannel)
    (hpos : 0 < s.fds_on_side_channel)
    (hfds : s.fds_on_side_channel.toNat ≤ c.transport.incoming_fds.length) :
    s.receive_any_file_descriptors_for c =
      (.ok (),
        (s.set_fd (c.transport.incoming_fds.take s.fds_on_side_channel.toNat)).clear_declared,
        { c with
          transport := { c.transport with
            incoming_fds := c.transport.incoming_fds.drop s.fds_on_side_channel.toNat }
          trace := c.trace ++
            [.receive_file_descriptors s.fds_on_side_channel.toNat
                (some (c.transport.incoming_fds.take s.fds_on_side_channel.toNat)),
              .file_descriptors_received
                (s.set_fd (c.transport.incoming_fds.take s.fds_on_side_channel.toNat)).upcast
                (c.transport.incoming_fds.take s.fds_on_side_channel.toNat)] }) := by
  cases s <;>
    simp only [Shape.fds_on_side_channel, Shape.declared] at hpos hfds <;>
    simp [Shape.receive_any_file_descriptors_for, Mir.receive_any_file_descriptors_for,
      FdBearing.fds_on_side_channel, FdBearing.clear_fd, FdBearing.clear_fds_on_side_channel,
      FdBearing.upcast, hpos, transport_receive_file_descriptors_ok _ _ hfds,
      foldl_add_fd_surface, foldl_add_fd_buffer, foldl_add_fd_platform, foldl_add_fd_socket_fd,
      Shape.fds_on_side_channel, Shape.declared, Shape.set_fd, Shape.clear_declared,
      Shape.upcast]

/-- A shape that declares no descriptors: the transport is not called. -/
theorem Shape.receive_any_zero (s : Shape) (c : MirProtobufRpcChannel)
    (hzero : ¬ 0 < s.fds_on_side_channel) :
    s.receive_any_file_descriptors_for c = (.ok (), (s.set_fd []).clear_declared, c) := by
  cases s <;>
    simp only [Shape.fds_on_side_channel, Shape.declared] at hzero <;>
    simp [Shape.receive_any_file_descriptors_for, Mir.receive_any_file_descriptors_for,
      FdBearing.fds_on_side_channel, FdBearing.clear_fd, FdBearing.clear_fds_on_side_channel,
      hzero, Shape.set_fd, Shape.clear_declared]

/-- A shape that declares more descriptors than the transport has: the transport throws
and the declared count stays. -/
theorem Shape.receive_any_short (s : Shape) (c : MirProtobufRpcChannel)
    (hpos : 0 < s.fds_on_side_channel)
    (hfds : c.transport.incoming_fds.length < s.fds_on_side_channel.toNat) :
    s.receive_any_file_descriptors_for c =
      (.error (Exn.runtime_error "Failed to read file descriptors from server"), s.set_fd [],
        { c with
          transport := { c.transport with incoming_fds := [] }
          trace := c.trace ++
            [.receive_file_descriptors s.fds_on_side_channel.toNat none] }) := by
  cases s <;>
    simp only [Shape.fds_on_side_channel, Shape.declared] at hpos hfds <;>
    simp [Shape.receive_any_file_descriptors_for, Mir.receive_any_file_descriptors_for,
      FdBearing.fds_on_side_channel, FdBearing.clear_fd, FdBearing.clear_fds_on_side_channel,
      hpos, transport_receive_file_descriptors_error _ _ hfds,
      Shape.fds_on_side_channel, Shape.declared, Shape.set_fd]

@[simp] theorem Shape.fd_set_fd (s : Shape) (fds : List Int) : (s.set_fd fds).fd = fds := by
  cases s <;> rfl

@[simp] theorem Shape.fd_clear_declared (s : Shape) : s.clear_declared.fd = s.fd := by
  cases s <;> rfl

@[simp] theorem Shape.declared_clear_declared (s : Shape) : s.clear_declared.declared = none := by
  cases s <;> rfl

@[simp] theorem Shape.declared_set_fd (s : Shape) (fds : List Int) :
    (s.set_fd fds).declared = s.declared := by
  cases s <;> rfl

@[simp] theorem fd_requests_nil : fd_requests [] = [] := rfl

@[simp] theorem fd_requests_append (a b : List Effect) :
    fd_requests (a ++ b) = fd_requests a ++ fd_requests b := by
  simp [fd_requests]

@[simp] theorem fd_requests_cons (e : Effect) (es : List Effect) :
    fd_requests (e :: es) =
      (match e with
        | .receive_file_descriptors room _ => [room]
        | _ => []) ++ fd_requests es := by
  cases e <;> simp [fd_requests, List.filterMap_cons]

theorem receive_any_none {α : Type} [FdBearing α] (c : MirProtobufRpcChannel) :
    receive_any_file_descriptors_for (none : Option α) c = (.ok (), none, c) := rfl

theorem requested_pos (declared : Option Int) :
    0 < requested declared ↔ 0 < declared.getD 0 := by
  unfold requested; omega

theorem requested_zero (declared : Option Int) (h : ¬ 0 < declared.getD 0) :
    requested declared = 0 := by
  unfold requested; omega

/-- The template at a buffer, when the transport has the descriptors asked for. -/
theorem receive_any_buffer (m : Buffer) (c : MirProtobufRpcChannel)
    (h : requested m.fds_on_side_channel ≤ c.transport.incoming_fds.length) :
    receive_any_file_descriptors_for (some m) c =
      (.ok (), some (m.resolved c.transport.incoming_fds),
        { c with
          transport := { c.transport with
            incoming_fds := c.transport.incoming_fds.drop (requested m.fds_on_side_channel) }
          trace := c.trace ++ m.resolution_effects c.transport.incoming_fds }) := by
  have h1 : (m.fds_on_side_channel.getD 0).toNat ≤ c.transport.incoming_fds.length := h
  by_cases hp : 0 < m.fds_on_side_channel.getD 0
  · simp [receive_any_file_descriptors_for, FdBearing.fds_on_side_channel,
      FdBearing.clear_fd, FdBearing.clear_fds_on_side_channel, FdBearing.upcast, hp,
      transport_receive_file_descriptors_ok _ _ h1, foldl_add_fd_buffer, Buffer.resolved,
      Buffer.resolution_effects, resolution_effects, requested_pos]
    simp [requested]
  · simp [receive_any_file_descriptors_for, FdBearing.fds_on_side_channel,
      FdBearing.clear_fd, FdBearing.clear_fds_on_side_channel, hp, Buffer.resolved,
      Buffer.resolution_effects, resolution_effects, requested_pos, requested_zero _ hp]

/-- The template at a platform, when the transport has the descriptors asked for. -/
theorem receive_any_platform (m : Platform) (c : MirProtobufRpcChannel)
    (h : requested m.fds_on_side_channel ≤ c.transport.incoming_fds.length) :
    receive_any_file_descriptors_for (some m) c =
      (.ok (), some (m.resolved c.transport.incoming_fds),
        { c with
          transport := { c.transport with
            incoming_fds := c.transport.incoming_fds.drop (requested m.fds_on_side_channel) }
          trace := c.trace ++ m.resolution_effects c.transport.incoming_fds }) := by
  have h1 : (m.fds_on_side_channel.getD 0).toNat ≤ c.transport.incoming_fds.length := h
  by_cases hp : 0 < m.fds_on_side_channel.getD 0
  · simp [receive_any_file_descriptors_for, FdBearing.fds_on_side_channel,
      FdBearing.clear_fd, FdBearing.clear_fds_on_side_channel, FdBearing.upcast, hp,
      transport_receive_file_descriptors_ok _ _ h1, foldl_add_fd_platform, Platform.resolved,
      Platform.resolution_effects, resolution_effects, requested_pos]
    simp [requested]
  · simp [receive_any_file_descriptors_for, FdBearing.fds_on_side_channel,
      FdBearing.clear_fd, FdBearing.clear_fds_on_side_channel, hp, Platform.resolved,
      Platform.resolution_effects, resolution_effects, requested_pos, requested_zero _ hp]

/-- The template at a socket_fd, when the transport has the descriptors asked for. -/
theorem receive_any_socket_fd (m : SocketFD) (c : MirProtobufRpcChannel)
    (h : requested m.fds_on_side_channel ≤ c.transport.incoming_fds.length) :
    receive_any_file_descriptors_for (some m) c =
      (.ok (), some (m.resolved c.transport.incoming_fds),
        { c with
          transport := { c.transport with
            incoming_fds := c.transport.incoming_fds.drop (requested m.fds_on_side_channel) }
          trace := c.trace ++ resolution_effects m.fds_on_side_channel
            (fun f => .socket_fd { m with fd := f }) c.transport.incoming_fds }) := by
  have h1 : (m.fds_on_side_channel.getD 0).toNat ≤ c.transport.incoming_fds.length := h
  by_cases hp : 0 < m.fds_on_side_channel.getD 0
  · simp [receive_any_file_descriptors_for, FdBearing.fds_on_side_channel,
      FdBearing.clear_fd, FdBearing.clear_fds_on_side_channel, FdBearing.upcast, hp,
      transport_receive_file_descriptors_ok _ _ h1, foldl_add_fd_socket_fd, SocketFD.resolved,
       resolution_effects, requested_pos]
    simp [requested]
  · simp [receive_any_file_descriptors_for, FdBearing.fds_on_side_channel,
      FdBearing.clear_fd, FdBearing.clear_fds_on_side_channel, hp, SocketFD.resolved,
       resolution_effects, requested_pos, requested_zero _ hp]

/-- The template at a surface, which resolves the surface's own descriptors, when the
transport has the descriptors asked for. -/
theorem receive_any_surface (m : Surface) (c : MirProtobufRpcChannel)
    (h : requested m.fds_on_side_channel ≤ c.transport.incoming_fds.length) :
    receive_any_file_descriptors_for (some m) c =
      (.ok (),
        some { m with
          fd := c.transport.incoming_fds.take (requested m.fds_on_side_channel)
          fds_on_side_channel := none },
        { c with
          transport := { c.transport with
            incoming_fds := c.transport.incoming_fds.drop (requested m.fds_on_side_channel) }
          trace := c.trace ++ resolution_effects m.fds_on_side_channel
            (fun f => .surface { m with fd := f }) c.transport.incoming_fds }) := by
  have h1 : (m.fds_on_side_channel.getD 0).toNat ≤ c.transport.incoming_fds.length := h
  by_cases hp : 0 < m.fds_on_side_channel.getD 0
  · simp [receive_any_file_descriptors_for, FdBearing.fds_on_side_channel,
      FdBearing.clear_fd, FdBearing.clear_fds_on_side_channel, FdBearing.upcast, hp,
      transport_receive_file_descriptors_ok _ _ h1, foldl_add_fd_surface,
      resolution_effects, requested_pos]
    simp [requested]
  · simp [receive_any_file_descriptors_for, FdBearing.fds_on_side_channel,
      FdBearing.clear_fd, FdBearing.clear_fds_on_side_channel, hp,
      resolution_effects, requested_pos, requested_zero _ hp]

/-- On a connected channel whose transport has the descriptors the response asks for,
`receive_file_descriptors` resolves the response, shape after shape, and then runs the
caller closure on the resolved response. -/
theorem receive_file_descriptors_ok (response : Message) (complete : Nat)
    (c : MirProtobufRpcChannel) (hc : c.disconnected = false)
    (hfds : response.requested ≤ c.transport.incoming_fds.length) :
    receive_file_descriptors response complete c =
      (.ok (), response.resolved c.transport.incoming_fds,
        { c with
          transport := { c.transport with
            incoming_fds := c.transport.incoming_fds.drop response.requested }
          trace := c.trace ++ response.resolution_effects c.transport.incoming_fds ++
            [.Run complete (response.resolved c.transport.incoming_fds)] }) := by
  cases response with
  | buffer m =>
    simp only [Message.requested, Message.declared_counts, List.map_cons, List.map_nil,
      List.sum_cons, List.sum_nil, Nat.add_zero] at hfds
    simp [receive_file_descriptors, hc, Message.GetTypeName, Message.get_buffer,
      receive_any_none, receive_any_buffer m c hfds, Message.set_surface, Message.set_buffer,
      Message.get_platform, Message.get_socket_fd, Message.set_platform, Message.set_socket_fd,
      Run, Message.resolved, Message.requested, Message.declared_counts,
      Message.resolution_effects]
  | surface m =>
    cases hb : m.buffer with
    | none =>
      simp only [Message.requested, Message.declared_counts, hb, Option.map_none',
        Option.getD_none, List.map_cons, List.map_nil, List.sum_cons, List.sum_nil,
        Nat.add_zero] at hfds
      simp [receive_file_descriptors, hc, Message.GetTypeName, Message.get_buffer,
        Message.get_surface, receive_any_none, receive_any_surface m c hfds,
        Message.set_surface, Message.set_buffer, Message.get_platform, Message.get_socket_fd,
        Message.set_platform, Message.set_socket_fd, Run, Message.resolved, Surface.resolved,
        Message.requested, Message.declared_counts, Message.resolution_effects, hb]
    | some b =>
      simp only [Message.requested, Message.declared_counts, hb, Option.map_some',
        Option.getD_some, List.map_cons, List.map_nil, List.sum_cons, List.sum_nil,
        Nat.add_zero] at hfds
      have h1 : requested m.fds_on_side_channel ≤ c.transport.incoming_fds.length := by omega
      simp only [receive_file_descriptors, hc, Message.GetTypeName, Message.get_buffer,
        Message.get_surface, receive_any_none, receive_any_surface m c h1,
        Message.set_surface, Message.set_buffer, Message.get_platform, Message.get_socket_fd,
        Message.set_platform, Message.set_socket_fd, hb, Bool.not_false, if_true,
        Bool.or_true, Bool.true_or, decide_True, decide_False, Bool.or_false,
        Bool.false_eq_true, if_false]
      rw [receive_any_buffer b _ (by simp; omega)]
      simp [receive_any_none, Run, Message.resolved, Surface.resolved, Message.set_buffer,
        Message.get_platform, Message.get_socket_fd, Message.set_platform,
        Message.set_socket_fd, Message.requested, Message.declared_counts,
        Message.resolution_effects, hb, Nat.add_comm]
  | screencast m =>
    cases hb : m.buffer with
    | none =>
      simp [receive_file_descriptors, hc, Message.GetTypeName, Message.get_buffer,
        Message.get_surface, receive_any_none,
        Message.set_surface, Message.set_buffer, Message.get_platform, Message.get_socket_fd,
        Message.set_platform, Message.set_socket_fd, Run, Message.resolved,
        Message.requested, Message.declared_counts, Message.resolution_effects, hb]
      cases m
      simp_all
    | some b =>
      simp only [Message.requested, Message.declared_counts, hb, Option.map_some',
        Option.getD_some, List.map_cons, List.map_nil, List.sum_cons, List.sum_nil,
        Nat.add_zero] at hfds
      simp [receive_file_descriptors, hc, Message.GetTypeName, Message.get_buffer,
        Message.get_surface, receive_any_none, receive_any_buffer b c hfds,
        Message.set_surface, Message.set_buffer, Message.get_platform, Message.get_socket_fd,
        Message.set_platform, Message.set_socket_fd, Run, Message.resolved,
        Message.requested, Message.declared_counts, Message.resolution_effects, hb]
  | platform m =>
    simp only [Message.requested, Message.declared_counts, List.map_cons, List.map_nil,
      List.sum_cons, List.sum_nil, Nat.add_zero] at hfds
    simp [receive_file_descriptors, hc, Message.GetTypeName, Message.get_buffer,
      Message.get_surface, receive_any_none, receive_any_platform m c hfds,
      Message.set_surface, Message.set_buffer, Message.get_platform, Message.get_socket_fd,
      Message.set_platform, Message.set_socket_fd, Run, Message.resolved,
      Message.requested, Message.declared_counts, Message.resolution_effects]
  | connection m =>
    cases hb : m.platform with
    | none =>
      simp [receive_file_descriptors, hc, Message.GetTypeName, Message.get_buffer,
        Message.get_surface, receive_any_none,
        Message.set_surface, Message.set_buffer, Message.get_platform, Message.get_socket_fd,
        Message.set_platform, Message.set_socket_fd, Run, Message.resolved,
        Message.requested, Message.declared_counts, Message.resolution_effects, hb]
      cases m
      simp_all
    | some p =>
      simp only [Message.requested, Message.declared_counts, hb, Option.map_some',
        Option.getD_some, List.map_cons, List.map_nil, List.sum_cons, List.sum_nil,
        Nat.add_zero] at hfds
      simp [receive_file_descriptors, hc, Message.GetTypeName, Message.get_buffer,
        Message.get_surface, receive_any_none, receive_any_platform p c hfds,
        Message.set_surface, Message.set_buffer, Message.get_platform, Message.get_socket_fd,
        Message.set_platform, Message.set_socket_fd, Run, Message.resolved,
        Message.requested, Message.declared_counts, Message.resolution_effects, hb]
  | socket_fd m =>
    simp only [Message.requested, Message.declared_counts, List.map_cons, List.map_nil,
      List.sum_cons, List.sum_nil, Nat.add_zero] at hfds
    simp [receive_file_descriptors, hc, Message.GetTypeName, Message.get_buffer,
      Message.get_surface, receive_any_none, receive_any_socket_fd m c hfds,
      Message.set_surface, Message.set_buffer, Message.get_platform, Message.get_socket_fd,
      Message.set_platform, Message.set_socket_fd, Run, Message.resolved, SocketFD.resolved,
      Message.requested, Message.declared_counts, Message.resolution_effects]
  | other type_name rest =>
    simp [receive_file_descriptors, hc, Message.GetTypeName, Message.get_buffer, Message.get_surface,
      receive_any_none,  Message.set_surface, Message.set_buffer,
      Message.get_platform, Message.get_socket_fd, Message.set_platform, Message.set_socket_fd,
      Run, Message.resolved, Message.requested, Message.declared_counts,
      Message.resolution_effects]

theorem resolution_effects_is_resolution (declared : Option Int) (with_fd : List Int → Message)
    (fds : List Int) : ∀ e ∈ resolution_effects declared with_fd fds, e.is_resolution = true := by
  unfold resolution_effects
  split <;> simp [Effect.is_resolution]

theorem fd_requests_resolution_effects (declared : Option Int) (with_fd : List Int → Message)
    (fds : List Int) :
    fd_requests (resolution_effects declared with_fd fds) =
      [requested declared].filter (0 < ·) := by
  unfold resolution_effects
  split <;> simp [*]

theorem Message.resolution_effects_all_resolution (response : Message) (fds : List Int) :
    ∀ e ∈ response.resolution_effects fds, e.is_resolution = true := by
  intro e he
  cases response with
  | buffer m =>
    simp only [Message.resolution_effects, Buffer.resolution_effects] at he
    exact Mir.resolution_effects_is_resolution _ _ _ e he
  | surface m =>
    simp only [Message.resolution_effects, List.mem_append] at he
    rcases he with he | he
    · exact Mir.resolution_effects_is_resolution _ _ _ e he
    · cases hb : m.buffer with
      | none => simp [hb] at he
      | some b =>
        simp only [hb, Option.map_some', Option.getD_some, Buffer.resolution_effects] at he
        exact Mir.resolution_effects_is_resolution _ _ _ e he
  | screencast m =>
    simp only [Message.resolution_effects] at he
    cases hb : m.buffer with
    | none => simp [hb] at he
    | some b =>
      simp only [hb, Option.map_some', Option.getD_some, Buffer.resolution_effects] at he
      exact Mir.resolution_effects_is_resolution _ _ _ e he
  | platform m =>
    simp only [Message.resolution_effects, Platform.resolution_effects] at he
    exact Mir.resolution_effects_is_resolution _ _ _ e he
  | connection m =>
    simp only [Message.resolution_effects] at he
    cases hb : m.platform with
    | none => simp [hb] at he
    | some b =>
      simp only [hb, Option.map_some', Option.getD_some, Platform.resolution_effects] at he
      exact Mir.resolution_effects_is_resolution _ _ _ e he
  | socket_fd m =>
    simp only [Message.resolution_effects] at he
    exact Mir.resolution_effects_is_resolution _ _ _ e he
  | other type_name rest => simp [Message.resolution_effects] at he

theorem Message.fd_requests_of_resolution (response : Message) (fds : List Int) :
    fd_requests (response.resolution_effects fds) =
      (response.declared_counts.map Mir.requested).filter (0 < ·) := by
  cases response with
  | buffer m =>
    simp only [Message.resolution_effects, Buffer.resolution_effects, Message.declared_counts,
      Mir.fd_requests_resolution_effects, List.map_cons, List.map_nil]
  | surface m =>
    cases hb : m.buffer with
    | none =>
      simp [Message.resolution_effects, Message.declared_counts,
        Mir.fd_requests_resolution_effects, hb]
    | some b =>
      simp only [Message.resolution_effects, Buffer.resolution_effects,
        Message.declared_counts, Mir.fd_requests_resolution_effects, hb, fd_requests_append,
        Option.map_some', Option.getD_some, List.map_cons, List.map_nil]
      rw [show [Mir.requested m.fds_on_side_channel, Mir.requested b.fds_on_side_channel] =
        [Mir.requested m.fds_on_side_channel] ++ [Mir.requested b.fds_on_side_channel] from rfl,
        List.filter_append]
  | screencast m =>
    cases hb : m.buffer <;>
      simp [Message.resolution_effects, Buffer.resolution_effects, Message.declared_counts,
        Mir.fd_requests_resolution_effects, hb]
  | platform m =>
    simp only [Message.resolution_effects, Platform.resolution_effects,
      Message.declared_counts, Mir.fd_requests_resolution_effects, List.map_cons, List.map_nil]
  | connection m =>
    cases hb : m.platform <;>
      simp [Message.resolution_effects, Platform.resolution_effects, Message.declared_counts,
        Mir.fd_requests_resolution_effects, hb]
  | socket_fd m =>
    simp only [Message.resolution_effects, Message.declared_counts,
      Mir.fd_requests_resolution_effects, List.map_cons, List.map_nil]
  | other type_name rest => simp [Message.resolution_effects, Message.declared_counts]

theorem Message.declared_counts_resolved (response : Message) (fds : List Int) :
    ∀ k ∈ (response.resolved fds).declared_counts, k = none := by
  cases response with
  | buffer m => simp [Message.resolved, Message.declared_counts, Buffer.resolved]
  | surface m =>
    cases hb : m.buffer <;>
      simp [Message.resolved, Message.declared_counts, Surface.resolved, Buffer.resolved, hb]
  | screencast m =>
    cases hb : m.buffer <;>
      simp [Message.resolved, Message.declared_counts, Buffer.resolved, hb]
  | platform m => simp [Message.resolved, Message.declared_counts, Platform.resolved]
  | connection m =>
    cases hb : m.platform <;>
      simp [Message.resolved, Message.declared_counts, Platform.resolved, hb]
  | socket_fd m => simp [Message.resolved, Message.declared_counts, SocketFD.resolved]
  | other type_name rest => simp [Message.resolved, Message.declared_counts]

/-- C5 (fd count integrity): for every fd-bearing payload shape (Surface, Buffer,
Platform, SocketFD) whose declared `fds_on_side_channel` is `K > 0`, when the transport
has the `K` descriptors, `receive_any_file_descriptors_for` returns, the transport's
`receive_file_descriptors` was called once, with room for `K`, and delivered the first
`K` descriptors of the side channel, and the payload's `fd` field holds exactly these `K`
handles, in the order received. -/
theorem C5_fd_count_integrity (s : Shape) (c : MirProtobufRpcChannel) (K : Nat)
    (hK : s.fds_on_side_channel = (K : Int)) (hpos : 0 < K)
    (hfds : K ≤ c.transport.incoming_fds.length) :
    (s.receive_any_file_descriptors_for c).1 = .ok () ∧
      (s.receive_any_file_descriptors_for c).2.2.trace =
        c.trace ++
          [.receive_file_descriptors K (some (c.transport.incoming_fds.take K)),
            .file_descriptors_received (s.set_fd (c.transport.incoming_fds.take K)).upcast
              (c.transport.incoming_fds.take K)] ∧
      (s.receive_any_file_descriptors_for c).2.1.fd = c.transport.incoming_fds.take K ∧
      (s.receive_any_file_descriptors_for c).2.1.fd.length = K := by
  have hp : 0 < s.fds_on_side_channel := by rw [hK]; exact_mod_cast hpos
  have hn : s.fds_on_side_channel.toNat = K := by rw [hK]; simp
  have h := Shape.receive_any_pos s c hp (by rw [hn]; exact hfds)
  rw [hn] at h
  rw [h]
  simp [hfds]

/-- A surface that declares two descriptors, on a transport that has three. -/
theorem C5_fd_count_integrity_witness :
    (Shape.receive_any_file_descriptors_for
        (.surface { fd := [9], fds_on_side_channel := some 2, buffer := none, rest := [] })
        { sample_channel with
          transport := { sample_transport with incoming_fds := [5, 6, 7] } }).2.1 =
      .surface { fd := [5, 6], fds_on_side_channel := none, buffer := none, rest := [] } ∧
    (Shape.receive_any_file_descriptors_for
        (.surface { fd := [9], fds_on_side_channel := some 2, buffer := none, rest := [] })
        { sample_channel with
          transport := { sample_transport with incoming_fds := [5, 6, 7] } }).2.1.fd.length =
      2 :=
  ⟨by decide,
    (C5_fd_count_integrity
      (.surface { fd := [9], fds_on_side_channel := some 2, buffer := none, rest := [] })
      { sample_channel with transport := { sample_transport with incoming_fds := [5, 6, 7] } }
      2 (by decide) (by decide) (by decide)).2.2.2⟩

/-- C6 (nested shapes are resolved): on a connected channel whose transport has the
descriptors the response asks for, `receive_file_descriptors` returns with the response
resolved as the claim words it (`Message.resolved`): a Buffer, Platform or SocketFD
response itself; a Surface response its own descriptors and, when it has one, its nested
buffer's, the surface first and the buffer second, each with its own declared count; a
Screencast response its nested buffer when present; a Connection response its nested
platform when present. The transport is asked once for each positive count, in that
order, and the descriptors asked for are taken from the side channel. -/
theorem C6_nested_shapes_resolved (response : Message) (complete : Nat)
    (c : MirProtobufRpcChannel) (hc : c.disconnected = false)
    (hfds : response.requested ≤ c.transport.incoming_fds.length) :
    (receive_file_descriptors response complete c).1 = .ok () ∧
      (receive_file_descriptors response complete c).2.1 =
        response.resolved c.transport.incoming_fds ∧
      fd_requests (receive_file_descriptors response complete c).2.2.trace =
        fd_requests c.trace ++ (response.declared_counts.map requested).filter (0 < ·) ∧
      (receive_file_descriptors response complete c).2.2.transport.incoming_fds =
        c.transport.incoming_fds.drop response.requested := by
  rw [receive_file_descriptors_ok response complete c hc hfds]
  simp [Message.fd_requests_of_resolution]

/-- The sample surface declares one descriptor and its nested buffer two: the surface
gets the first descriptor, the buffer the next two. -/
theorem C6_nested_shapes_resolved_witness :
    (receive_file_descriptors sample_surface 0 sample_receiver).2.1 =
      .surface
        { fd := [5]
          fds_on_side_channel := none
          buffer := some { fd := [6, 7], fds_on_side_channel := none, rest := [] }
          rest := [] } ∧
    fd_requests (receive_file_descriptors sample_surface 0 sample_receiver).2.2.trace =
      [1, 2] :=
  ⟨(C6_nested_shapes_resolved sample_surface 0 sample_receiver (by decide) (by decide)).2.1,
    by decide⟩

/-- C7 (the declared count is cleared): for every fd-bearing payload shape, whatever its
declared `fds_on_side_channel` was (zero, negative, unset or positive), when the
transport has the descriptors a positive count asks for,
`receive_any_file_descriptors_for` returns and the field is then unset and reads as
0. -/
theorem C7_declared_count_cleared (s : Shape) (c : MirProtobufRpcChannel)
    (hfds : 0 < s.fds_on_side_channel →
      s.fds_on_side_channel.toNat ≤ c.transport.incoming_fds.length) :
    (s.receive_any_file_descriptors_for c).1 = .ok () ∧
      (s.receive_any_file_descriptors_for c).2.1.declared = none ∧
      (s.receive_any_file_descriptors_for c).2.1.fds_on_side_channel = 0 := by
  by_cases hp : 0 < s.fds_on_side_channel
  · rw [Shape.receive_any_pos s c hp (hfds hp)]
    simp [Shape.fds_on_side_channel]
  · rw [Shape.receive_any_zero s c hp]
    simp [Shape.fds_on_side_channel]

/-- A buffer that declares one descriptor, on a transport that has it. -/
theorem C7_declared_count_cleared_witness :
    (Shape.receive_any_file_descriptors_for
        (.buffer { fd := [], fds_on_side_channel := some 1, rest := [] })
        { sample_channel with
          transport := { sample_transport with incoming_fds := [5] } }).1 = .ok () ∧
      (Shape.receive_any_file_descriptors_for
        (.buffer { fd := [], fds_on_side_channel := some 1, rest := [] })
        { sample_channel with
          transport := { sample_transport with incoming_fds := [5] } }).2.1.declared = none ∧
      (Shape.receive_any_file_descriptors_for
        (.buffer { fd := [], fds_on_side_channel := some 1, rest := [] })
        { sample_channel with
          transport := { sample_transport with incoming_fds := [5] } }).2.1.fds_on_side_channel
        = 0 :=
  C7_declared_count_cleared
    (.buffer { fd := [], fds_on_side_channel := some 1, rest := [] })
    { sample_channel with transport := { sample_transport with incoming_fds := [5] } }
    (by decide)

/-- C8 (descriptors are requested iff declared): for every fd-bearing payload shape with
declared count `K`, `receive_any_file_descriptors_for` calls the transport's
`receive_file_descriptors` exactly once, with room for exactly `K` handles, when `K` is
positive, and does not call it when `K` is 0 (or unset, or negative); this whether or not
the transport then delivers. -/
theorem C8_descriptors_requested_iff_declared (s : Shape) (c : MirProtobufRpcChannel) :
    fd_requests (s.receive_any_file_descriptors_for c).2.2.trace =
      fd_requests c.trace ++
        (if 0 < s.fds_on_side_channel then [s.fds_on_side_channel.toNat] else []) := by
  by_cases hp : 0 < s.fds_on_side_channel
  · by_cases hfds : s.fds_on_side_channel.toNat ≤ c.transport.incoming_fds.length
    · rw [Shape.receive_any_pos s c hp hfds]
      simp [hp]
    · rw [Shape.receive_any_short s c hp (Nat.not_le.mp hfds)]
      simp [hp]
  · rw [Shape.receive_any_zero s c hp]
    simp [hp]

/-! ## Resolution that the transport fails -/

/-- The template at an object whose declared count exceeds what the transport has: the
transport throws, the `fd` field is left cleared and the declared count stays. -/
theorem receive_any_file_descriptors_for_short {α : Type} [FdBearing α] (m : α)
    (c : MirProtobufRpcChannel)
    (hpos : 0 < FdBearing.fds_on_side_channel (FdBearing.clear_fd m))
    (h : c.transport.incoming_fds.length <
      (FdBearing.fds_on_side_channel (FdBearing.clear_fd m)).toNat) :
    receive_any_file_descriptors_for (some m) c =
      (.error (Exn.runtime_error "Failed to read file descriptors from server"),
        some (FdBearing.clear_fd m),
        { c with
          transport := { c.transport with incoming_fds := [] }
          trace := c.trace ++
            [.receive_file_descriptors
              (FdBearing.fds_on_side_channel (FdBearing.clear_fd m)).toNat none] }) := by
  simp [receive_any_file_descriptors_for, hpos, transport_receive_file_descriptors_error _ _ h]

theorem requested_short (declared : Option Int) (n : Nat) (h : n < requested declared) :
    0 < declared.getD 0 ∧ n < (declared.getD 0).toNat := by
  unfold requested at h
  omega

/-- On a connected channel whose transport has fewer descriptors than the response asks
for, `receive_file_descriptors` throws the transport's error; what it has appended to the
trace is effects of resolution, and no `Run`. -/
theorem receive_file_descriptors_short (response : Message) (complete : Nat)
    (c : MirProtobufRpcChannel) (hc : c.disconnected = false)
    (h : c.transport.incoming_fds.length < response.requested) :
    (receive_file_descriptors response complete c).1 =
        .error (Exn.runtime_error "Failed to read file descriptors from server") ∧
      ∃ es : List Effect, (∀ e ∈ es, e.is_resolution = true) ∧
        (receive_file_descriptors response complete c).2.2.trace = c.trace ++ es := by
  cases response with
  | buffer m =>
    simp only [Message.requested, Message.declared_counts, List.map_cons, List.map_nil,
      List.sum_cons, List.sum_nil, Nat.add_zero] at h
    obtain ⟨hp, hs⟩ := requested_short _ _ h
    have he := receive_any_file_descriptors_for_short m c hp hs
    refine ⟨?_, [.receive_file_descriptors
      (FdBearing.fds_on_side_channel (FdBearing.clear_fd m)).toNat none], ?_, ?_⟩
    · simp [receive_file_descriptors, hc, Message.GetTypeName, Message.get_buffer,
        Message.get_surface, receive_any_none, he, Message.set_surface]
    · simp [Effect.is_resolution]
    · simp [receive_file_descriptors, hc, Message.GetTypeName, Message.get_buffer,
        Message.get_surface, receive_any_none, he, Message.set_surface]
  | surface m =>
    by_cases h1 : requested m.fds_on_side_channel ≤ c.transport.incoming_fds.length
    · cases hb : m.buffer with
      | none =>
        simp [Message.requested, Message.declared_counts, hb] at h
        omega
      | some b =>
        simp only [Message.requested, Message.declared_counts, hb, Option.map_some',
          Option.getD_some, List.map_cons, List.map_nil, List.sum_cons, List.sum_nil,
          Nat.add_zero] at h
        have h2 : (c.transport.incoming_fds.drop (requested m.fds_on_side_channel)).length <
            requested b.fds_on_side_channel := by
          simp only [List.length_drop]; omega
        obtain ⟨hp, hs⟩ := requested_short _ _ h2
        have key : receive_file_descriptors (.surface m) complete c =
            (.error (Exn.runtime_error "Failed to read file descriptors from server"),
              .surface { m with
                fd := c.transport.incoming_fds.take (requested m.fds_on_side_channel)
                fds_on_side_channel := none
                buffer := some { b with fd := [] } },
              { c with
                transport := { c.transport with incoming_fds := [] }
                trace := c.trace ++ (resolution_effects m.fds_on_side_channel
                    (fun f => .surface { m with fd := f }) c.transport.incoming_fds ++
                  [.receive_file_descriptors (b.fds_on_side_channel.getD 0).toNat none]) }) := by
          simp only [receive_file_descriptors, hc, Message.GetTypeName, Message.get_buffer,
            Message.get_surface, receive_any_none, receive_any_surface m c h1,
            Message.set_surface, Message.set_buffer, Message.get_platform,
            Message.get_socket_fd, Message.set_platform, Message.set_socket_fd, hb,
            Bool.not_false, if_true, Bool.or_true, Bool.true_or, decide_True, decide_False,
            Bool.or_false, Bool.false_eq_true, if_false]
          rw [receive_any_file_descriptors_for_short b _ hp hs]
          simp [FdBearing.clear_fd, FdBearing.fds_on_side_channel]
        rw [key]
        refine ⟨rfl, _, ?_, rfl⟩
        intro e hmem
        rcases List.mem_append.mp hmem with hm | hm
        · exact resolution_effects_is_resolution _ _ _ e hm
        · simp only [List.mem_singleton] at hm
          subst hm
          rfl
    · obtain ⟨hp, hs⟩ := requested_short _ _ (Nat.lt_of_not_le h1)
      have he := receive_any_file_descriptors_for_short m c hp hs
      refine ⟨?_, [.receive_file_descriptors
        (FdBearing.fds_on_side_channel (FdBearing.clear_fd m)).toNat none], ?_, ?_⟩
      · simp [receive_file_descriptors, hc, Message.GetTypeName, Message.get_surface, he]
      · simp [Effect.is_resolution]
      · simp [receive_file_descriptors, hc, Message.GetTypeName, Message.get_surface, he]
  | screencast m =>
    cases hb : m.buffer with
    | none => simp [Message.requested, Message.declared_counts, hb] at h
    | some b =>
      simp only [Message.requested, Message.declared_counts, hb, Option.map_some',
        Option.getD_some, List.map_cons, List.map_nil, List.sum_cons, List.sum_nil,
        Nat.add_zero] at h
      obtain ⟨hp, hs⟩ := requested_short _ _ h
      have he := receive_any_file_descriptors_for_short b c hp hs
      refine ⟨?_, [.receive_file_descriptors
        (FdBearing.fds_on_side_channel (FdBearing.clear_fd b)).toNat none], ?_, ?_⟩
      · simp [receive_file_descriptors, hc, Message.GetTypeName, Message.get_buffer,
          Message.get_surface, receive_any_none, he, Message.set_surface, hb]
      · simp [Effect.is_resolution]
      · simp [receive_file_descriptors, hc, Message.GetTypeName, Message.get_buffer,
          Message.get_surface, receive_any_none, he, Message.set_surface, hb]
  | platform m =>
    simp only [Message.requested, Message.declared_counts, List.map_cons, List.map_nil,
      List.sum_cons, List.sum_nil, Nat.add_zero] at h
    obtain ⟨hp, hs⟩ := requested_short _ _ h
    have he := receive_any_file_descriptors_for_short m c hp hs
    refine ⟨?_, [.receive_file_descriptors
      (FdBearing.fds_on_side_channel (FdBearing.clear_fd m)).toNat none], ?_, ?_⟩
    · simp [receive_file_descriptors, hc, Message.GetTypeName, Message.get_buffer,
        Message.get_surface, Message.get_platform, receive_any_none, he, Message.set_surface,
        Message.set_buffer]
    · simp [Effect.is_resolution]
    · simp [receive_file_descriptors, hc, Message.GetTypeName, Message.get_buffer,
        Message.get_surface, Message.get_platform, receive_any_none, he, Message.set_surface,
        Message.set_buffer]
  | connection m =>
    cases hb : m.platform with
    | none => simp [Message.requested, Message.declared_counts, hb] at h
    | some p =>
      simp only [Message.requested, Message.declared_counts, hb, Option.map_some',
        Option.getD_some, List.map_cons, List.map_nil, List.sum_cons, List.sum_nil,
        Nat.add_zero] at h
      obtain ⟨hp, hs⟩ := requested_short _ _ h
      have he := receive_any_file_descriptors_for_short p c hp hs
      refine ⟨?_, [.receive_file_descriptors
        (FdBearing.fds_on_side_channel (FdBearing.clear_fd p)).toNat none], ?_, ?_⟩
      · simp [receive_file_descriptors, hc, Message.GetTypeName, Message.get_buffer,
          Message.get_surface, Message.get_platform, receive_any_none, he,
          Message.set_surface, Message.set_buffer, hb]
      · simp [Effect.is_resolution]
      · simp [receive_file_descriptors, hc, Message.GetTypeName, Message.get_buffer,
          Message.get_surface, Message.get_platform, receive_any_none, he,
          Message.set_surface, Message.set_buffer, hb]
  | socket_fd m =>
    simp only [Message.requested, Message.declared_counts, List.map_cons, List.map_nil,
      List.sum_cons, List.sum_nil, Nat.add_zero] at h
    obtain ⟨hp, hs⟩ := requested_short _ _ h
    have he := receive_any_file_descriptors_for_short m c hp hs
    refine ⟨?_, [.receive_file_descriptors
      (FdBearing.fds_on_side_channel (FdBearing.clear_fd m)).toNat none], ?_, ?_⟩
    · simp [receive_file_descriptors, hc, Message.GetTypeName, Message.get_buffer,
        Message.get_surface, Message.get_platform, Message.get_socket_fd, receive_any_none,
        he, Message.set_surface, Message.set_buffer, Message.set_platform]
    · simp [Effect.is_resolution]
    · simp [receive_file_descriptors, hc, Message.GetTypeName, Message.get_buffer,
        Message.get_surface, Message.get_platform, Message.get_socket_fd, receive_any_none,
        he, Message.set_surface, Message.set_buffer, Message.set_platform]
  | other type_name rest =>
    simp [Message.requested, Message.declared_counts] at h

/-- C9, as the claim states it, fails: on a connected channel whose transport has no
descriptor to deliver, the callback of a surface that declares one throws the
transport's error during resolution, and the caller closure is not run. -/
theorem C9_closure_not_run_when_transport_throws :
    sample_channel.disconnected = false ∧
      PendingCall.callback sample_surface 3 sample_channel =
        (.error (Exn.runtime_error "Failed to read file descriptors from server"),
          { sample_channel with trace := [.receive_file_descriptors 1 none] }) :=
  ⟨rfl, rfl⟩

/-- C9, amended: the callback `CallMethod` stores for a response and a caller closure is
`receive_file_descriptors` bound to them. When the transport has the descriptors the
response asks for, or the channel is disconnected, it returns, and what it appends to
the trace is the effects of resolving descriptors followed by exactly one `Run` of the
closure, as the last effect; on a connected channel the response the closure finds has
every declared count cleared. When the channel is connected and the transport has fewer
descriptors than the response asks for, it throws the transport's error; what it has
appended is effects of resolution, and the closure is not run. -/
theorem C9_completion_follows_fd_resolution (response : Message) (complete : Nat)
    (c : MirProtobufRpcChannel) :
    PendingCall.callback response complete c =
        ((receive_file_descriptors response complete c).1,
          (receive_file_descriptors response complete c).2.2) ∧
      ((c.disconnected = false → response.requested ≤ c.transport.incoming_fds.length) →
        (receive_file_descriptors response complete c).1 = .ok () ∧
        (∃ es : List Effect, (∀ e ∈ es, e.is_resolution = true) ∧
          (receive_file_descriptors response complete c).2.2.trace =
            c.trace ++ es ++
              [.Run complete (receive_file_descriptors response complete c).2.1]) ∧
        (c.disconnected = false →
          ∀ k ∈ (receive_file_descriptors response complete c).2.1.declared_counts,
            k = none)) ∧
      (c.disconnected = false → c.transport.incoming_fds.length < response.requested →
        (receive_file_descriptors response complete c).1 =
          .error (Exn.runtime_error "Failed to read file descriptors from server") ∧
        ∃ es : List Effect, (∀ e ∈ es, e.is_resolution = true) ∧
          (receive_file_descriptors response complete c).2.2.trace = c.trace ++ es) := by
  refine ⟨rfl, ?_, fun hc h => receive_file_descriptors_short response complete c hc h⟩
  intro hfds
  cases hc : c.disconnected with
  | false =>
    rw [receive_file_descriptors_ok response complete c hc (hfds hc)]
    exact ⟨rfl, ⟨_, Message.resolution_effects_all_resolution response _, rfl⟩,
      fun _ => Message.declared_counts_resolved response _⟩
  | true =>
    simp [receive_file_descriptors, hc, Run]

/-- The sample surface on the sample receiver, whose transport has the descriptors: the
closure runs last and finds every count cleared. The same surface on the sample channel,
whose transport has none: the transport's error is thrown. -/
theorem C9_completion_follows_fd_resolution_witness :
    (receive_file_descriptors sample_surface 3 sample_receiver).2.2.trace.getLast? =
        some (.Run 3 (receive_file_descriptors sample_surface 3 sample_receiver).2.1) ∧
      (∀ k ∈ (receive_file_descriptors sample_surface 3 sample_receiver).2.1.declared_counts,
        k = none) ∧
      (receive_file_descriptors sample_surface 3 sample_channel).1 =
        .error (Exn.runtime_error "Failed to read file descriptors from server") :=
  ⟨by decide,
    ((C9_completion_follows_fd_resolution sample_surface 3 sample_receiver).2.1
      (fun _ => by decide)).2.2 (by decide),
    ((C9_completion_follows_fd_resolution sample_surface 3 sample_channel).2.2
      (by decide) (by decide)).1⟩

/-! ## Disconnection -/

theorem notify_disconnected_again (env : Env) (c : MirProtobufRpcChannel)
    (hd : c.disconnected = true) (hp : c.pending_calls = []) :
    notify_disconnected env c = (.ok (), { c with trace := c.trace ++ [.force_completion] }) := by
  cases c
  simp_all [notify_disconnected, pending_calls_force_completion, force_completion_each]

theorem notify_disconnected_times_again (env : Env) (n : Nat) (c : MirProtobufRpcChannel)
    (hd : c.disconnected = true) (hp : c.pending_calls = []) :
    notify_disconnected_times env n c =
      (.ok (), { c with trace := c.trace ++ List.replicate n .force_completion }) := by
  induction n generalizing c with
  | zero => simp [notify_disconnected_times]
  | succ k ih =>
    simp only [notify_disconnected_times, M.bind_run, notify_disconnected_again env c hd hp]
    rw [ih { c with trace := c.trace ++ [.force_completion] } hd hp]
    simp [List.replicate_succ]

/-- With a lifecycle handler that returns, `n ≥ 1` calls of `notify_disconnected` in a
row on a freshly constructed channel all return: one notification, then `n` times
`force_completion`. -/
theorem notify_disconnected_times_fresh (env : Env) (transport : Transport)
    (surface_map : List Int) (header_bytes : List Nat) (n : Nat) (hn : 1 ≤ n)
    (hl : env.lifecycle_handler mir_lifecycle_connection_lost = none) :
    notify_disconnected_times env n
        (MirProtobufRpcChannel.mk_channel transport surface_map header_bytes) =
      (.ok (),
        { MirProtobufRpcChannel.mk_channel transport surface_map header_bytes with
          disconnected := true
          trace := .call_lifecycle_event_handler mir_lifecycle_connection_lost ::
            List.replicate n .force_completion }) := by
  obtain ⟨k, rfl⟩ : ∃ k, n = k + 1 := ⟨n - 1, by omega⟩
  simp only [notify_disconnected_times, M.bind_run]
  have h1 : notify_disconnected env
      (MirProtobufRpcChannel.mk_channel transport surface_map header_bytes) =
      (.ok (), { MirProtobufRpcChannel.mk_channel transport surface_map header_bytes with
        disconnected := true
        trace := [.call_lifecycle_event_handler mir_lifecycle_connection_lost,
          .force_completion] }) := by
    simp [notify_disconnected, pending_calls_force_completion, force_completion_each,
      call_lifecycle_event_handler, sink, hl, MirProtobufRpcChannel.mk_channel]
  rw [h1]
  simp only []
  rw [notify_disconnected_times_again env k _ rfl rfl]
  simp [List.replicate_succ]

/-! ## Quiet steps -/

theorem Quiet.quiet_refl (p : Effect → Bool) (c : MirProtobufRpcChannel) : Quiet p c c :=
  ⟨rfl, [], by simp, by simp⟩

theorem Quiet.quiet_trans {p : Effect → Bool} {a b c : MirProtobufRpcChannel} (h1 : Quiet p a b)
    (h2 : Quiet p b c) : Quiet p a c := by
  obtain ⟨d1, es1, e1, p1⟩ := h1
  obtain ⟨d2, es2, e2, p2⟩ := h2
  refine ⟨d2.trans d1, es1 ++ es2, by rw [e2, e1, List.append_assoc], ?_⟩
  intro e he
  rcases List.mem_append.mp he with h | h
  · exact p1 e h
  · exact p2 e h

theorem CompletionSteps.quiet {p : Effect → Bool} {c c1 : MirProtobufRpcChannel}
    (hp : ∀ e : Effect, e.is_completion = true → p e = true) (h : CompletionSteps c c1) :
    Quiet p c c1 := by
  obtain ⟨es, pes, e⟩ := h
  refine ⟨by rw [e], es, by rw [e], fun x hx => hp x (pes x hx)⟩

theorem M.quiet_pure {α : Type} (p : Effect → Bool) (a : α) : M.Quiet p (pure a : M α) :=
  fun c => Quiet.quiet_refl p c

theorem M.quiet_throw {α : Type} (p : Effect → Bool) (x : Exn) : M.Quiet p (throw x : M α) :=
  fun c => Quiet.quiet_refl p c

theorem M.quiet_read (p : Effect → Bool) : M.Quiet p M.read :=
  fun c => Quiet.quiet_refl p c

theorem M.quiet_emit {p : Effect → Bool} {e : Effect} (h : p e = true) : M.Quiet p (emit e) :=
  fun c => ⟨rfl, [e], rfl, by simpa using h⟩

theorem M.quiet_update (p : Effect → Bool) {f : MirProtobufRpcChannel → MirProtobufRpcChannel}
    (hd : ∀ c, (f c).disconnected = c.disconnected) (ht : ∀ c, (f c).trace = c.trace) :
    M.Quiet p (M.update f) :=
  fun c => ⟨hd c, [], by simp [ht c], by simp⟩

theorem M.quiet_bind {α β : Type} {p : Effect → Bool} {m : M α} {f : α → M β}
    (hm : M.Quiet p m) (hf : ∀ a, M.Quiet p (f a)) : M.Quiet p (m >>= f) := by
  intro c
  have h1 := hm c
  rw [M.bind_run]
  rcases h : m c with ⟨r, c1⟩
  rw [h] at h1
  cases r with
  | error x => exact h1
  | ok a => exact h1.quiet_trans (hf a c1)

theorem M.quiet_tryCatch {α : Type} {p : Effect → Bool} {m : M α} {f : Exn → M α}
    (hm : M.Quiet p m) (hf : ∀ x, M.Quiet p (f x)) : M.Quiet p (tryCatch m f) := by
  intro c
  have h1 := hm c
  rw [M.tryCatch_run]
  rcases h : m c with ⟨r, c1⟩
  rw [h] at h1
  cases r with
  | error x => exact h1.quiet_trans (hf x c1)
  | ok a => exact h1

theorem M.quiet_sink (p : Effect → Bool) (outcome : Option Exn) : M.Quiet p (sink outcome) := by
  cases outcome with
  | none => exact M.quiet_pure p ()
  | some x => exact M.quiet_throw p x

theorem transport_receive_data_quiet {p : Effect → Bool}
    (hp : ∀ size received, p (.receive_data size received) = true) (size : Nat) :
    M.Quiet p (transport_receive_data size) := by
  unfold transport_receive_data
  refine M.quiet_bind (M.quiet_read p) fun c => ?_
  split
  · refine M.quiet_bind (M.quiet_update p (fun _ => rfl) (fun _ => rfl)) fun _ => ?_
    exact M.quiet_bind (M.quiet_emit (hp _ _)) fun _ => M.quiet_pure p _
  · refine M.quiet_bind (M.quiet_update p (fun _ => rfl) (fun _ => rfl)) fun _ => ?_
    exact M.quiet_bind (M.quiet_emit (hp _ _)) fun _ => M.quiet_throw p _

theorem Effect.is_receive_effect_of_completion (allowed : Nat → Bool) (e : Effect)
    (h : e.is_completion = true) : e.is_receive_effect allowed = true := by
  cases e <;> simp_all [Effect.is_completion, Effect.is_receive_effect]

theorem call_lifecycle_event_handler_quiet (env : Env) {allowed : Nat → Bool} {state : Nat}
    (h : allowed state = true) :
    M.Quiet (Effect.is_receive_effect allowed) (call_lifecycle_event_handler env state) := by
  unfold call_lifecycle_event_handler
  exact M.quiet_bind (M.quiet_emit (by simpa [Effect.is_receive_effect] using h))
    fun _ => M.quiet_sink _ _

theorem update_configuration_quiet (env : Env) (allowed : Nat → Bool) (config : List Nat) :
    M.Quiet (Effect.is_receive_effect allowed) (update_configuration env config) := by
  unfold update_configuration
  exact M.quiet_bind (M.quiet_emit rfl) fun _ => M.quiet_sink _ _

theorem with_surface_do_quiet (env : Env) (allowed : Nat → Bool) (id : Int) (e : List Nat) :
    M.Quiet (Effect.is_receive_effect allowed) (with_surface_do env id e) := by
  unfold with_surface_do
  refine M.quiet_bind (M.quiet_emit rfl) fun _ => M.quiet_bind (M.quiet_read _) fun c => ?_
  split
  · exact M.quiet_bind (M.quiet_emit rfl) fun _ => M.quiet_sink _ _
  · exact M.quiet_pure _ _

theorem process_raw_events_quiet (env : Env) (allowed : Nat → Bool) (events : List Event) :
    M.Quiet (Effect.is_receive_effect allowed) (process_raw_events env events) := by
  induction events with
  | nil => exact M.quiet_pure _ _
  | cons event rest ih =>
    unfold process_raw_events
    simp only []
    split
    · split
      · exact M.quiet_bind (M.quiet_emit rfl) fun _ =>
          M.quiet_bind (with_surface_do_quiet env allowed _ _) fun _ => ih
      · exact M.quiet_bind (M.quiet_emit rfl) fun _ => ih
    · exact M.quiet_bind (M.quiet_pure _ _) fun _ => ih

theorem process_event_sequence_quiet (env : Env) {allowed : Nat → Bool}
    (h : env.pushes_only allowed) (event : List Nat) :
    M.Quiet (Effect.is_receive_effect allowed) (process_event_sequence env event) := by
  have hrest : ∀ y : Unit, M.Quiet (Effect.is_receive_effect allowed)
      (match (env.parse_event_sequence event).lifecycle_event with
        | some lifecycle_event => do
          let y ← call_lifecycle_event_handler env lifecycle_event.new_state
          (fun _ => process_raw_events env (env.parse_event_sequence event).event) y
        | none => do
          let y ← pure ()
          (fun _ => process_raw_events env (env.parse_event_sequence event).event) y) := by
    intro _
    split
    · next lifecycle_event heq =>
      exact M.quiet_bind (call_lifecycle_event_handler_quiet env (h event _ heq)) fun _ =>
        process_raw_events_quiet env allowed _
    · exact M.quiet_bind (M.quiet_pure _ _) fun _ => process_raw_events_quiet env allowed _
  unfold process_event_sequence
  simp only []
  split
  · exact M.quiet_bind (update_configuration_quiet env allowed _) hrest
  · exact M.quiet_bind (M.quiet_pure _ _) hrest

theorem process_events_quiet (env : Env) {allowed : Nat → Bool} (h : env.pushes_only allowed)
    (events : List (List Nat)) :
    M.Quiet (Effect.is_receive_effect allowed) (process_events env events) := by
  induction events with
  | nil => exact M.quiet_pure _ _
  | cons event rest ih =>
    unfold process_events
    exact M.quiet_bind (process_event_sequence_quiet env h event) fun _ => ih

theorem PendingCall.callback_quiet (allowed : Nat → Bool) (response : Message) (complete : Nat) :
    M.Quiet (Effect.is_receive_effect allowed) (PendingCall.callback response complete) := by
  intro c
  rcases h : PendingCall.callback response complete c with ⟨r, c1⟩
  exact (PendingCall.callback_steps h).quiet (Effect.is_receive_effect_of_completion allowed)

theorem pending_calls_complete_response_quiet (env : Env) (allowed : Nat → Bool)
    (result : Result) :
    M.Quiet (Effect.is_receive_effect allowed) (pending_calls_complete_response env result) := by
  unfold pending_calls_complete_response
  refine M.quiet_bind (M.quiet_emit rfl) fun _ => M.quiet_bind (M.quiet_read _) fun c => ?_
  split
  · exact M.quiet_emit rfl
  · exact M.quiet_bind (M.quiet_update _ (fun _ => rfl) (fun _ => rfl))
      fun _ => PendingCall.callback_quiet allowed _ _

theorem process_result_quiet (env : Env) {allowed : Nat → Bool} (h : env.pushes_only allowed)
    (result : Result) :
    M.Quiet (Effect.is_receive_effect allowed) (process_result env result) := by
  unfold process_result
  refine M.quiet_tryCatch ?_ fun x => M.quiet_emit rfl
  refine M.quiet_bind (process_events_quiet env h _) fun _ => ?_
  split
  · exact pending_calls_complete_response_quiet env allowed result
  · exact M.quiet_pure _ _

theorem receive_frame_quiet (allowed : Nat → Bool) (result : Result) :
    M.Quiet (Effect.is_receive_effect allowed) (receive_frame result) := by
  unfold receive_frame
  refine M.quiet_tryCatch ?_ fun x => M.quiet_bind (M.quiet_emit rfl) fun _ => M.quiet_throw _ _
  refine M.quiet_bind (transport_receive_data_quiet (fun _ _ => rfl) _) fun _ => ?_
  refine M.quiet_bind (M.quiet_update _ (fun _ => rfl) (fun _ => rfl)) fun _ => ?_
  refine M.quiet_bind (transport_receive_data_quiet (fun _ _ => rfl) _) fun _ => ?_
  exact M.quiet_bind (M.quiet_update _ (fun _ => rfl) (fun _ => rfl)) fun _ => M.quiet_emit rfl

theorem on_message_available_loop_quiet (env : Env) {allowed : Nat → Bool}
    (h : env.pushes_only allowed) (fuel : Nat) :
    M.Quiet (Effect.is_receive_effect allowed) (on_message_available_loop env fuel) := by
  induction fuel with
  | zero => exact M.quiet_pure _ _
  | succ n ih =>
    unfold on_message_available_loop
    refine M.quiet_bind (M.quiet_bind (M.quiet_read _) fun _ => M.quiet_pure _ _) fun b => ?_
    split
    · exact M.quiet_bind (receive_frame_quiet allowed _) fun _ =>
        M.quiet_bind (process_result_quiet env h _) fun _ => ih
    · exact M.quiet_pure _ _

theorem on_message_available_quiet (env : Env) {allowed : Nat → Bool}
    (h : env.pushes_only allowed) :
    M.Quiet (Effect.is_receive_effect allowed) (on_message_available env) := by
  unfold on_message_available
  exact M.quiet_bind (M.quiet_read _) fun _ => on_message_available_loop_quiet env h _

theorem read_message_quiet (env : Env) {allowed : Nat → Bool} (h : env.pushes_only allowed) :
    M.Quiet (Effect.is_receive_effect allowed) (read_message env) := by
  unfold read_message
  refine M.quiet_bind ?_ fun _ => process_result_quiet env h _
  refine M.quiet_tryCatch ?_ fun x => M.quiet_bind (M.quiet_emit rfl) fun _ => M.quiet_throw _ _
  refine M.quiet_bind (M.quiet_bind (M.quiet_read _) fun _ => M.quiet_pure _ _) fun _ => ?_
  refine M.quiet_bind (M.quiet_bind (M.quiet_read _) fun _ => M.quiet_pure _ _) fun _ => ?_
  exact M.quiet_bind (M.quiet_emit rfl) fun _ => M.quiet_pure _ _

theorem receive_file_descriptors_quiet (allowed : Nat → Bool) (response : Message)
    (complete : Nat) (c : MirProtobufRpcChannel) :
    Quiet (Effect.is_receive_effect allowed) c
      (receive_file_descriptors response complete c).2.2 :=
  (receive_file_descriptors_steps response complete c).quiet
    (Effect.is_receive_effect_of_completion allowed)

/-! ## What `notify_disconnected`, `send_message` and `CallMethod` leave -/

/-- On a disconnected channel the callback skips the resolution and runs the closure. -/
theorem receive_file_descriptors_disconnected (response : Message) (complete : Nat)
    (c : MirProtobufRpcChannel) (h : c.disconnected = true) :
    receive_file_descriptors response complete c =
      (.ok (), response, { c with trace := c.trace ++ [.Run complete response] }) := by
  simp [receive_file_descriptors, h, Run]

theorem PendingCall.callback_disconnected (response : Message) (complete : Nat)
    (c : MirProtobufRpcChannel) (h : c.disconnected = true) :
    PendingCall.callback response complete c =
      (.ok (), { c with trace := c.trace ++ [.Run complete response] }) := by
  simp [PendingCall.callback, receive_file_descriptors_disconnected _ _ _ h]

theorem force_completion_each_disconnected (calls : List PendingCall)
    (c : MirProtobufRpcChannel) (h : c.disconnected = true) :
    force_completion_each calls c =
      (.ok (), { c with
        pending_calls := c.pending_calls.filter fun other =>
          calls.all fun call => other.id != call.id
        trace := c.trace ++ calls.map fun call => .Run call.complete call.response }) := by
  induction calls generalizing c with
  | nil => simp [force_completion_each]
  | cons call rest ih =>
    simp only [force_completion_each, M.bind_run, M.update_run]
    rw [PendingCall.callback_disconnected call.response call.complete
      { c with pending_calls := c.pending_calls.filter fun other => other.id != call.id } h]
    simp only []
    rw [ih { c with
      pending_calls := c.pending_calls.filter fun other => other.id != call.id
      trace := c.trace ++ [.Run call.complete call.response] } h]
    simp [List.filter_filter, Bool.and_comm]

theorem filter_all_ne_self (calls : List PendingCall) :
    (calls.filter fun other => calls.all fun call => other.id != call.id) = [] := by
  rw [List.filter_eq_nil_iff]
  intro a ha
  simp only [List.all_eq_true, not_forall]
  exact ⟨a, ha, by simp⟩

/-- The whole of `notify_disconnected` when the lifecycle handler is not called or
returns: the flag is set, every pending call is removed and its closure run, in order. -/
theorem notify_disconnected_returns (env : Env) (c : MirProtobufRpcChannel)
    (h : c.disconnected = true ∨ env.lifecycle_handler mir_lifecycle_connection_lost = none) :
    notify_disconnected env c =
      (.ok (), { c with
        disconnected := true
        pending_calls := []
        trace := c.trace ++
          ((if c.disconnected then []
            else [.call_lifecycle_event_handler mir_lifecycle_connection_lost]) ++
          .force_completion ::
            c.pending_calls.map fun call => .Run call.complete call.response) }) := by
  cases hd : c.disconnected with
  | true =>
    simp only [notify_disconnected, pending_calls_force_completion, M.bind_run, M.read_run,
      M.update_run, emit_run, hd, Bool.not_true, Bool.false_eq_true, if_false, M.pure_run]
    rw [force_completion_each_disconnected _ _ rfl]
    simp [filter_all_ne_self]
  | false =>
    have hl : env.lifecycle_handler mir_lifecycle_connection_lost = none := by
      rcases h with h | h
      · rw [hd] at h; exact absurd h (by decide)
      · exact h
    simp only [notify_disconnected, pending_calls_force_completion, call_lifecycle_event_handler,
      sink, hl, M.bind_run, M.read_run, M.update_run, emit_run, hd, Bool.not_false, if_true,
      M.pure_run]
    rw [force_completion_each_disconnected _ _ rfl]
    simp [filter_all_ne_self]

/-- When the lifecycle handler throws in `notify_disconnected`, `force_completion` is not
reached. -/
theorem notify_disconnected_throws (env : Env) (c : MirProtobufRpcChannel) (x : Exn)
    (hd : c.disconnected = false)
    (hl : env.lifecycle_handler mir_lifecycle_connection_lost = some x) :
    notify_disconnected env c =
      (.error x, { c with
        disconnected := true
        trace := c.trace ++ [.call_lifecycle_event_handler mir_lifecycle_connection_lost] }) := by
  simp [notify_disconnected, call_lifecycle_event_handler, sink, hl, hd]

theorem notify_disconnected_flag (env : Env) (c : MirProtobufRpcChannel) :
    (notify_disconnected env c).2.disconnected = true := by
  cases hd : c.disconnected with
  | true => rw [notify_disconnected_returns env c (Or.inl hd)]
  | false =>
    cases hl : env.lifecycle_handler mir_lifecycle_connection_lost with
    | none => rw [notify_disconnected_returns env c (Or.inr hl)]
    | some x => rw [notify_disconnected_throws env c x hd hl]

/-! ## Repeated calls of `notify_disconnected` -/

theorem run_ops_cons (env : Env) (op : Op) (ops : List Op) (c : MirProtobufRpcChannel) :
    run_ops env (op :: ops) c = run_ops env ops (op.run env c) := rfl

theorem notify_disconnected_calls_again (env : Env) (n : Nat) :
    ∀ c : MirProtobufRpcChannel, c.disconnected = true → c.pending_calls = [] →
      run_ops env (List.replicate n .notify_disconnected) c =
        { c with trace := c.trace ++ List.replicate n .force_completion } := by
  induction n with
  | zero => intro c _ _; simp [run_ops]
  | succ k ih =>
    intro c hd hp
    rw [List.replicate_succ, run_ops_cons]
    show run_ops env (List.replicate k .notify_disconnected) (notify_disconnected env c).2 = _
    rw [notify_disconnected_again env c hd hp]
    dsimp only
    rw [ih { c with trace := c.trace ++ [.force_completion] } hd hp]
    simp [List.replicate_succ]

/-- C10, as the claim states it, fails: with a lifecycle handler that throws, the first
call of `notify_disconnected` on a fresh channel throws before `force_completion`, so of
two calls only the second invokes `force_completion`. -/
theorem C10_throwing_handler_skips_force_completion :
    (notify_disconnected raising_env sample_channel).2.trace =
        [.call_lifecycle_event_handler mir_lifecycle_connection_lost] ∧
      (run_ops raising_env [.notify_disconnected, .notify_disconnected] sample_channel).trace =
        [.call_lifecycle_event_handler mir_lifecycle_connection_lost, .force_completion] := by
  decide

/-- C10, amended: for every `n ≥ 1`, `n` calls of `notify_disconnected` on a freshly
constructed channel, each made by a caller to whom what it throws goes, invoke the
lifecycle handler with the connection-lost state exactly once, in the first call, and
leave the disconnected flag true. When the handler returns, every one of the `n` calls
invokes the registry's `force_completion` and returns. When the handler throws, the first
call throws its error before `force_completion`, and each of the other `n - 1` calls
invokes `force_completion`. -/
theorem C10_notify_disconnected_idempotent (env : Env) (transport : Transport)
    (surface_map : List Int) (header_bytes : List Nat) (n : Nat) (hn : 1 ≤ n) :
    run_ops env (List.replicate n .notify_disconnected)
        (MirProtobufRpcChannel.mk_channel transport surface_map header_bytes) =
      { MirProtobufRpcChannel.mk_channel transport surface_map header_bytes with
        disconnected := true
        trace := .call_lifecycle_event_handler mir_lifecycle_connection_lost ::
          List.replicate
            (if env.lifecycle_handler mir_lifecycle_connection_lost = none then n else n - 1)
            .force_completion } ∧
      (notify_disconnected env
          (MirProtobufRpcChannel.mk_channel transport surface_map header_bytes)).1 =
        (match env.lifecycle_handler mir_lifecycle_connection_lost with
          | none => .ok ()
          | some x => .error x) ∧
      (env.lifecycle_handler mir_lifecycle_connection_lost = none →
        notify_disconnected_times env n
            (MirProtobufRpcChannel.mk_channel transport surface_map header_bytes) =
          (.ok (),
            { MirProtobufRpcChannel.mk_channel transport surface_map header_bytes with
              disconnected := true
              trace := .call_lifecycle_event_handler mir_lifecycle_connection_lost ::
                List.replicate n .force_completion })) := by
  obtain ⟨k, rfl⟩ : ∃ k, n = k + 1 := ⟨n - 1, by omega⟩
  refine ⟨?_, ?_, fun hl => notify_disconnected_times_fresh env transport surface_map
    header_bytes (k + 1) hn hl⟩
  · rw [List.replicate_succ, run_ops_cons]
    show run_ops env (List.replicate k .notify_disconnected)
      (notify_disconnected env
        (MirProtobufRpcChannel.mk_channel transport surface_map header_bytes)).2 = _
    cases hl : env.lifecycle_handler mir_lifecycle_connection_lost with
    | none =>
      rw [notify_disconnected_returns env _ (Or.inr hl)]
      have h := notify_disconnected_calls_again env k
        { MirProtobufRpcChannel.mk_channel transport surface_map header_bytes with
          disconnected := true
          pending_calls := []
          trace := [.call_lifecycle_event_handler mir_lifecycle_connection_lost,
            .force_completion] } rfl rfl
      simp only [MirProtobufRpcChannel.mk_channel, List.nil_append, Bool.false_eq_true,
        if_false, List.map_nil, List.singleton_append] at h ⊢
      rw [h]
      simp [List.replicate_succ]
    | some x =>
      rw [notify_disconnected_throws env _ x rfl hl]
      have h := notify_disconnected_calls_again env k
        { MirProtobufRpcChannel.mk_channel transport surface_map header_bytes with
          disconnected := true
          trace := [.call_lifecycle_event_handler mir_lifecycle_connection_lost] } rfl rfl
      simp only [MirProtobufRpcChannel.mk_channel, List.nil_append] at h ⊢
      rw [h]
      simp
  · cases hl : env.lifecycle_handler mir_lifecycle_connection_lost with
    | none => rw [notify_disconnected_returns env _ (Or.inr hl)]
    | some x => rw [notify_disconnected_throws env _ x rfl hl]

/-- Three calls on the sample channel: with a handler that returns, one notification and
three forced completions; with a handler that throws, one notification and two. -/
theorem C10_notify_disconnected_idempotent_witness :
    (run_ops sample_env (List.replicate 3 .notify_disconnected) sample_channel).trace =
        [.call_lifecycle_event_handler mir_lifecycle_connection_lost, .force_completion,
          .force_completion, .force_completion] ∧
      (run_ops raising_env (List.replicate 3 .notify_disconnected) sample_channel).trace =
        [.call_lifecycle_event_handler mir_lifecycle_connection_lost, .force_completion,
          .force_completion] :=
  ⟨(congrArg (fun c => c.trace)
      (C10_notify_disconnected_idempotent sample_env sample_transport [] [0, 0] 3
        (by decide)).1).trans rfl,
    (congrArg (fun c => c.trace)
      (C10_notify_disconnected_idempotent raising_env sample_transport [] [0, 0] 3
        (by decide)).1).trans rfl⟩

/-- A failing send: `send_message` reports the failure, calls `notify_disconnected` and
throws the transport's error again, unless `notify_disconnected` throws. -/
theorem send_message_error (env : Env) (body invocation : Invocation)
    (c : MirProtobufRpcChannel) (h : c.transport.send_failures.head? = some true) :
    send_message env body invocation c =
      match notify_disconnected env { c with
          transport := { c.transport with send_failures := c.transport.send_failures.tail }
          trace := c.trace ++
            [.send_data (frame_of (env.serialize body)),
              .invocation_failed invocation
                (Exn.runtime_error "Failed to send message to server")] } with
      | (.ok _, c1) => (.error (Exn.runtime_error "Failed to send message to server"), c1)
      | (.error x, c1) => (.error x, c1) := by
  simp only [send_message, M.bind_run, M.tryCatch_run, write_at_header, header_high, header_low,
    transport_send_data_error _ _ h, emit_run, M.throw_run, frame_of]
  have happ : ∀ (a b : Effect), c.trace ++ [a] ++ [b] = c.trace ++ [a, b] := by simp
  simp only [happ, List.cons_append, List.nil_append]
  split <;> rename_i heq <;> split at heq <;> rename_i hn <;> simp only [hn] <;> simp_all

/-- The whole of `CallMethod`: the invocation gets the next id, is reported and
registered, and then `send_message` runs. -/
theorem CallMethod_eq (env : Env) (method : String) (parameters : List Nat)
    (response : Message) (complete : Nat) (c : MirProtobufRpcChannel) :
    CallMethod env method parameters response complete c =
      send_message env
        { id := c.next_message_id, method_name := method, parameters := parameters }
        { id := c.next_message_id, method_name := method, parameters := parameters }
        { c with
          next_message_id := c.next_message_id + 1
          pending_calls :=
            c.pending_calls.filter (fun call => call.id != c.next_message_id) ++
              [{ id := c.next_message_id, response := response, complete := complete }]
          trace := c.trace ++
            [.invocation_requested
                { id := c.next_message_id, method_name := method, parameters := parameters },
              .save_completion_details
                { id := c.next_message_id, method_name := method, parameters := parameters }] } := by
  simp [CallMethod, invocation_for, pending_calls_save_completion_details]

/-! ## The disconnected flag and the connection-lost notification over a sequence -/

theorem connection_lost_count_append (a b : List Effect) :
    connection_lost_count (a ++ b) = connection_lost_count a + connection_lost_count b := by
  simp [connection_lost_count]

theorem connection_lost_count_zero (p : Effect → Bool) (es : List Effect)
    (hp : p (.call_lifecycle_event_handler mir_lifecycle_connection_lost) = false)
    (h : ∀ e ∈ es, p e = true) : connection_lost_count es = 0 := by
  unfold connection_lost_count
  rw [List.count_eq_zero]
  intro hmem
  have := h _ hmem
  rw [hp] at this
  exact absurd this (by decide)

theorem Advance.advance_refl (c : MirProtobufRpcChannel) : Advance c c := by
  refine ⟨id, [], by simp, ?_⟩
  cases c.disconnected <;> simp [connection_lost_count]

theorem Advance.advance_trans {a b c : MirProtobufRpcChannel} (h1 : Advance a b) (h2 : Advance b c) :
    Advance a c := by
  obtain ⟨m1, es1, e1, n1⟩ := h1
  obtain ⟨m2, es2, e2, n2⟩ := h2
  refine ⟨fun h => m2 (m1 h), es1 ++ es2, by rw [e2, e1, List.append_assoc], ?_⟩
  rw [connection_lost_count_append, n1, n2]
  cases ha : a.disconnected <;> cases hb : b.disconnected <;> cases hc : c.disconnected <;>
    simp_all

theorem Quiet.advance {p : Effect → Bool} {c c1 : MirProtobufRpcChannel}
    (hp : p (.call_lifecycle_event_handler mir_lifecycle_connection_lost) = false)
    (h : Quiet p c c1) : Advance c c1 := by
  obtain ⟨hd, es, he, hes⟩ := h
  refine ⟨fun h => by rw [hd, h], es, he, ?_⟩
  rw [connection_lost_count_zero p es hp hes, hd]
  cases c.disconnected <;> simp

theorem force_completion_each_quiet (allowed : Nat → Bool) (calls : List PendingCall)
    (c : MirProtobufRpcChannel) :
    Quiet (Effect.is_receive_effect allowed) c (force_completion_each calls c).2 :=
  (force_completion_each_steps calls c).quiet (Effect.is_receive_effect_of_completion allowed)

theorem notify_disconnected_advance (env : Env) (c : MirProtobufRpcChannel) :
    Advance c (notify_disconnected env c).2 := by
  have hflag := notify_disconnected_flag env c
  refine ⟨fun _ => hflag, ?_⟩
  rw [hflag]
  cases hd : c.disconnected with
  | true =>
    rw [notify_disconnected_returns env c (Or.inl hd)]
    refine ⟨_, rfl, ?_⟩
    simp [hd, connection_lost_count, List.count_eq_zero]
  | false =>
    cases hl : env.lifecycle_handler mir_lifecycle_connection_lost with
    | none =>
      rw [notify_disconnected_returns env c (Or.inr hl)]
      refine ⟨_, rfl, ?_⟩
      simp [hd, connection_lost_count, List.count_cons, List.count_eq_zero]
    | some x =>
      rw [notify_disconnected_throws env c x hd hl]
      exact ⟨_, rfl, by simp [connection_lost_count]⟩

theorem send_message_advance (env : Env) (body invocation : Invocation)
    (c : MirProtobufRpcChannel) : Advance c (send_message env body invocation c).2 := by
  by_cases h : c.transport.send_failures.head? = some true
  · rw [send_message_error env body invocation c h]
    have h1 : Advance c { c with
        transport := { c.transport with send_failures := c.transport.send_failures.tail }
        trace := c.trace ++
          [.send_data (frame_of (env.serialize body)),
            .invocation_failed invocation
              (Exn.runtime_error "Failed to send message to server")] } := by
      refine ⟨id, _, rfl, ?_⟩
      cases c.disconnected <;> simp [connection_lost_count]
    have h2 := notify_disconnected_advance env { c with
        transport := { c.transport with send_failures := c.transport.send_failures.tail }
        trace := c.trace ++
          [.send_data (frame_of (env.serialize body)),
            .invocation_failed invocation
              (Exn.runtime_error "Failed to send message to server")] }
    split <;> rename_i hn <;> rw [hn] at h2 <;> exact h1.advance_trans h2
  · rw [send_message_ok env body invocation c h]
    refine ⟨id, _, rfl, ?_⟩
    cases c.disconnected <;> simp [connection_lost_count]

theorem CallMethod_advance (env : Env) (method : String) (parameters : List Nat)
    (response : Message) (complete : Nat) (c : MirProtobufRpcChannel) :
    Advance c (CallMethod env method parameters response complete c).2 := by
  rw [CallMethod_eq]
  refine Advance.advance_trans ?_ (send_message_advance env _ _ _)
  refine ⟨id, _, rfl, ?_⟩
  cases c.disconnected <;> simp [connection_lost_count]

theorem is_receive_effect_connection_lost :
    Effect.is_receive_effect not_connection_lost
      (.call_lifecycle_event_handler mir_lifecycle_connection_lost) = false := by
  decide

theorem Op.run_advance (env : Env) (h : env.pushes_only not_connection_lost) (op : Op)
    (c : MirProtobufRpcChannel) : Advance c (op.run env c) := by
  cases op with
  | CallMethod method parameters response complete => exact CallMethod_advance env _ _ _ _ c
  | send_message body invocation => exact send_message_advance env _ _ c
  | receive_file_descriptors response complete =>
    exact (receive_file_descriptors_quiet not_connection_lost response complete c).advance
      is_receive_effect_connection_lost
  | on_message_available =>
    exact (on_message_available_quiet env h c).advance is_receive_effect_connection_lost
  | read_message => exact (read_message_quiet env h c).advance is_receive_effect_connection_lost
  | process_event_sequence event =>
    exact (process_event_sequence_quiet env h event c).advance is_receive_effect_connection_lost
  | notify_disconnected => exact notify_disconnected_advance env c
  | transport_changes transport =>
    refine ⟨id, [], by simp [Op.run], ?_⟩
    cases hd : c.disconnected <;> simp [Op.run, connection_lost_count, hd]
  | buffers_filled header_bytes body_bytes =>
    refine ⟨id, [], by simp [Op.run], ?_⟩
    cases hd : c.disconnected <;> simp [Op.run, connection_lost_count, hd]

theorem run_ops_advance (env : Env) (h : env.pushes_only not_connection_lost) (ops : List Op)
    (c : MirProtobufRpcChannel) : Advance c (run_ops env ops c) := by
  induction ops generalizing c with
  | nil => exact Advance.advance_refl c
  | cons op rest ih => exact (Op.run_advance env h op c).advance_trans (ih (op.run env c))

theorem pushes_only_true (env : Env) : env.pushes_only fun _ => true :=
  fun _ _ _ => rfl

theorem Op.run_flag (env : Env) (op : Op) (c : MirProtobufRpcChannel) :
    (op.run env c).disconnected = c.disconnected ∨
      (op.reaches_notify_disconnected = true ∧ (op.run env c).disconnected = true) := by
  cases op with
  | CallMethod method parameters response complete =>
    cases hd : c.disconnected with
    | true => exact Or.inl ((CallMethod_advance env _ _ _ _ c).1 hd)
    | false =>
      cases hr : (Op.run env (.CallMethod method parameters response complete) c).disconnected
      · exact Or.inl rfl
      · exact Or.inr ⟨rfl, rfl⟩
  | send_message body invocation =>
    cases hd : c.disconnected with
    | true => exact Or.inl ((send_message_advance env _ _ c).1 hd)
    | false =>
      cases hr : (Op.run env (.send_message body invocation) c).disconnected
      · exact Or.inl rfl
      · exact Or.inr ⟨rfl, rfl⟩
  | receive_file_descriptors response complete =>
    exact Or.inl (receive_file_descriptors_quiet (fun _ => true) response complete c).1
  | on_message_available =>
    exact Or.inl (on_message_available_quiet env (pushes_only_true env) c).1
  | read_message => exact Or.inl (read_message_quiet env (pushes_only_true env) c).1
  | process_event_sequence event =>
    exact Or.inl (process_event_sequence_quiet env (pushes_only_true env) event c).1
  | notify_disconnected => exact Or.inr ⟨rfl, notify_disconnected_flag env c⟩
  | transport_changes transport => exact Or.inl rfl
  | buffers_filled header_bytes body_bytes => exact Or.inl rfl

/-- When the codec decodes no lifecycle event with the connection-lost state, over every
sequence of channel operations on a freshly constructed channel the lifecycle handler is
called with that state once if the channel has become disconnected, and not at all if it
has not. -/
theorem connection_lost_once_of_pushes_only (env : Env)
    (h : env.pushes_only not_connection_lost) (ops : List Op) (transport : Transport)
    (surface_map : List Int) (header_bytes : List Nat) :
    connection_lost_count
        (run_ops env ops
          (MirProtobufRpcChannel.mk_channel transport surface_map header_bytes)).trace =
      if (run_ops env ops
        (MirProtobufRpcChannel.mk_channel transport surface_map header_bytes)).disconnected
      then 1 else 0 := by
  obtain ⟨_, es, he, hn⟩ :=
    run_ops_advance env h ops
      (MirProtobufRpcChannel.mk_channel transport surface_map header_bytes)
  have h0 : (MirProtobufRpcChannel.mk_channel transport surface_map header_bytes).trace =
      [] := rfl
  have h1 : (MirProtobufRpcChannel.mk_channel transport surface_map header_bytes).disconnected =
      false := rfl
  rw [he, h0, List.nil_append, hn, h1]
  simp

theorem sample_env_pushes_only : sample_env.pushes_only not_connection_lost := by
  intro event lifecycle_event h
  simp [sample_env] at h

theorem Env.without_connection_lost_pushes_only (env : Env) :
    env.without_connection_lost.pushes_only not_connection_lost := by
  intro event lifecycle_event h
  simp only [Env.without_connection_lost] at h
  by_cases hp : env.pushes_connection_lost event = true
  · simp [hp] at h
  · simp only [hp, Bool.false_eq_true, if_false] at h
    simp only [Env.pushes_connection_lost, h] at hp
    simpa [not_connection_lost] using hp

theorem process_raw_events_without (env : Env) (events : List Event) :
    process_raw_events env.without_connection_lost events = process_raw_events env events := by
  induction events with
  | nil => rfl
  | cons event rest ih =>
    simp only [process_raw_events, ih]
    rfl

theorem process_event_sequence_without (env : Env) (event : List Nat)
    (h : env.pushes_connection_lost event = false) :
    process_event_sequence env.without_connection_lost event =
      process_event_sequence env event := by
  have hparse : env.without_connection_lost.parse_event_sequence event =
      env.parse_event_sequence event := by
    simp [Env.without_connection_lost, h]
  simp only [process_event_sequence, hparse, process_raw_events_without]
  rfl

theorem process_events_without (env : Env) (events : List (List Nat))
    (h : events.any env.pushes_connection_lost = false) :
    process_events env.without_connection_lost events = process_events env events := by
  induction events with
  | nil => rfl
  | cons event rest ih =>
    simp only [List.any_cons, Bool.or_eq_false_iff] at h
    simp only [process_events, process_event_sequence_without env event h.1, ih h.2]

theorem process_result_without (env : Env) (result : Result)
    (h : result.events.any env.pushes_connection_lost = false) :
    process_result env.without_connection_lost result = process_result env result := by
  simp only [process_result, process_events_without env _ h]
  rfl

theorem on_message_available_loop_without (env : Env) (fuel : Nat) :
    on_message_available_loop env.without_connection_lost fuel =
      on_message_available_loop env fuel := by
  induction fuel with
  | zero => rfl
  | succ n ih =>
    simp only [on_message_available_loop, ih, process_result_without env Result.default rfl]

theorem Op.run_without (env : Env) (op : Op) (c : MirProtobufRpcChannel)
    (h : op.pushes_connection_lost env c = false) :
    op.run env.without_connection_lost c = op.run env c := by
  cases op with
  | CallMethod method parameters response complete => rfl
  | send_message body invocation => rfl
  | receive_file_descriptors response complete => rfl
  | on_message_available =>
    show (Mir.on_message_available env.without_connection_lost c).2 =
      (Mir.on_message_available env c).2
    simp only [Mir.on_message_available, on_message_available_loop_without]
  | read_message =>
    simp only [Op.pushes_connection_lost] at h
    show (Mir.read_message env.without_connection_lost c).2 = (Mir.read_message env c).2
    simp only [Mir.read_message, read_message_header, read_message_body, M.bind_run,
      M.tryCatch_run, M.read_run, M.pure_run, emit_run]
    rw [show env.without_connection_lost.parse_result = env.parse_result from rfl,
      process_result_without env _ h]
  | process_event_sequence event =>
    simp only [Op.pushes_connection_lost] at h
    show (Mir.process_event_sequence env.without_connection_lost event c).2 =
      (Mir.process_event_sequence env event c).2
    rw [process_event_sequence_without env event h]
  | notify_disconnected => rfl
  | transport_changes transport => rfl
  | buffers_filled header_bytes body_bytes => rfl

theorem run_ops_without (env : Env) (ops : List Op) :
    ∀ c : MirProtobufRpcChannel, connection_lost_not_pushed env ops c = true →
      run_ops env.without_connection_lost ops c = run_ops env ops c := by
  induction ops with
  | nil => intro c _; rfl
  | cons op rest ih =>
    intro c h
    simp only [connection_lost_not_pushed, Bool.and_eq_true, Bool.not_eq_true'] at h
    simp only [run_ops, List.foldl_cons, Op.run_without env op c h.1]
    exact ih _ h.2

/-- C11, as the claim states it, fails: the server pushes a lifecycle event with the
connection-lost state, `read_message` passes it to the lifecycle handler, and a later
`notify_disconnected` calls the handler with connection-lost once more. -/
theorem C11_connection_lost_twice :
    connection_lost_count
      (run_ops pushing_env [.buffers_filled [0, 1] [7], .read_message, .notify_disconnected]
        sample_channel).trace = 2 := by
  decide

/-- C11, amended: over every sequence of channel operations on a freshly constructed
channel in which no envelope that the receive path processes carries a lifecycle event
with the connection-lost state (whatever else the codec can decode), the lifecycle
handler is called with the connection-lost state at most once: exactly once if the
channel has become disconnected, and not at all if it has not. -/
theorem C11_connection_lost_once (env : Env) (ops : List Op) (transport : Transport)
    (surface_map : List Int) (header_bytes : List Nat)
    (h : connection_lost_not_pushed env ops
      (MirProtobufRpcChannel.mk_channel transport surface_map header_bytes) = true) :
    connection_lost_count
        (run_ops env ops
          (MirProtobufRpcChannel.mk_channel transport surface_map header_bytes)).trace =
      if (run_ops env ops
        (MirProtobufRpcChannel.mk_channel transport surface_map header_bytes)).disconnected
      then 1 else 0 := by
  rw [← run_ops_without env ops _ h]
  exact connection_lost_once_of_pushes_only env.without_connection_lost
    (Env.without_connection_lost_pushes_only env) ops transport surface_map header_bytes

/-- An environment whose codec can decode connection-lost, over operations that do not
meet it: an envelope with another lifecycle state is read, an event record with that
state is processed, a send fails and `notify_disconnected` is called: one notification
of connection-lost. -/
theorem C11_connection_lost_once_witness :
    mixed_env.pushes_connection_lost [9] = true ∧
      connection_lost_count
        (run_ops mixed_env
          [.buffers_filled [0, 1] [6], .read_message, .process_event_sequence [10],
            .send_message sample_invocation sample_invocation, .notify_disconnected]
          (MirProtobufRpcChannel.mk_channel
            { sample_transport with send_failures := [true] } [] [0, 0])).trace = 1 :=
  ⟨by decide,
    (C11_connection_lost_once mixed_env
      [.buffers_filled [0, 1] [6], .read_message, .process_event_sequence [10],
        .send_message sample_invocation sample_invocation, .notify_disconnected]
      { sample_transport with send_failures := [true] } [] [0, 0] (by decide)).trans
      (by decide)⟩

/-- C12 (connection state is monotonic): a channel is constructed with `disconnected =
false`; over every sequence of channel operations, from every state, a flag that is true
stays true; and the flag changes only across a sequence that contains an operation
reaching `notify_disconnected` (the function itself, or `send_message` or `CallMethod`,
which call it on a failed send). -/
theorem C12_connection_state_monotonic (env : Env) (ops : List Op)
    (c : MirProtobufRpcChannel) (transport : Transport) (surface_map : List Int)
    (header_bytes : List Nat) :
    (MirProtobufRpcChannel.mk_channel transport surface_map header_bytes).disconnected =
        false ∧
      (c.disconnected = true → (run_ops env ops c).disconnected = true) ∧
      ((run_ops env ops c).disconnected ≠ c.disconnected →
        ∃ op ∈ ops, op.reaches_notify_disconnected = true) := by
  refine ⟨rfl, ?_, ?_⟩
  · induction ops generalizing c with
    | nil => exact id
    | cons op rest ih =>
      intro h
      refine ih (op.run env c) ?_
      rcases Op.run_flag env op c with h1 | h1
      · rw [h1, h]
      · exact h1.2
  · induction ops generalizing c with
    | nil => intro h; exact absurd rfl h
    | cons op rest ih =>
      intro h
      rcases Op.run_flag env op c with h1 | h1
      · have := ih (op.run env c) (by rw [h1]; exact h)
        obtain ⟨o, ho, hr⟩ := this
        exact ⟨o, List.mem_cons_of_mem _ ho, hr⟩
      · exact ⟨op, List.mem_cons_self _ _, h1.1⟩

/-- On the sample channel: a disconnected channel stays disconnected over a
`CallMethod`, a `read_message` and an `on_message_available`. -/
theorem C12_connection_state_monotonic_witness :
    (run_ops sample_env
      [.CallMethod "connect" [] (.other "mir.protobuf.Void" []) 0, .read_message,
        .on_message_available]
      (notify_disconnected sample_env sample_channel).2).disconnected = true :=
  (C12_connection_state_monotonic sample_env
    [.CallMethod "connect" [] (.other "mir.protobuf.Void" []) 0, .read_message,
      .on_message_available]
    (notify_disconnected sample_env sample_channel).2 sample_transport [] [0, 0]).2.1
    (by decide)

/-! ## Disconnection and the pending calls -/

/-- C13 (no silent hang on disconnect): for every channel state, with whatever calls
pending in the registry (the calls registered through `CallMethod` and not yet
completed), when the lifecycle handler is not called or returns, `notify_disconnected`
returns, no call remains pending, and after the notification and the `force_completion`
the trace holds one `Run` of the closure of each call that was pending, in the order of
registration, and no other `Run`. -/
theorem C13_no_silent_hang_on_disconnect (env : Env) (c : MirProtobufRpcChannel)
    (h : c.disconnected = true ∨ env.lifecycle_handler mir_lifecycle_connection_lost = none) :
    (notify_disconnected env c).1 = .ok () ∧
      (notify_disconnected env c).2.pending_calls = [] ∧
      (notify_disconnected env c).2.trace =
        c.trace ++
          ((if c.disconnected then []
            else [.call_lifecycle_event_handler mir_lifecycle_connection_lost]) ++
          .force_completion ::
            c.pending_calls.map fun call => .Run call.complete call.response) := by
  rw [notify_disconnected_returns env c h]
  exact ⟨rfl, rfl, rfl⟩

/-- Two calls registered through `CallMethod`, then `notify_disconnected`: both closures
are run and nothing is pending. -/
theorem C13_no_silent_hang_on_disconnect_witness :
    two_pending_channel.pending_calls.map PendingCall.complete = [7, 8] ∧
      (notify_disconnected sample_env two_pending_channel).2.pending_calls = [] ∧
      (notify_disconnected sample_env two_pending_channel).2.trace =
        two_pending_channel.trace ++
          [.call_lifecycle_event_handler mir_lifecycle_connection_lost, .force_completion,
            .Run 7 sample_void, .Run 8 sample_surface] :=
  ⟨by decide,
    (C13_no_silent_hang_on_disconnect sample_env two_pending_channel (Or.inr rfl)).2.1,
    by decide⟩

theorem Buffer.buffer_resolved_fixed (m : Buffer) (h : m.resolved [] = m) (fds : List Int) :
    requested m.fds_on_side_channel = 0 ∧ m.resolved fds = m ∧
      m.resolution_effects fds = [] := by
  obtain ⟨fd, declared, rest⟩ := m
  simp only [Buffer.resolved, Buffer.mk.injEq] at h
  obtain ⟨h1, h2, -⟩ := h
  subst h2
  simp [Buffer.resolved, Buffer.resolution_effects, Mir.resolution_effects, Mir.requested,
    ← h1]

theorem Platform.platform_resolved_fixed (m : Platform) (h : m.resolved [] = m) (fds : List Int) :
    requested m.fds_on_side_channel = 0 ∧ m.resolved fds = m ∧
      m.resolution_effects fds = [] := by
  obtain ⟨fd, declared, rest⟩ := m
  simp only [Platform.resolved, Platform.mk.injEq] at h
  obtain ⟨h1, h2, -⟩ := h
  subst h2
  simp [Platform.resolved, Platform.resolution_effects, Mir.resolution_effects, Mir.requested,
    ← h1]

/-- A response that resolution without descriptors leaves as it is declares no
descriptors and holds none: resolution leaves it as it is whatever the transport has. -/
theorem Message.resolved_fixed (response : Message) (h : response.resolved [] = response)
    (fds : List Int) :
    response.requested = 0 ∧ response.resolved fds = response ∧
      response.resolution_effects fds = [] := by
  cases response with
  | buffer m =>
    simp only [Message.resolved, Message.buffer.injEq] at h
    obtain ⟨h0, h1, h2⟩ := Buffer.buffer_resolved_fixed m h fds
    simp [Message.requested, Message.declared_counts, Message.resolved,
      Message.resolution_effects, h0, h1, h2]
  | surface m =>
    obtain ⟨fd, declared, buffer, rest⟩ := m
    simp only [Message.resolved, Surface.resolved, Message.surface.injEq,
      Surface.mk.injEq] at h
    obtain ⟨h1, h2, h3, -⟩ := h
    subst h2
    cases buffer with
    | none =>
      simp [Message.requested, Message.declared_counts, Message.resolved, Surface.resolved,
        Message.resolution_effects, Mir.resolution_effects, Mir.requested, ← h1]
    | some b =>
      simp only [Option.map_some', Option.some.injEq, Mir.requested, Option.getD_none,
        Int.toNat_zero, List.drop_zero] at h3
      obtain ⟨h4, h5, h6⟩ := Buffer.buffer_resolved_fixed b h3 fds
      simp [Message.requested, Message.declared_counts, Message.resolved, Surface.resolved,
        Message.resolution_effects, Mir.resolution_effects, Mir.requested, ← h1, h5, h6]
      simpa [Mir.requested] using h4
  | screencast m =>
    obtain ⟨buffer, rest⟩ := m
    cases buffer with
    | none =>
      simp [Message.requested, Message.declared_counts, Message.resolved,
        Message.resolution_effects]
    | some b =>
      simp only [Message.resolved, Option.map_some', Message.screencast.injEq,
        Screencast.mk.injEq, Option.some.injEq, and_true] at h
      obtain ⟨h4, h5, h6⟩ := Buffer.buffer_resolved_fixed b h fds
      simp [Message.requested, Message.declared_counts, Message.resolved,
        Message.resolution_effects, h5, h6]
      exact h4
  | platform m =>
    simp only [Message.resolved, Message.platform.injEq] at h
    obtain ⟨h0, h1, h2⟩ := Platform.platform_resolved_fixed m h fds
    simp [Message.requested, Message.declared_counts, Message.resolved,
      Message.resolution_effects, h0, h1, h2]
  | connection m =>
    obtain ⟨platform, rest⟩ := m
    cases platform with
    | none =>
      simp [Message.requested, Message.declared_counts, Message.resolved,
        Message.resolution_effects]
    | some b =>
      simp only [Message.resolved, Option.map_some', Message.connection.injEq,
        Connection.mk.injEq, Option.some.injEq, and_true] at h
      obtain ⟨h4, h5, h6⟩ := Platform.platform_resolved_fixed b h fds
      simp [Message.requested, Message.declared_counts, Message.resolved,
        Message.resolution_effects, h5, h6]
      exact h4
  | socket_fd m =>
    obtain ⟨fd, declared, rest⟩ := m
    simp only [Message.resolved, SocketFD.resolved, Message.socket_fd.injEq,
      SocketFD.mk.injEq] at h
    obtain ⟨h1, h2, -⟩ := h
    subst h2
    simp [Message.requested, Message.declared_counts, Message.resolved, SocketFD.resolved,
      Message.resolution_effects, Mir.resolution_effects, Mir.requested, ← h1]
  | other type_name rest =>
    simp [Message.requested, Message.declared_counts, Message.resolved,
      Message.resolution_effects]

/-- C14, as the claim states it, fails: the completion run because of disconnection gives
the caller what a normal completion of the same call gives: the same result, the same
response, the same `Run` of the closure. -/
theorem C14_disconnection_not_distinguishable :
    disconnected_channel.disconnected = true ∧ sample_channel.disconnected = false ∧
      (receive_file_descriptors sample_void 7 disconnected_channel).1 =
        (receive_file_descriptors sample_void 7 sample_channel).1 ∧
      (receive_file_descriptors sample_void 7 disconnected_channel).2.1 =
        (receive_file_descriptors sample_void 7 sample_channel).2.1 ∧
      (receive_file_descriptors sample_void 7 disconnected_channel).2.2.trace.drop
          disconnected_channel.trace.length =
        (receive_file_descriptors sample_void 7 sample_channel).2.2.trace.drop
          sample_channel.trace.length :=
  ⟨by decide, by decide, rfl, by decide, by decide⟩

/-- C14, amended: for every call whose completion is run because of disconnection, the
callback `receive_file_descriptors` skips the resolution, runs the caller closure on the
response as it was and returns, for every response; `Run` takes no argument and no error
indication is passed: a normal completion, on a connected channel, of a response that
declares and holds no descriptors returns the same, leaves the same response and adds
the same effect. -/
theorem C14_disconnection_completes_without_error (response : Message) (complete : Nat)
    (disconnected connected : MirProtobufRpcChannel)
    (hd : disconnected.disconnected = true) (hc : connected.disconnected = false) :
    receive_file_descriptors response complete disconnected =
        (.ok (), response,
          { disconnected with trace := disconnected.trace ++ [.Run complete response] }) ∧
      (response.resolved [] = response →
        receive_file_descriptors response complete connected =
          (.ok (), response,
            { connected with trace := connected.trace ++ [.Run complete response] })) := by
  refine ⟨receive_file_descriptors_disconnected response complete disconnected hd, ?_⟩
  intro hr
  obtain ⟨h0, h1, h2⟩ := Message.resolved_fixed response hr connected.transport.incoming_fds
  rw [receive_file_descriptors_ok response complete connected hc (by rw [h0]; exact Nat.zero_le _),
    h0, h1, h2]
  simp

/-- The sample response without descriptors, on the disconnected and on the connected
sample channel. -/
theorem C14_disconnection_completes_without_error_witness :
    (receive_file_descriptors sample_void 7 disconnected_channel).2.2.trace =
        disconnected_channel.trace ++ [.Run 7 sample_void] ∧
      (receive_file_descriptors sample_void 7 sample_channel).2.2.trace =
        sample_channel.trace ++ [.Run 7 sample_void] :=
  ⟨congrArg (fun r => r.2.2.trace)
      (C14_disconnection_completes_without_error sample_void 7 disconnected_channel
        sample_channel (by decide) (by decide)).1,
    congrArg (fun r => r.2.2.trace)
      ((C14_disconnection_completes_without_error sample_void 7 disconnected_channel
        sample_channel (by decide) (by decide)).2 (by decide))⟩

/-! ## Calls and sends -/

/-- What `send_message` leaves in the trace starts with the one call of `send_data`. -/
theorem send_message_trace (env : Env) (body invocation : Invocation)
    (c : MirProtobufRpcChannel) :
    ∃ rest : List Effect,
      (send_message env body invocation c).2.trace =
        c.trace ++ .send_data (frame_of (env.serialize body)) :: rest ∧
      sent_buffers rest = [] := by
  by_cases h : c.transport.send_failures.head? = some true
  · rw [send_message_error env body invocation c h]
    have h2 := notify_disconnected_advance env { c with
        transport := { c.transport with send_failures := c.transport.send_failures.tail }
        trace := c.trace ++
          [.send_data (frame_of (env.serialize body)),
            .invocation_failed invocation
              (Exn.runtime_error "Failed to send message to server")] }
    have h3 := notify_disconnected_sent env { c with
        transport := { c.transport with send_failures := c.transport.send_failures.tail }
        trace := c.trace ++
          [.send_data (frame_of (env.serialize body)),
            .invocation_failed invocation
              (Exn.runtime_error "Failed to send message to server")] }
    obtain ⟨-, es, he, -⟩ := h2
    rw [he] at h3
    simp only [sent_buffers_append] at h3
    have h3 := List.append_right_eq_self.mp h3
    have key : ∀ r : Except Exn Unit × MirProtobufRpcChannel,
        r.2.trace = c.trace ++ [.send_data (frame_of (env.serialize body)),
            .invocation_failed invocation
              (Exn.runtime_error "Failed to send message to server")] ++ es →
        r.2.trace = c.trace ++ .send_data (frame_of (env.serialize body)) ::
          (.invocation_failed invocation
              (Exn.runtime_error "Failed to send message to server") :: es) := by
      intro r hr; rw [hr]; simp
    refine ⟨_, ?_, show sent_buffers (.invocation_failed invocation
      (Exn.runtime_error "Failed to send message to server") :: es) = [] by simp [h3]⟩
    split <;> rename_i hn <;> rw [hn] at he <;> exact key _ he
  · rw [send_message_ok env body invocation c h]
    exact ⟨[.invocation_succeeded invocation], by simp [frame_of], by simp⟩

/-- C15, as the claim states it, fails: on the disconnected sample channel `CallMethod`
hands the frame of the call to the transport's `send_data`. -/
theorem C15_call_issued_when_disconnected :
    disconnected_channel.disconnected = true ∧
      sent_buffers disconnected_channel.trace = [] ∧
      sent_buffers
        (CallMethod sample_env "connect" [1] sample_void 7 disconnected_channel).2.trace =
        [[0, 1, 1]] := by
  decide

/-- C15, amended: `CallMethod` does not read the disconnected flag: in every channel state
in which the flag is true it still builds the invocation with the next call id,
registers the call (`save_completion_details`) and hands exactly one frame, that of the
invocation, to the transport's `send_data`. -/
theorem C15_call_method_sends_when_disconnected (env : Env) (method : String)
    (parameters : List Nat) (response : Message) (complete : Nat)
    (c : MirProtobufRpcChannel) (_h : c.disconnected = true) :
    sent_buffers (CallMethod env method parameters response complete c).2.trace =
        sent_buffers c.trace ++
          [frame_of (env.serialize
            { id := c.next_message_id, method_name := method, parameters := parameters })] ∧
      ∃ rest : List Effect,
        (CallMethod env method parameters response complete c).2.trace =
          c.trace ++
            [.invocation_requested
                { id := c.next_message_id, method_name := method, parameters := parameters },
              .save_completion_details
                { id := c.next_message_id, method_name := method, parameters := parameters },
              .send_data (frame_of (env.serialize
                { id := c.next_message_id, method_name := method,
                  parameters := parameters }))] ++ rest ∧
        sent_buffers rest = [] := by
  refine ⟨by rw [CallMethod_eq, send_message_sent]; simp [frame_of], ?_⟩
  obtain ⟨rest, h1, h2⟩ := send_message_trace env
    { id := c.next_message_id, method_name := method, parameters := parameters }
    { id := c.next_message_id, method_name := method, parameters := parameters }
    { c with
      next_message_id := c.next_message_id + 1
      pending_calls :=
        c.pending_calls.filter (fun call => call.id != c.next_message_id) ++
          [{ id := c.next_message_id, response := response, complete := complete }]
      trace := c.trace ++
        [.invocation_requested
            { id := c.next_message_id, method_name := method, parameters := parameters },
          .save_completion_details
            { id := c.next_message_id, method_name := method, parameters := parameters }] }
  refine ⟨rest, ?_, h2⟩
  rw [CallMethod_eq, h1]
  simp

/-- The disconnected sample channel: the frame of the call goes out. -/
theorem C15_call_method_sends_when_disconnected_witness :
    sent_buffers
        (CallMethod sample_env "connect" [1] sample_void 7 disconnected_channel).2.trace =
      sent_buffers disconnected_channel.trace ++ [[0, 1, 1]] :=
  (C15_call_method_sends_when_disconnected sample_env "connect" [1] sample_void 7
    disconnected_channel (by decide)).1

/-- C16 (register before transmit): every call of `CallMethod` is the registration of the
call followed by `send_message`: `send_message` starts in a state in which the call is in
the registry and nothing of it has been sent, and in the trace
`save_completion_details` comes before the one call of `send_data`, also when the send
fails. -/
theorem C16_register_before_transmit (env : Env) (method : String) (parameters : List Nat)
    (response : Message) (complete : Nat) (c : MirProtobufRpcChannel) :
    ∃ (registered : MirProtobufRpcChannel) (rest : List Effect),
      CallMethod env method parameters response complete c =
        send_message env
          { id := c.next_message_id, method_name := method, parameters := parameters }
          { id := c.next_message_id, method_name := method, parameters := parameters }
          registered ∧
      { id := c.next_message_id, response := response, complete := complete } ∈
        registered.pending_calls ∧
      sent_buffers registered.trace = sent_buffers c.trace ∧
      (CallMethod env method parameters response complete c).2.trace =
        c.trace ++
          [.invocation_requested
              { id := c.next_message_id, method_name := method, parameters := parameters },
            .save_completion_details
              { id := c.next_message_id, method_name := method, parameters := parameters },
            .send_data (frame_of (env.serialize
              { id := c.next_message_id, method_name := method,
                parameters := parameters }))] ++ rest ∧
      sent_buffers rest = [] := by
  obtain ⟨rest, h1, h2⟩ := send_message_trace env
    { id := c.next_message_id, method_name := method, parameters := parameters }
    { id := c.next_message_id, method_name := method, parameters := parameters }
    { c with
      next_message_id := c.next_message_id + 1
      pending_calls :=
        c.pending_calls.filter (fun call => call.id != c.next_message_id) ++
          [{ id := c.next_message_id, response := response, complete := complete }]
      trace := c.trace ++
        [.invocation_requested
            { id := c.next_message_id, method_name := method, parameters := parameters },
          .save_completion_details
            { id := c.next_message_id, method_name := method, parameters := parameters }] }
  refine ⟨_, rest, CallMethod_eq env method parameters response complete c, ?_, ?_, ?_, h2⟩
  · simp
  · simp
  · rw [CallMethod_eq, h1]
    simp

/-- C17, as the claim states it, fails: on a connected channel with two pending calls
and a lifecycle handler that throws, a failing send makes `send_message` throw the
handler's error, not the transport's; `force_completion` is not run and both calls stay
pending. -/
theorem C17_throwing_handler_replaces_error :
    (send_message raising_env sample_invocation sample_invocation
        { two_pending_channel with
          transport := { sample_transport with send_failures := [true] } }).1 =
        .error (Exn.exception "lifecycle handler failed") ∧
      (send_message raising_env sample_invocation sample_invocation
        { two_pending_channel with
          transport := { sample_transport with send_failures := [true] } }).2.trace =
        two_pending_channel.trace ++
          [.send_data [0, 3, 10, 20, 30],
            .invocation_failed sample_invocation
              (Exn.runtime_error "Failed to send message to server"),
            .call_lifecycle_event_handler mir_lifecycle_connection_lost] ∧
      (send_message raising_env sample_invocation sample_invocation
        { two_pending_channel with
          transport := { sample_transport with send_failures := [true] } }).2.pending_calls.map
          PendingCall.id = [0, 1] :=
  ⟨rfl, by decide, by decide⟩

/-- C17, amended: for every invocation for which the transport's `send_data` throws,
`send_message` reports `invocation_failed`, calls `notify_disconnected` once and throws;
the channel is disconnected and `invocation_succeeded` is not reported. When the channel
was already disconnected or the lifecycle handler returns, what it leaves is: the buffer
handed to `send_data`, the report, then the effects of `notify_disconnected` (the
connection-lost notification if the channel was connected, one `force_completion`, the
`Run` of every pending closure); nothing is pending and the error thrown is the
transport's. When the channel was connected and the lifecycle handler throws, what it
leaves ends with the call of the handler: `force_completion` is not run, the pending
calls stay, and the error thrown is the handler's. -/
theorem C17_send_failure (env : Env) (body invocation : Invocation)
    (c : MirProtobufRpcChannel) (hfail : c.transport.send_failures.head? = some true) :
    transport_send_data (frame_of (env.serialize body)) c =
        (.error (Exn.runtime_error "Failed to send message to server"),
          { c with
            transport := { c.transport with send_failures := c.transport.send_failures.tail }
            trace := c.trace ++ [.send_data (frame_of (env.serialize body))] }) ∧
      (c.disconnected = true ∨ env.lifecycle_handler mir_lifecycle_connection_lost = none →
        send_message env body invocation c =
          (.error (Exn.runtime_error "Failed to send message to server"),
            { c with
              disconnected := true
              pending_calls := []
              transport := { c.transport with
                send_failures := c.transport.send_failures.tail }
              trace := c.trace ++
                ([.send_data (frame_of (env.serialize body)),
                  .invocation_failed invocation
                    (Exn.runtime_error "Failed to send message to server")] ++
                ((if c.disconnected then []
                  else [.call_lifecycle_event_handler mir_lifecycle_connection_lost]) ++
                .force_completion ::
                  c.pending_calls.map fun call => .Run call.complete call.response)) })) ∧
      (∀ x : Exn, c.disconnected = false →
        env.lifecycle_handler mir_lifecycle_connection_lost = some x →
        send_message env body invocation c =
          (.error x,
            { c with
              disconnected := true
              transport := { c.transport with
                send_failures := c.transport.send_failures.tail }
              trace := c.trace ++
                [.send_data (frame_of (env.serialize body)),
                  .invocation_failed invocation
                    (Exn.runtime_error "Failed to send message to server"),
                  .call_lifecycle_event_handler mir_lifecycle_connection_lost] })) := by
  refine ⟨transport_send_data_error _ c hfail, ?_, ?_⟩
  · intro hl
    rw [send_message_error env body invocation c hfail,
      notify_disconnected_returns env { c with
        transport := { c.transport with send_failures := c.transport.send_failures.tail }
        trace := c.trace ++
          [.send_data (frame_of (env.serialize body)),
            .invocation_failed invocation
              (Exn.runtime_error "Failed to send message to server")] } hl]
    simp
  · intro x hd hl
    rw [send_message_error env body invocation c hfail,
      notify_disconnected_throws env { c with
        transport := { c.transport with send_failures := c.transport.send_failures.tail }
        trace := c.trace ++
          [.send_data (frame_of (env.serialize body)),
            .invocation_failed invocation
              (Exn.runtime_error "Failed to send message to server")] } x hd hl]
    simp

/-- The channel with two pending calls, on a transport whose next send fails: with a
handler that returns both closures are run, with a handler that throws neither is. -/
theorem C17_send_failure_witness :
    (send_message sample_env sample_invocation sample_invocation
        { two_pending_channel with
          transport := { sample_transport with send_failures := [true] } }).2.trace =
        two_pending_channel.trace ++
          [.send_data [0, 3, 10, 20, 30],
            .invocation_failed sample_invocation
              (Exn.runtime_error "Failed to send message to server"),
            .call_lifecycle_event_handler mir_lifecycle_connection_lost, .force_completion,
            .Run 7 sample_void, .Run 8 sample_surface] ∧
      (send_message raising_env sample_invocation sample_invocation
        { two_pending_channel with
          transport := { sample_transport with send_failures := [true] } }).2.trace =
        two_pending_channel.trace ++
          [.send_data [0, 3, 10, 20, 30],
            .invocation_failed sample_invocation
              (Exn.runtime_error "Failed to send message to server"),
            .call_lifecycle_event_handler mir_lifecycle_connection_lost] :=
  ⟨congrArg (fun r => r.2.trace)
      ((C17_send_failure sample_env sample_invocation sample_invocation
        { two_pending_channel with
          transport := { sample_transport with send_failures := [true] } }
        (by decide)).2.1 (Or.inr rfl)),
    congrArg (fun r => r.2.trace)
      ((C17_send_failure raising_env sample_invocation sample_invocation
        { two_pending_channel with
          transport := { sample_transport with send_failures := [true] } }
        (by decide)).2.2 (Exn.exception "lifecycle handler failed") (by decide) rfl)⟩

/-! ## Failures on the receive path -/

theorem receive_frame_receipt (result : Result) :
    M.Quiet Effect.is_receipt (receive_frame result) := by
  unfold receive_frame
  refine M.quiet_tryCatch ?_ fun x => M.quiet_bind (M.quiet_emit rfl) fun _ => M.quiet_throw _ _
  refine M.quiet_bind (transport_receive_data_quiet (fun _ _ => rfl) _) fun _ => ?_
  refine M.quiet_bind (M.quiet_update _ (fun _ => rfl) (fun _ => rfl)) fun _ => ?_
  refine M.quiet_bind (transport_receive_data_quiet (fun _ _ => rfl) _) fun _ => ?_
  exact M.quiet_bind (M.quiet_update _ (fun _ => rfl) (fun _ => rfl)) fun _ => M.quiet_emit rfl

theorem process_result_default_receipt (env : Env) :
    M.Quiet Effect.is_receipt (process_result env Result.default) := by
  intro c
  rw [process_result_default]
  exact Quiet.quiet_refl _ c

theorem on_message_available_loop_receipt (env : Env) (fuel : Nat) :
    M.Quiet Effect.is_receipt (on_message_available_loop env fuel) := by
  induction fuel with
  | zero => exact M.quiet_pure _ _
  | succ n ih =>
    unfold on_message_available_loop
    refine M.quiet_bind (M.quiet_bind (M.quiet_read _) fun _ => M.quiet_pure _ _) fun b => ?_
    split
    · exact M.quiet_bind (receive_frame_receipt _) fun _ =>
        M.quiet_bind (process_result_default_receipt env) fun _ => ih
    · exact M.quiet_pure _ _

/-- An error that leaves `receive_frame` was reported last. -/
theorem receive_frame_error (result : Result) (c c1 : MirProtobufRpcChannel) (x : Exn)
    (h : receive_frame result c = (.error x, c1)) :
    c1.trace.getLast? = some (.result_receipt_failed x) := by
  simp only [receive_frame, M.tryCatch_run, M.bind_run, emit_run, M.throw_run] at h
  split at h
  · simp at h
  · simp only [Prod.mk.injEq, Except.error.injEq] at h
    obtain ⟨hx, hc⟩ := h
    rw [← hc, ← hx]
    simp

theorem on_message_available_loop_error (env : Env) (fuel : Nat) (c : MirProtobufRpcChannel)
    (x : Exn) (h : (on_message_available_loop env fuel c).1 = .error x) :
    (on_message_available_loop env fuel c).2.trace.getLast? =
      some (.result_receipt_failed x) := by
  induction fuel generalizing c with
  | zero => simp [on_message_available_loop] at h
  | succ n ih =>
    simp only [on_message_available_loop, M.bind_run, transport_data_available, M.read_run,
      M.pure_run] at h ⊢
    split at h
    · rename_i hav
      simp only [hav, if_true, M.bind_run] at h ⊢
      rcases hf : receive_frame Result.default c with ⟨r, c1⟩
      rw [hf] at h
      cases r with
      | error y =>
        simp only [Except.error.injEq] at h
        subst h
        exact receive_frame_error _ _ _ _ hf
      | ok u =>
        simp only [process_result_default] at h ⊢
        exact ih c1 h
    · rename_i hav
      simp [hav] at h

theorem process_result_returns (env : Env) (result : Result) (c : MirProtobufRpcChannel) :
    (process_result env result c).1 = .ok () := by
  simp only [process_result, M.tryCatch_run, emit_run]
  split <;> rfl

theorem read_message_returns (env : Env) (c : MirProtobufRpcChannel) :
    (read_message env c).1 = .ok () := by
  simp only [read_message, read_message_header, read_message_body, M.bind_run, M.tryCatch_run,
    M.read_run, M.pure_run, emit_run]
  exact process_result_returns env _ _

/-- A stream that ends inside the next frame: `receive_frame` throws. -/
theorem receive_frame_truncated (result : Result) (c : MirProtobufRpcChannel)
    (h : c.transport.incoming.length < 2 + be16toh (c.transport.incoming.take 2)) :
    (receive_frame result c).1 =
      .error (Exn.runtime_error "Failed to read message from server") := by
  by_cases h2 : 2 ≤ c.transport.incoming.length
  · have h3 : ¬ be16toh (c.transport.incoming.take 2) ≤
        (c.transport.incoming.drop 2).length := by
      simp only [List.length_drop]; omega
    simp only [receive_frame, M.tryCatch_run, M.bind_run, transport_receive_data_ok _ _ h2,
      M.update_run, emit_run, M.throw_run]
    simp only [transport_receive_data, M.bind_run, M.read_run, if_neg h3, M.update_run,
      emit_run, M.throw_run]
  · simp [receive_frame, transport_receive_data, h2]

/-- C18, as the claim states it, fails: on a stream that ends inside a frame
`on_message_available` reports the failure and throws, and the channel is still
connected: the lifecycle handler was not called and `force_completion` was not run. -/
theorem C18_receive_failure_leaves_connected :
    (on_message_available sample_env truncated_channel).2.disconnected = false ∧
      (on_message_available sample_env truncated_channel).2.trace =
        [.receive_data 2 (some [0, 5]), .receive_data 5 none,
          .result_receipt_failed (Exn.runtime_error "Failed to read message from server")] := by
  decide

/-- C18, amended: every error that leaves `on_message_available` is the failure of reading
the header or the body of a frame, reported via `result_receipt_failed` as the last
effect and then thrown to the caller; `on_message_available` does not call
`notify_disconnected`: it leaves the disconnected flag as it was and adds only the
effects of receiving to the trace. A stream that ends inside its first frame makes it
throw. `read_message` reads from buffers that are already filled: its reading does not
fail, it returns, and it leaves the flag as it was. -/
theorem C18_receive_failure_is_reported_and_thrown (env : Env) (c : MirProtobufRpcChannel)
    (x : Exn) (h : (on_message_available env c).1 = .error x) :
    (on_message_available env c).2.trace.getLast? = some (.result_receipt_failed x) ∧
      (on_message_available env c).2.disconnected = c.disconnected ∧
      (∃ es : List Effect, (on_message_available env c).2.trace = c.trace ++ es ∧
        ∀ e ∈ es, e.is_receipt = true) ∧
      (∀ c0 : MirProtobufRpcChannel, c0.transport.incoming ≠ [] →
        c0.transport.incoming.length < 2 + be16toh (c0.transport.incoming.take 2) →
        (on_message_available env c0).1 =
          .error (Exn.runtime_error "Failed to read message from server")) ∧
      (read_message env c).1 = .ok () ∧
      (read_message env c).2.disconnected = c.disconnected := by
  have hq : Quiet Effect.is_receipt c (on_message_available env c).2 := by
    unfold on_message_available
    exact M.quiet_bind (M.quiet_read _) (fun _ => on_message_available_loop_receipt env _) c
  refine ⟨?_, hq.1, hq.2, ?_, read_message_returns env c,
    (read_message_quiet env (pushes_only_true env) c).1⟩
  · simp only [on_message_available, M.bind_run, M.read_run] at h ⊢
    exact on_message_available_loop_error env _ c x h
  · intro c0 hne htrunc
    have hav : c0.transport.incoming.isEmpty = false := by
      cases hi : c0.transport.incoming with
      | nil => exact absurd hi hne
      | cons a l => rfl
    have hf := receive_frame_truncated Result.default c0 htrunc
    simp only [on_message_available, M.bind_run, M.read_run, on_message_available_loop,
      transport_data_available, M.pure_run, hav, Bool.not_false, if_true]
    rcases hr : receive_frame Result.default c0 with ⟨r, c1⟩
    rw [hr] at hf
    simp only at hf
    subst hf
    rfl

/-- The sample stream that ends inside its frame. -/
theorem C18_receive_failure_is_reported_and_thrown_witness :
    (on_message_available sample_env truncated_channel).2.trace.getLast? =
        some (.result_receipt_failed
          (Exn.runtime_error "Failed to read message from server")) ∧
      (on_message_available sample_env truncated_channel).2.disconnected =
        truncated_channel.disconnected :=
  ⟨(C18_receive_failure_is_reported_and_thrown sample_env truncated_channel
      (Exn.runtime_error "Failed to read message from server") rfl).1,
    (C18_receive_failure_is_reported_and_thrown sample_env truncated_channel
      (Exn.runtime_error "Failed to read message from server") rfl).2.1⟩

/-! ## Errors while an envelope is processed -/

theorem process_events_raise (env : Env) (event : List Nat) (rest : List (List Nat))
    (c c2 : MirProtobufRpcChannel) (x : Exn)
    (h : process_event_sequence env event c = (.error x, c2)) :
    process_events env (event :: rest) c = (.error x, c2) := by
  simp only [process_events, M.bind_run, h]

theorem process_events_append (env : Env) (before rest : List (List Nat)) :
    ∀ (c c1 : MirProtobufRpcChannel), process_events env before c = (.ok (), c1) →
      process_events env (before ++ rest) c = process_events env rest c1 := by
  induction before with
  | nil =>
    intro c c1 h
    simp only [process_events, M.pure_run, Prod.mk.injEq, true_and] at h
    subst h
    rfl
  | cons event before ih =>
    intro c c1 h
    simp only [List.cons_append, process_events, M.bind_run] at h ⊢
    rcases hs : process_event_sequence env event c with ⟨r, c0⟩
    rw [hs] at h
    cases r with
    | error x => simp at h
    | ok u => exact ih c0 c1 h

/-- C19 fails in the code: `read_message` on an envelope with call id 0 and one lifecycle
event whose handler throws calls the handler, reports `result_processing_failed` and
returns; `complete_response` is not called and call 0 stays pending. With a handler that
returns, the same envelope completes the call and runs the caller closure. -/
theorem C19_handler_error_skips_completion :
    (read_message raising_env envelope_channel).2.trace =
        [.result_receipt_succeeded { id := some 0, response := none, events := [[9]] },
          .call_lifecycle_event_handler 1,
          .result_processing_failed { id := some 0, response := none, events := [[9]] }
            (Exn.exception "lifecycle handler failed")] ∧
      (read_message raising_env envelope_channel).2.pending_calls.map PendingCall.id = [0] ∧
      (read_message returning_env envelope_channel).2.trace =
        [.result_receipt_succeeded { id := some 0, response := none, events := [[9]] },
          .call_lifecycle_event_handler 1,
          .complete_response { id := some 0, response := none, events := [[9]] },
          .Run 7 sample_void] ∧
      (read_message returning_env envelope_channel).2.pending_calls = [] := by
  decide

/-- C20, as the claim states it, fails: in an envelope with the event records `[9]` and
`[10]`, the lifecycle handler throws on `[9]`; the error is reported and the record `[10]`
is not processed: its `update_configuration` is absent from the trace. With a handler
that returns, `[10]` is processed. -/
theorem C20_later_records_skipped :
    (read_message raising_env two_records_channel).2.trace =
        [.result_receipt_succeeded { id := none, response := none, events := [[9], [10]] },
          .call_lifecycle_event_handler 1,
          .result_processing_failed { id := none, response := none, events := [[9], [10]] }
            (Exn.exception "lifecycle handler failed")] ∧
      (read_message returning_env two_records_channel).2.trace =
        [.result_receipt_succeeded { id := none, response := none, events := [[9], [10]] },
          .call_lifecycle_event_handler 1,
          .update_configuration [5]] := by
  decide

/-- C20, amended: when the event records before `event` are processed without error (from
the state `c` to `c1`) and `process_event_sequence` throws `x` on `event` (leaving `c2`),
the processing block catches the error, reports it once via `result_processing_failed`
and returns: the state is `c2` with that report appended, so no record after `event` is
passed to `process_event_sequence`. -/
theorem C20_error_ends_event_processing (env : Env) (result : Result)
    (before after : List (List Nat)) (event : List Nat) (c c1 c2 : MirProtobufRpcChannel)
    (x : Exn) (hev : result.events = before ++ event :: after)
    (hbefore : process_events env before c = (.ok (), c1))
    (hraise : process_event_sequence env event c1 = (.error x, c2)) :
    process_result env result c =
      (.ok (), { c2 with trace := c2.trace ++ [.result_processing_failed result x] }) := by
  have h := process_events_append env before (event :: after) c c1 hbefore
  rw [process_events_raise env event after c1 c2 x hraise] at h
  simp only [process_result, M.tryCatch_run, M.bind_run, hev, h, emit_run]

/-- The envelope with the records `[9]` and `[10]`, whose first record throws. -/
theorem C20_error_ends_event_processing_witness :
    process_result raising_env { id := none, response := none, events := [[9], [10]] }
        two_records_channel =
      (.ok (), { two_records_channel with
        trace := [.call_lifecycle_event_handler 1,
          .result_processing_failed { id := none, response := none, events := [[9], [10]] }
            (Exn.exception "lifecycle handler failed")] }) :=
  C20_error_ends_event_processing raising_env
    { id := none, response := none, events := [[9], [10]] } [] [[10]] [9]
    two_records_channel two_records_channel
    { two_records_channel with trace := [.call_lifecycle_event_handler 1] }
    (Exn.exception "lifecycle handler failed") rfl rfl rfl

/-! ## Failures while an envelope is processed do not end the receive path -/

theorem receive_frame_shrinks (result : Result) (c c1 : MirProtobufRpcChannel) (u : Unit)
    (h : receive_frame result c = (.ok u, c1)) :
    c1.transport.incoming.length + 2 ≤ c.transport.incoming.length := by
  by_cases h2 : 2 ≤ c.transport.incoming.length
  · by_cases h3 : be16toh (c.transport.incoming.take 2) ≤ c.transport.incoming.length - 2
    · simp only [receive_frame, M.tryCatch_run, M.bind_run, transport_receive_data_ok _ _ h2,
        M.update_run, emit_run, M.throw_run] at h
      simp only [transport_receive_data, M.bind_run, M.read_run, List.length_drop, if_pos h3,
        M.update_run, emit_run, M.pure_run, Prod.mk.injEq, true_and] at h
      rw [← h]
      simp only [List.length_drop]
      omega
    · have ht := receive_frame_truncated result c (by omega)
      rw [h] at ht
      simp at ht
  · have ht := receive_frame_truncated result c (by omega)
    rw [h] at ht
    simp at ht

theorem on_message_available_loop_ends (env : Env) (fuel : Nat) :
    ∀ (c : MirProtobufRpcChannel) (b : Bool), c.transport.incoming.length < fuel →
      (on_message_available_loop env fuel c).1 = .ok b →
      b = true ∧ (on_message_available_loop env fuel c).2.transport.incoming = [] := by
  induction fuel with
  | zero => intro c b hfuel; omega
  | succ n ih =>
    intro c b hfuel h
    simp only [on_message_available_loop, M.bind_run, transport_data_available, M.read_run,
      M.pure_run] at h ⊢
    cases hav : c.transport.incoming.isEmpty with
    | true =>
      simp only [hav, Bool.not_true, Bool.false_eq_true, if_false, M.pure_run,
        Except.ok.injEq] at h ⊢
      exact ⟨h.symm, by simpa using hav⟩
    | false =>
      simp only [hav, Bool.not_false, if_true, M.bind_run] at h ⊢
      rcases hf : receive_frame Result.default c with ⟨r, c1⟩
      rw [hf] at h
      cases r with
      | error y => simp at h
      | ok u =>
        have hs := receive_frame_shrinks _ _ _ _ hf
        simp only [process_result_default] at h ⊢
        exact ih c1 b (by omega) h

theorem on_message_available_loop_step (env : Env) (fuel : Nat) (c c1 : MirProtobufRpcChannel)
    (hav : c.transport.incoming ≠ [])
    (hf : receive_frame Result.default c = (.ok (), c1)) :
    on_message_available_loop env (fuel + 1) c =
      on_message_available_loop env fuel (process_result env Result.default c1).2 := by
  have he : c.transport.incoming.isEmpty = false := by
    cases hi : c.transport.incoming with
    | nil => exact absurd hi hav
    | cons a l => rfl
  simp only [on_message_available_loop, M.bind_run, transport_data_available, M.read_run,
    M.pure_run, he, Bool.not_false, if_true, hf, process_result_default]

theorem process_result_caught (env : Env) (result : Result) (c c2 : MirProtobufRpcChannel)
    (x : Exn)
    (h : (process_events env result.events >>= fun _ =>
      if result.has_id then pending_calls_complete_response env result else pure ()) c =
        (.error x, c2)) :
    process_result env result c =
      (.ok (), { c2 with trace := c2.trace ++ [.result_processing_failed result x] }) := by
  simp only [process_result, M.tryCatch_run, emit_run]
  rw [show (process_events env result.events >>= fun _ =>
      if result.has_id = true then pending_calls_complete_response env result else pure PUnit.unit)
        c = (.error x, c2) from h]

/-- C21 (processing failures are non-fatal): for every envelope and channel state, the
processing block of `read_message` and `on_message_available` returns and leaves the
disconnected flag as it was; an error thrown while the event records are processed or
while the response is completed is caught there and reported, once, via
`result_processing_failed`. So `read_message` returns and leaves the flag as it was.
`on_message_available` leaves the flag as it was, throws only the error of a failed read
of a frame, goes from a frame it has read and processed to the next iteration of its
loop, and when it returns the transport has no data left. -/
theorem C21_processing_failures_non_fatal (env : Env) (result : Result)
    (c : MirProtobufRpcChannel) :
    (process_result env result c).1 = .ok () ∧
      (process_result env result c).2.disconnected = c.disconnected ∧
      (∀ (x : Exn) (c2 : MirProtobufRpcChannel),
        process_events env result.events c = (.error x, c2) →
        process_result env result c =
          (.ok (), { c2 with trace := c2.trace ++ [.result_processing_failed result x] })) ∧
      (∀ (c1 : MirProtobufRpcChannel) (x : Exn) (c2 : MirProtobufRpcChannel),
        process_events env result.events c = (.ok (), c1) → result.has_id = true →
        pending_calls_complete_response env result c1 = (.error x, c2) →
        process_result env result c =
          (.ok (), { c2 with trace := c2.trace ++ [.result_processing_failed result x] })) ∧
      (read_message env c).1 = .ok () ∧
      (read_message env c).2.disconnected = c.disconnected ∧
      (on_message_available env c).2.disconnected = c.disconnected ∧
      (∀ x : Exn, (on_message_available env c).1 = .error x →
        (on_message_available env c).2.trace.getLast? = some (.result_receipt_failed x)) ∧
      (∀ b : Bool, (on_message_available env c).1 = .ok b →
        b = true ∧ (on_message_available env c).2.transport.incoming = []) ∧
      (∀ (fuel : Nat) (c1 : MirProtobufRpcChannel), c.transport.incoming ≠ [] →
        receive_frame Result.default c = (.ok (), c1) →
        on_message_available_loop env (fuel + 1) c =
          on_message_available_loop env fuel (process_result env Result.default c1).2) := by
  refine ⟨process_result_returns env result c,
    (process_result_quiet env (pushes_only_true env) result c).1, ?_, ?_,
    read_message_returns env c, (read_message_quiet env (pushes_only_true env) c).1,
    (on_message_available_quiet env (pushes_only_true env) c).1, ?_, ?_, ?_⟩
  · intro x c2 h
    refine process_result_caught env result c c2 x ?_
    simp only [M.bind_run, h]
  · intro c1 x c2 h hid hc
    refine process_result_caught env result c c2 x ?_
    simp only [M.bind_run, h, hid, if_true, hc]
  · intro x h
    simp only [on_message_available, M.bind_run, M.read_run] at h ⊢
    exact on_message_available_loop_error env _ c x h
  · intro b h
    simp only [on_message_available, M.bind_run, M.read_run] at h ⊢
    exact on_message_available_loop_ends env _ c b (Nat.lt_succ_self _) h
  · intro fuel c1 hav hf
    exact on_message_available_loop_step env fuel c c1 hav hf

/-- The envelope with call id 0 whose lifecycle handler throws: the error is reported and
the processing block returns. -/
theorem C21_processing_failures_non_fatal_witness :
    process_result raising_env { id := some 0, response := none, events := [[9]] }
        envelope_channel =
      (.ok (), { envelope_channel with
        trace := [.call_lifecycle_event_handler 1,
          .result_processing_failed { id := some 0, response := none, events := [[9]] }
            (Exn.exception "lifecycle handler failed")] }) :=
  (C21_processing_failures_non_fatal raising_env
    { id := some 0, response := none, events := [[9]] } envelope_channel).2.2.1
    (Exn.exception "lifecycle handler failed")
    { envelope_channel with trace := [.call_lifecycle_event_handler 1] } rfl

/-! ## Where pushed events go -/

theorem process_event_sequence_parsed (env : Env) (event : List Nat) :
    process_event_sequence env event =
      process_parsed_event_sequence env (env.parse_event_sequence event) := rfl

theorem M.routes_pure : M.Routes (pure ()) fun _ => [] :=
  fun _ => ⟨[], by simp, List.prefix_refl _, fun _ => rfl⟩

theorem M.routes_emit (e : Effect) : M.Routes (emit e) fun _ => [e] :=
  fun _ => ⟨[e], rfl, List.prefix_refl _, fun _ => rfl⟩

theorem M.routes_call (e : Effect) (outcome : Option Exn) :
    M.Routes (emit e >>= fun _ => sink outcome) fun _ => [e] := by
  intro c
  refine ⟨[e], ?_, List.prefix_refl _, fun _ => rfl⟩
  cases outcome <;> rfl

theorem M.routes_bind {m n : M Unit} {a b : List Int → List Effect} (hm : M.Routes m a)
    (hn : M.Routes n b) : M.Routes (m >>= fun _ => n) fun sm => a sm ++ b sm := by
  intro c
  obtain ⟨es1, h1, p1, k1⟩ := hm c
  rw [M.bind_run]
  rcases h : m c with ⟨r, c1⟩
  rw [h] at h1 k1
  simp only at h1 k1
  cases r with
  | error x =>
    refine ⟨es1, h1, p1.trans (List.prefix_append _ _), ?_⟩
    intro hok
    simp at hok
  | ok u =>
    have e1 := k1 rfl
    obtain ⟨es2, h2, p2, k2⟩ := hn c1
    subst h1
    refine ⟨es1 ++ es2, ?_, ?_, ?_⟩
    · simp only [h2, List.append_assoc]
    · rw [e1]
      exact (List.prefix_append_right_inj _).mpr p2
    · intro hok
      rw [e1, k2 hok]

theorem M.Routes.congr {m : M Unit} {a b : List Int → List Effect} (hm : M.Routes m a)
    (h : ∀ sm, a sm = b sm) : M.Routes m b := by
  have : a = b := funext h
  rw [← this]
  exact hm

theorem with_surface_do_routes (env : Env) (id : Int) (e : List Nat) :
    M.Routes (with_surface_do env id e) fun sm =>
      .with_surface_do id :: (if id ∈ sm then [.handle_event id e] else []) := by
  intro c
  by_cases h : id ∈ c.surface_map
  · refine ⟨[.with_surface_do id, .handle_event id e], ?_, by simp [h], fun _ => by simp [h]⟩
    simp only [with_surface_do, M.bind_run, emit_run, M.read_run, h, if_true]
    cases env.handle_event id e <;> simp [sink]
  · refine ⟨[.with_surface_do id], ?_, by simp [h], fun _ => by simp [h]⟩
    simp [with_surface_do, h]

theorem process_raw_events_routes (env : Env) (events : List Event) :
    M.Routes (process_raw_events env events) fun sm =>
      events.flatMap (Event.routing env sm) := by
  induction events with
  | nil => exact M.routes_pure
  | cons event rest ih =>
    unfold process_raw_events
    simp only []
    split
    · next raw_event hraw =>
      split
      · next hsize =>
        refine (M.routes_bind (M.routes_emit _)
          (M.routes_bind (with_surface_do_routes env _ raw_event) ih)).congr ?_
        intro sm
        simp [Event.routing, hraw, hsize]
      · next hsize =>
        refine (M.routes_bind (M.routes_emit _) ih).congr ?_
        intro sm
        simp [Event.routing, hraw, hsize]
    · next hraw =>
      refine (M.routes_bind M.routes_pure ih).congr ?_
      intro sm
      simp [Event.routing, hraw]

theorem process_parsed_event_sequence_routes (env : Env) (seq : EventSequence) :
    M.Routes (process_parsed_event_sequence env seq) (seq.routing env) := by
  have hrest : M.Routes
      (match seq.lifecycle_event with
        | some lifecycle_event => do
          let y ← call_lifecycle_event_handler env lifecycle_event.new_state
          (fun _ => process_raw_events env seq.event) y
        | none => do
          let y ← pure ()
          (fun _ => process_raw_events env seq.event) y)
      fun sm =>
        (match seq.lifecycle_event with
          | some lifecycle_event => [.call_lifecycle_event_handler lifecycle_event.new_state]
          | none => []) ++ seq.event.flatMap (Event.routing env sm) := by
    split
    · exact M.routes_bind (M.routes_call _ _) (process_raw_events_routes env _)
    · exact M.routes_bind M.routes_pure (process_raw_events_routes env _)
  unfold process_parsed_event_sequence EventSequence.routing
  simp only []
  split
  · exact M.routes_bind (M.routes_call _ _) hrest
  · exact M.routes_bind M.routes_pure hrest

theorem process_raw_events_append (env : Env) (before rest : List Event) :
    ∀ c : MirProtobufRpcChannel,
      process_raw_events env (before ++ rest) c =
        match process_raw_events env before c with
        | (.ok _, c1) => process_raw_events env rest c1
        | (.error x, c1) => (.error x, c1) := by
  induction before with
  | nil => intro c; rfl
  | cons event before ih =>
    intro c
    cases hraw : event.raw with
    | none =>
      simp only [List.cons_append, process_raw_events, hraw, M.bind_run, M.pure_run]
      exact ih _
    | some raw_event =>
      by_cases hsize : raw_event.length = env.sizeof_MirEvent
      · simp only [List.cons_append, process_raw_events, hraw, hsize, if_true, M.bind_run,
          emit_run]
        split
        · exact ih _
        · rfl
      · simp only [List.cons_append, process_raw_events, hraw, hsize, if_false, M.bind_run,
          emit_run]
        exact ih _

theorem process_parsed_event_sequence_append (env : Env) (seq : EventSequence)
    (before rest : List Event) (h : seq.event = before ++ rest) (c : MirProtobufRpcChannel) :
    process_parsed_event_sequence env seq c =
      match process_parsed_event_sequence env { seq with event := before } c with
      | (.ok _, c1) => process_raw_events env rest c1
      | (.error x, c1) => (.error x, c1) := by
  have ha := process_raw_events_append env before rest
  have hl : ∀ c1 : MirProtobufRpcChannel,
      (match seq.lifecycle_event with
        | some lifecycle_event =>
          call_lifecycle_event_handler env lifecycle_event.new_state >>= fun _ =>
            process_raw_events env (before ++ rest)
        | none => pure () >>= fun _ => process_raw_events env (before ++ rest)) c1 =
      match (match seq.lifecycle_event with
        | some lifecycle_event =>
          call_lifecycle_event_handler env lifecycle_event.new_state >>= fun _ =>
            process_raw_events env before
        | none => pure () >>= fun _ => process_raw_events env before) c1 with
      | (.ok _, c2) => process_raw_events env rest c2
      | (.error x, c2) => (.error x, c2) := by
    intro c1
    cases seq.lifecycle_event with
    | none => exact ha c1
    | some lifecycle_event =>
      simp only [M.bind_run]
      generalize call_lifecycle_event_handler env lifecycle_event.new_state c1 = r
      rcases r with ⟨_ | _, c2⟩
      · rfl
      · exact ha c2
  unfold process_parsed_event_sequence
  simp only [h]
  cases seq.display_configuration with
  | none => exact hl c
  | some config =>
    simp only [M.bind_run]
    generalize update_configuration env config c = r
    rcases r with ⟨_ | _, c1⟩
    · rfl
    · exact hl c1

theorem process_parsed_event_sequence_surface_map (env : Env) (seq : EventSequence)
    (c : MirProtobufRpcChannel) :
    (process_parsed_event_sequence env seq c).2.surface_map = c.surface_map := by
  obtain ⟨es, h, _, _⟩ := process_parsed_event_sequence_routes env seq c
  rw [h]

/-! ## The effects of one envelope -/

theorem process_events_routes (env : Env) (events : List (List Nat)) :
    M.Routes (process_events env events) fun sm =>
      events.flatMap fun event => (env.parse_event_sequence event).routing env sm := by
  induction events with
  | nil => exact M.routes_pure
  | cons event rest ih =>
    unfold process_events
    refine (M.routes_bind
      (process_parsed_event_sequence_routes env (env.parse_event_sequence event)) ih).congr ?_
    intro sm
    simp

theorem Event.event_routing_is_not_receive_data (env : Env) (sm : List Int) (event : Event) :
    ∀ e ∈ event.routing env sm, e.is_receive_data = false := by
  intro e he
  unfold Event.routing at he
  split at he
  · simp at he
  · split at he
    · simp only [List.mem_cons] at he
      rcases he with rfl | rfl | he
      · rfl
      · rfl
      · split at he
        · simp only [List.mem_singleton] at he
          subst he
          rfl
        · simp at he
    · simp only [List.mem_singleton] at he
      subst he
      rfl

theorem EventSequence.sequence_routing_is_not_receive_data (env : Env) (sm : List Int)
    (seq : EventSequence) : ∀ e ∈ seq.routing env sm, e.is_receive_data = false := by
  intro e he
  unfold EventSequence.routing at he
  simp only [List.mem_append, List.mem_flatMap] at he
  rcases he with he | he | ⟨event, _, he⟩
  · split at he
    · simp only [List.mem_singleton] at he
      subst he
      rfl
    · simp at he
  · split at he
    · simp only [List.mem_singleton] at he
      subst he
      rfl
    · simp at he
  · exact Event.event_routing_is_not_receive_data env sm event e he

theorem pending_calls_complete_response_trace (env : Env) (result : Result)
    (c : MirProtobufRpcChannel) :
    ∃ es : List Effect,
      (pending_calls_complete_response env result c).2.trace =
        c.trace ++ .complete_response result :: es ∧
      ∀ e ∈ es, e.is_completion = true ∨ e = .orphaned_result result := by
  cases hfind : c.pending_calls.find? (fun call => call.id == result.id.getD 0) with
  | none =>
    refine ⟨[.orphaned_result result], ?_, by simp⟩
    simp [pending_calls_complete_response, hfind]
  | some call =>
    rcases h : PendingCall.callback
      (env.parse_response call.response (result.response.getD [])) call.complete
      { c with
        pending_calls := c.pending_calls.filter (fun other => other.id != call.id)
        trace := c.trace ++ [.complete_response result] } with ⟨r, c1⟩
    obtain ⟨es, hes, hc1⟩ := PendingCall.callback_steps h
    refine ⟨es, ?_, fun e he => Or.inl (hes e he)⟩
    have ht := congrArg MirProtobufRpcChannel.trace hc1
    simp only [List.append_assoc, List.singleton_append] at ht
    simp only [pending_calls_complete_response, M.bind_run, emit_run, M.read_run, hfind,
      M.update_run, h]
    cases r <;> exact ht

theorem Result.result_routing_is_not_receive_data (env : Env) (sm : List Int) (result : Result) :
    ∀ e ∈ result.routing env sm, e.is_receive_data = false := by
  intro e he
  unfold Result.routing at he
  simp only [List.mem_flatMap] at he
  obtain ⟨event, _, he⟩ := he
  exact EventSequence.sequence_routing_is_not_receive_data env sm _ e he

theorem process_events_returns (env : Env) (events : List (List Nat))
    (c : MirProtobufRpcChannel) (h : (process_events env events c).1 = .ok ()) :
    process_events env events c =
      (.ok (), { c with trace := c.trace ++
        (events.flatMap fun event =>
          (env.parse_event_sequence event).routing env c.surface_map) }) := by
  obtain ⟨es, h2, _, hk⟩ := process_events_routes env events c
  rw [hk h] at h2
  rcases hp : process_events env events c with ⟨r, c1⟩
  rw [hp] at h h2
  simp only at h h2
  rw [h, h2]

/-- C22 (effects of one envelope and their order): in `read_message`, for every decoded
envelope whose processing throws nothing, what `read_message` does after the report of
the receipt is exactly: the calls for each event record, in index order (the state then
is `c` with these appended to the trace), then `complete_response`, once, if and only if
the envelope has a call id. `read_message` then returns; it reads nothing from the
transport, so all of the envelope's effects are there before any next frame is read. -/
theorem C22_envelope_effects_in_order (env : Env) (c : MirProtobufRpcChannel)
    (result : Result)
    (hresult : env.parse_result (c.body_bytes.take
      ((c.header_bytes.getD 0 0 <<< 8) + c.header_bytes.getD 1 0)) = result)
    (hevents : (process_events env result.events
      { c with trace := c.trace ++ [.result_receipt_succeeded result] }).1 = .ok ())
    (hcomplete : result.has_id = true →
      (pending_calls_complete_response env result
        { c with trace := c.trace ++
            .result_receipt_succeeded result :: result.routing env c.surface_map }).1 =
        .ok ()) :
    read_message env c =
        (.ok (),
          if result.has_id then
            (pending_calls_complete_response env result
              { c with trace := c.trace ++
                  .result_receipt_succeeded result :: result.routing env c.surface_map }).2
          else
            { c with trace := c.trace ++
                .result_receipt_succeeded result :: result.routing env c.surface_map }) ∧
      (∃ es : List Effect,
        (read_message env c).2.trace =
          c.trace ++ (.result_receipt_succeeded result :: result.routing env c.surface_map ++
            if result.has_id then .complete_response result :: es else []) ∧
        ∀ e ∈ es, e.is_completion = true ∨ e = .orphaned_result result) ∧
      ∀ e ∈ (read_message env c).2.trace.drop c.trace.length, e.is_receive_data = false := by
  have hp := process_events_returns env result.events _ hevents
  simp only [List.append_assoc, List.singleton_append] at hp
  have key : read_message env c =
      (.ok (),
        if result.has_id then
          (pending_calls_complete_response env result
            { c with trace := c.trace ++
                .result_receipt_succeeded result :: result.routing env c.surface_map }).2
        else
          { c with trace := c.trace ++
              .result_receipt_succeeded result :: result.routing env c.surface_map }) := by
    simp only [read_message, read_message_header, read_message_body, M.bind_run,
      M.tryCatch_run, M.read_run, M.pure_run, emit_run, hresult, process_result, hp]
    cases hid : result.has_id with
    | false => rfl
    | true =>
      have hc := hcomplete hid
      simp only [if_true]
      rcases hq : pending_calls_complete_response env result
        { c with trace := c.trace ++
            .result_receipt_succeeded result :: result.routing env c.surface_map }
        with ⟨r, c2⟩
      rw [hq] at hc
      simp only at hc
      subst hc
      simp only [Result.routing] at hq
      simp only [hq]
  have htrace : ∃ es : List Effect,
      (read_message env c).2.trace =
        c.trace ++ (.result_receipt_succeeded result :: result.routing env c.surface_map ++
          if result.has_id then .complete_response result :: es else []) ∧
      ∀ e ∈ es, e.is_completion = true ∨ e = .orphaned_result result := by
    rw [key]
    cases hid : result.has_id with
    | false => exact ⟨[], by simp, by simp⟩
    | true =>
      obtain ⟨es, hes, hall⟩ := pending_calls_complete_response_trace env result
        { c with trace := c.trace ++
            .result_receipt_succeeded result :: result.routing env c.surface_map }
      refine ⟨es, ?_, hall⟩
      simp only [if_true, hes, List.append_assoc, List.cons_append]
  refine ⟨key, htrace, ?_⟩
  obtain ⟨es, hes, hall⟩ := htrace
  rw [hes, List.drop_left]
  intro e he
  simp only [List.mem_append, List.mem_cons] at he
  rcases he with (rfl | he) | he
  · rfl
  · exact Result.result_routing_is_not_receive_data env _ result e he
  · split at he
    · simp only [List.mem_cons] at he
      rcases he with rfl | he
      · rfl
      · rcases hall e he with h | rfl
        · cases e <;> simp_all [Effect.is_completion, Effect.is_receive_data]
        · rfl
    · simp at he

/-- Three envelopes on the channel with call 0 pending: one with a call id and two event
records, one with the event records and no call id, one with the call id and no event
record. -/
theorem C22_envelope_effects_in_order_witness :
    (read_message envelope_env envelope_channel).2.trace =
        [.result_receipt_succeeded { id := some 0, response := none, events := [[9], [10]] },
          .call_lifecycle_event_handler 1, .update_configuration [5],
          .complete_response { id := some 0, response := none, events := [[9], [10]] },
          .Run 7 sample_void] ∧
      (read_message envelope_env { envelope_channel with body_bytes := [6] }).2.trace =
        [.result_receipt_succeeded { id := none, response := none, events := [[9], [10]] },
          .call_lifecycle_event_handler 1, .update_configuration [5]] ∧
      (read_message envelope_env { envelope_channel with body_bytes := [5] }).2.trace =
        [.result_receipt_succeeded { id := some 0, response := none, events := [] },
          .complete_response { id := some 0, response := none, events := [] },
          .Run 7 sample_void] :=
  ⟨(congrArg (fun r => r.2.trace)
      (C22_envelope_effects_in_order envelope_env envelope_channel
        { id := some 0, response := none, events := [[9], [10]] } rfl rfl (fun _ => rfl)).1).trans
      rfl,
    (congrArg (fun r => r.2.trace)
      (C22_envelope_effects_in_order envelope_env { envelope_channel with body_bytes := [6] }
        { id := none, response := none, events := [[9], [10]] } rfl rfl (fun _ => rfl)).1).trans
      rfl,
    (congrArg (fun r => r.2.trace)
      (C22_envelope_effects_in_order envelope_env { envelope_channel with body_bytes := [5] }
        { id := some 0, response := none, events := [] } rfl rfl (fun _ => rfl)).1).trans
      rfl⟩

/-- C24, as the claim states it, fails: a raw event of `sizeof(MirEvent)` bytes for the
surface 8, which the surface map does not hold, is reported as `event_parsing_succeeded`
and handed to `with_surface_do`; nothing is reported as a failure. -/
theorem C24_unmatched_surface_reported_as_parsed :
    routing_env.surface_id [8, 0, 0, 2] ∉ one_surface_channel.surface_map ∧
      (process_event_sequence routing_env [11] one_surface_channel).2.trace =
        [.event_parsing_succeeded [8, 0, 0, 2], .with_surface_do 8] := by
  decide

/-- C24, amended: for every raw event of `sizeof(MirEvent)` bytes whose surface id is not
in the surface map, `process_event_sequence`, once the display configuration, the
lifecycle event and the events before it are processed, reports
`event_parsing_succeeded` for it and calls `with_surface_do`, which hands it to no
surface; it reports no failure and throws nothing, and goes on with the events after it. -/
theorem C24_unmatched_surface_dropped (env : Env) (event : List Nat)
    (c : MirProtobufRpcChannel) (before after : List Event) (e : Event)
    (raw_event : List Nat)
    (hseq : (env.parse_event_sequence event).event = before ++ e :: after)
    (hraw : e.raw = some raw_event) (hsize : raw_event.length = env.sizeof_MirEvent)
    (hsurf : env.surface_id raw_event ∉ c.surface_map) :
    process_event_sequence env event c =
      match process_parsed_event_sequence env
        { env.parse_event_sequence event with event := before } c with
      | (.ok _, c1) =>
        process_raw_events env after
          { c1 with trace := c1.trace ++
              [.event_parsing_succeeded raw_event,
                .with_surface_do (env.surface_id raw_event)] }
      | (.error x, c1) => (.error x, c1) := by
  rw [process_event_sequence_parsed,
    process_parsed_event_sequence_append env _ before (e :: after) hseq c]
  have hs := process_parsed_event_sequence_surface_map env
    { env.parse_event_sequence event with event := before } c
  rcases hp : process_parsed_event_sequence env
    { env.parse_event_sequence event with event := before } c with ⟨r, c1⟩
  rw [hp] at hs
  simp only at hs
  rw [← hs] at hsurf
  cases r with
  | error x => rfl
  | ok u =>
    simp only [process_raw_events, hraw, hsize, if_true, M.bind_run, emit_run, with_surface_do,
      M.read_run, hsurf, if_false, M.pure_run, List.append_assoc, List.singleton_append]

/-- The record with four events: the third is for the surface 8, which the map does not
hold. -/
theorem C24_unmatched_surface_dropped_witness :
    process_event_sequence routing_env [9] one_surface_channel =
      (.ok (), { one_surface_channel with
        trace := [.update_configuration [5], .call_lifecycle_event_handler 1,
          .event_parsing_succeeded [3, 0, 0, 1], .with_surface_do 3,
          .handle_event 3 [3, 0, 0, 1], .event_parsing_failed { raw := some [1, 2] },
          .event_parsing_succeeded [8, 0, 0, 2], .with_surface_do 8] }) :=
  (C24_unmatched_surface_dropped routing_env [9] one_surface_channel
    [{ raw := some [3, 0, 0, 1] }, { raw := some [1, 2] }] [{ raw := none }]
    { raw := some [8, 0, 0, 2] } [8, 0, 0, 2] rfl rfl rfl (by decide)).trans rfl

/-- C25 (unparseable raw event): for every raw event whose length differs from
`sizeof(MirEvent)`, `process_event_sequence`, once the display configuration, the
lifecycle event and the events before it are processed, reports `event_parsing_failed`
for it and does nothing else with it: it is handed to no surface and nothing is thrown;
then the events after it are processed. -/
theorem C25_unparseable_raw_event (env : Env) (event : List Nat)
    (c : MirProtobufRpcChannel) (before after : List Event) (e : Event)
    (raw_event : List Nat)
    (hseq : (env.parse_event_sequence event).event = before ++ e :: after)
    (hraw : e.raw = some raw_event) (hsize : raw_event.length ≠ env.sizeof_MirEvent) :
    process_event_sequence env event c =
      match process_parsed_event_sequence env
        { env.parse_event_sequence event with event := before } c with
      | (.ok _, c1) =>
        process_raw_events env after
          { c1 with trace := c1.trace ++ [.event_parsing_failed e] }
      | (.error x, c1) => (.error x, c1) := by
  rw [process_event_sequence_parsed,
    process_parsed_event_sequence_append env _ before (e :: after) hseq c]
  rcases process_parsed_event_sequence env
    { env.parse_event_sequence event with event := before } c with ⟨r, c1⟩
  cases r with
  | error x => rfl
  | ok u =>
    simp only [process_raw_events, hraw, hsize, if_false, M.bind_run, emit_run]

/-- The record with four events: the second has two bytes, and the third is processed
all the same. -/
theorem C25_unparseable_raw_event_witness :
    process_event_sequence routing_env [9] one_surface_channel =
      process_raw_events routing_env [{ raw := some [8, 0, 0, 2] }, { raw := none }]
        { one_surface_channel with
          trace := [.update_configuration [5], .call_lifecycle_event_handler 1,
            .event_parsing_succeeded [3, 0, 0, 1], .with_surface_do 3,
            .handle_event 3 [3, 0, 0, 1], .event_parsing_failed { raw := some [1, 2] }] } :=
  (C25_unparseable_raw_event routing_env [9] one_surface_channel
    [{ raw := some [3, 0, 0, 1] }] [{ raw := some [8, 0, 0, 2] }, { raw := none }]
    { raw := some [1, 2] } [1, 2] rfl rfl (by decide)).trans rfl

/-! ## Large bodies, and responses that are not resolved -/

theorem be16toh_pair (a b : Nat) : be16toh [a, b] = a % 256 * 256 + b % 256 := by
  simp [be16toh]

/-- C27 (header truncation on large bodies): for every invocation whose serialized size
`S` is 65536 or more, `send_message` hands the transport one buffer of `2 + S` bytes: its
first two bytes are `S mod 65536` in big-endian, the whole serialized invocation follows,
and the length the header declares differs from the number of bytes that follow.
`send_message` makes no check of `S`: it returns normally unless the transport's send
fails. -/
theorem C27_header_truncation (env : Env) (body invocation : Invocation)
    (c : MirProtobufRpcChannel) (h : 65536 ≤ (env.serialize body).length) :
    (∃ buffer : List Nat,
      sent_buffers (send_message env body invocation c).2.trace =
        sent_buffers c.trace ++ [buffer] ∧
      buffer.length = 2 + (env.serialize body).length ∧
      buffer.take 2 =
        [(env.serialize body).length % 65536 / 256, (env.serialize body).length % 65536 % 256] ∧
      be16toh (buffer.take 2) = (env.serialize body).length % 65536 ∧
      buffer.drop 2 = env.serialize body ∧
      be16toh (buffer.take 2) ≠ (buffer.drop 2).length) ∧
    (c.transport.send_failures.head? ≠ some true →
      (send_message env body invocation c).1 = .ok ()) := by
  refine ⟨⟨_, send_message_sent env body invocation c, ?_, ?_, ?_, ?_, ?_⟩, ?_⟩
  · simp; omega
  · simp; omega
  · simp only [List.cons_append, List.nil_append, List.take_succ_cons, List.take_zero,
      be16toh_pair]
    omega
  · simp
  · simp only [List.cons_append, List.nil_append, List.take_succ_cons, List.take_zero,
      be16toh_pair, List.drop_succ_cons, List.drop_zero]
    omega
  · intro hs
    rw [send_message_ok env body invocation c hs]

/-- The serializer of 65536 bytes: the header declares 0 bytes and 65536 follow. -/
theorem C27_header_truncation_witness :
    65536 ≤ (oversized_env.serialize sample_invocation).length ∧
      ((∃ buffer : List Nat,
        sent_buffers (send_message oversized_env sample_invocation sample_invocation
          sample_channel).2.trace = sent_buffers sample_channel.trace ++ [buffer] ∧
        buffer.length = 2 + (oversized_env.serialize sample_invocation).length ∧
        buffer.take 2 =
          [(oversized_env.serialize sample_invocation).length % 65536 / 256,
            (oversized_env.serialize sample_invocation).length % 65536 % 256] ∧
        be16toh (buffer.take 2) = (oversized_env.serialize sample_invocation).length % 65536 ∧
        buffer.drop 2 = oversized_env.serialize sample_invocation ∧
        be16toh (buffer.take 2) ≠ (buffer.drop 2).length) ∧
      (sample_channel.transport.send_failures.head? ≠ some true →
        (send_message oversized_env sample_invocation sample_invocation sample_channel).1 =
          .ok ())) :=
  ⟨by rw [oversized_env_length],
    C27_header_truncation oversized_env sample_invocation sample_invocation sample_channel
      (by rw [oversized_env_length])⟩

/-- C28 (resolution is skipped when disconnected): for every response and closure, when
the disconnected flag is true `receive_file_descriptors` requests no descriptors from the
transport and leaves the transport as it was, leaves the response exactly as it was, and
runs the closure once: the one effect it adds is that `Run`. -/
theorem C28_resolution_skipped_when_disconnected (response : Message) (complete : Nat)
    (c : MirProtobufRpcChannel) (h : c.disconnected = true) :
    (receive_file_descriptors response complete c).1 = .ok () ∧
      (receive_file_descriptors response complete c).2.1 = response ∧
      (receive_file_descriptors response complete c).2.2 =
        { c with trace := c.trace ++ [.Run complete response] } ∧
      fd_requests (receive_file_descriptors response complete c).2.2.trace =
        fd_requests c.trace ∧
      (receive_file_descriptors response complete c).2.2.transport = c.transport := by
  rw [receive_file_descriptors_disconnected response complete c h]
  refine ⟨rfl, rfl, rfl, ?_, rfl⟩
  simp

/-- A surface that declares descriptors, on the disconnected sample channel. -/
theorem C28_resolution_skipped_when_disconnected_witness :
    (receive_file_descriptors sample_surface 3 disconnected_channel).2.1 = sample_surface ∧
      (receive_file_descriptors sample_surface 3 disconnected_channel).2.2 =
        { disconnected_channel with
          trace := disconnected_channel.trace ++ [.Run 3 sample_surface] } :=
  ⟨(C28_resolution_skipped_when_disconnected sample_surface 3 disconnected_channel rfl).2.1,
    (C28_resolution_skipped_when_disconnected sample_surface 3 disconnected_channel rfl).2.2.1⟩

/-- C29 (other payload types are untouched): for every response whose type name is none
of the six that `receive_file_descriptors` knows, and for a Screencast without a buffer
and a Connection without a platform, in every channel state `receive_file_descriptors`
returns, leaves the response and the transport as they were, requests no descriptors, and
runs the closure once: the one effect it adds is that `Run`. -/
theorem C29_other_payload_untouched (response : Message) (complete : Nat)
    (c : MirProtobufRpcChannel)
    (h : (∃ type_name rest, response = .other type_name rest ∧
          type_name ∉ fd_bearing_type_names) ∨
        (∃ rest, response = .screencast { buffer := none, rest := rest }) ∨
        (∃ rest, response = .connection { platform := none, rest := rest })) :
    receive_file_descriptors response complete c =
        (.ok (), response, { c with trace := c.trace ++ [.Run complete response] }) ∧
      fd_requests (receive_file_descriptors response complete c).2.2.trace =
        fd_requests c.trace := by
  have key : receive_file_descriptors response complete c =
      (.ok (), response, { c with trace := c.trace ++ [.Run complete response] }) := by
    rcases h with ⟨type_name, rest, rfl, _⟩ | ⟨rest, rfl⟩ | ⟨rest, rfl⟩ <;>
      cases hd : c.disconnected <;>
      simp [receive_file_descriptors, hd, Run, Message.GetTypeName, Message.get_surface,
        Message.get_buffer, Message.get_platform, Message.get_socket_fd,
        receive_any_file_descriptors_for, Message.set_surface, Message.set_buffer,
        Message.set_platform, Message.set_socket_fd]
  rw [key]
  exact ⟨rfl, by simp⟩

/-- A response of the type `mir.protobuf.Void` and a screencast without a buffer, on a
connected channel that has descriptors to receive. -/
theorem C29_other_payload_untouched_witness :
    receive_file_descriptors sample_void 3 sample_receiver =
        (.ok (), sample_void,
          { sample_receiver with trace := sample_receiver.trace ++ [.Run 3 sample_void] }) ∧
      receive_file_descriptors sample_screencast 3 sample_receiver =
        (.ok (), sample_screencast,
          { sample_receiver with
            trace := sample_receiver.trace ++ [.Run 3 sample_screencast] }) :=
  ⟨(C29_other_payload_untouched sample_void 3 sample_receiver
      (Or.inl ⟨_, _, rfl, by decide⟩)).1,
    (C29_other_payload_untouched sample_screencast 3 sample_receiver
      (Or.inr (Or.inl ⟨_, rfl⟩))).1⟩

/-- C30 (resolution replaces rather than extends the fd field): for every fd-bearing
shape and every channel state, after `receive_any_file_descriptors_for` the shape's `fd`
field holds exactly the descriptors received in this call: the next declared number of
descriptors of the transport when the declared count is positive and the transport has
them, nothing otherwise. What the field held before does not matter, and with a declared
count that is not positive the field is empty afterwards. -/
theorem C30_resolution_replaces_fd (s : Shape) (c : MirProtobufRpcChannel) :
    (s.receive_any_file_descriptors_for c).2.1.fd =
        (if 0 < s.fds_on_side_channel ∧
            s.fds_on_side_channel.toNat ≤ c.transport.incoming_fds.length
          then c.transport.incoming_fds.take s.fds_on_side_channel.toNat else []) ∧
      (∀ before : List Int,
        ((s.set_fd before).receive_any_file_descriptors_for c).2.1.fd =
          (s.receive_any_file_descriptors_for c).2.1.fd) ∧
      (¬ 0 < s.fds_on_side_channel → (s.receive_any_file_descriptors_for c).2.1.fd = []) := by
  have key : ∀ t : Shape, (t.receive_any_file_descriptors_for c).2.1.fd =
      (if 0 < t.fds_on_side_channel ∧
          t.fds_on_side_channel.toNat ≤ c.transport.incoming_fds.length
        then c.transport.incoming_fds.take t.fds_on_side_channel.toNat else []) := by
    intro t
    by_cases hpos : 0 < t.fds_on_side_channel
    · by_cases hfds : t.fds_on_side_channel.toNat ≤ c.transport.incoming_fds.length
      · rw [Shape.receive_any_pos t c hpos hfds, if_pos ⟨hpos, hfds⟩]
        simp
      · rw [Shape.receive_any_short t c hpos (by omega), if_neg (fun h => hfds h.2)]
        simp
    · rw [Shape.receive_any_zero t c hpos, if_neg (fun h => hpos h.1)]
      simp
  have hsame : ∀ before : List Int,
      (s.set_fd before).fds_on_side_channel = s.fds_on_side_channel := by
    intro before
    simp [Shape.fds_on_side_channel]
  refine ⟨key s, ?_, ?_⟩
  · intro before
    rw [key, key, hsame]
  · intro hzero
    rw [key, if_neg (fun h => hzero h.1)]

end Mir
